import Mathlib

/-!
Dynamic worker with promises

A shallow embedding of `dynamic-worker.js` (the worker-side request interpreter and
responder) and of `promise-worker-wrapper.js` (the controller-side correlation client),
followed by theorems about them.

Object model used by the worker embedding

* A JavaScript value is a primitive or a reference into a heap of cells.  Numbers are
  integers; floating point values are outside the model.
* A cell lists its own enumerable properties (`props`), its own non-enumerable
  properties (`hidden`) and the members it inherits from its prototype chain
  (`inherited`, flattened).  Properties are data properties; the names that cannot be
  assigned (a property that is not writable, an accessor without a setter) are listed
  in `readOnly`, and an object that takes no new properties is not `extensible`.
  Accessor properties with a setter are outside the model.
* Arrays carry their elements, callable objects carry a code tag.
* The host (engine and browser) is a parameter, `Platform`: stack texts of errors,
  members of primitives, structured cloning, and the bodies of every function that
  is not defined in `dynamic-worker.js`.
* Console output is not modelled.
-/

namespace DynamicWorker

/-- JavaScript values: primitives and heap references. -/
inductive Val where
  | undefined
  | null
  | bool (b : Bool)
  | num (n : Int)
  | str (s : String)
  | ref (a : Nat)
  deriving DecidableEq, Repr, Inhabited

/-- Code tag of a callable object.  `eval` is the scope's dynamic-code-evaluation
primitive, `close` and `createCallback` are the two functions installed by the script
(lines 235 and 243), `callback header` is a closure returned by `createCallback`,
`whenFulfilled header` and `whenRejected header` are the two closures that
`respondWhenDone` passes to `then` (lines 217-219) and to `catch` (lines 220-222), and
`native k` is any other function of the worker scope. -/
inductive Fn where
  | eval
  | close
  | createCallback
  | callback (header : Val)
  | whenFulfilled (header : Val)
  | whenRejected (header : Val)
  | native (k : Nat)
  deriving DecidableEq, Repr

/-- One heap object. -/
structure Cell where
  props : List (String × Val) := []
  hidden : List (String × Val) := []
  inherited : List (String × Val) := []
  elems : Option (List Val) := none
  code : Option Fn := none
  readOnly : List String := []
  extensible : Bool := true
  deriving DecidableEq, Repr

/-- The response object `{id, isError, result}` handed to `self.postMessage`. -/
structure Frame where
  id : Val
  isError : Bool
  result : Val
  deriving DecidableEq, Repr

/-- One function invocation made by the interpreter (`f.apply(thisArg, args)`). -/
structure Call where
  code : Fn
  thisArg : Val
  args : List Val
  deriving DecidableEq, Repr

/-- Worker state: the heap, the frames posted to the controller so far, and the
function invocations made so far. -/
structure World where
  heap : List Cell := []
  outbox : List Frame := []
  calls : List Call := []
  deriving DecidableEq, Repr

/-- Outcome of running worker code: a returned value, a thrown value, or exhaustion of
the evaluation budget of the model. -/
inductive Res where
  | ok (v : Val)
  | throw (e : Val)
  | timeout
  deriving DecidableEq, Repr

/-- What the host contributes. -/
structure Platform where
  /-- Text the engine stores in the `stack` property of `new Error(message)`. -/
  stack : String → String
  /-- Engines differ in the text, but for an error created inside a function none of
  them leaves it empty. -/
  stack_nonempty : ∀ message, stack message ≠ ""
  /-- Member lookup on a primitive value (through its wrapper prototype). -/
  primMember : Val → String → Val
  /-- The engine's string conversion of an object. -/
  display : World → Val → String
  /-- `JSON.stringify` of a string or of a non-callable object. -/
  stringify : World → Val → String
  /-- Conversion of a value assigned to an array's `length`; `none` is a RangeError. -/
  toLength : World → Val → Option Nat
  /-- Whether the structured clone algorithm accepts the value. -/
  cloneable : World → Val → Bool
  /-- The scope's original `close` (captured in `originalClose`, line 233). -/
  originalClose : Val → List Val → World → Res × World
  /-- Body of every function not defined by the script. -/
  invoke : Fn → Val → List Val → World → Res × World

/-- Address of the worker's root scope `self`. -/
def selfAddr : Nat := 0

/-- Address of the scope's `eval` function object. -/
def evalAddr : Nat := 1

/-- Line 3: `var disallowedFunctions = [eval];`. -/
def disallowedFunctions : List Val := [Val.ref evalAddr]

/-- Sequencing: continue with the returned value, pass a throw or a timeout through. -/
def andThen (x : Res × World) (k : Val → World → Res × World) : Res × World :=
  match x with
  | (Res.ok v, w) => k v w
  | (Res.throw e, w) => (Res.throw e, w)
  | (Res.timeout, w) => (Res.timeout, w)

/-- A `try { x } catch (ex) { handler ex }` block. -/
def tryCatch (x : Res × World) (handler : Val → World → Res × World) : Res × World :=
  match x with
  | (Res.throw e, w) => handler e w
  | (Res.ok v, w) => (Res.ok v, w)
  | (Res.timeout, w) => (Res.timeout, w)

/-- The cell at an address (an empty object for an address outside the heap). -/
def cellAt (w : World) (a : Nat) : Cell :=
  (w.heap[a]?).getD {}

/-- Replace the cell at an address. -/
def setCell (w : World) (a : Nat) (c : Cell) : World :=
  { w with heap := w.heap.set a c }

/-- Allocate a fresh cell. -/
def alloc (c : Cell) (w : World) : Val × World :=
  (Val.ref w.heap.length, { w with heap := w.heap ++ [c] })

/-- Allocate an array literal. -/
def allocArray (es : List Val) (w : World) : Val × World :=
  alloc { elems := some es } w

/-- Allocate an object literal. -/
def allocObject (ps : List (String × Val)) (w : World) : Val × World :=
  alloc { props := ps } w

/-- JavaScript truthiness. -/
def truthy : Val → Bool
  | Val.undefined => false
  | Val.null => false
  | Val.bool b => b
  | Val.num n => n != 0
  | Val.str s => s != ""
  | Val.ref _ => true

/-- The `typeof` operator. -/
def typeOf (w : World) : Val → String
  | Val.undefined => "undefined"
  | Val.null => "object"
  | Val.bool _ => "boolean"
  | Val.num _ => "number"
  | Val.str _ => "string"
  | Val.ref a => if (cellAt w a).code.isSome then "function" else "object"

/-- `Array.isArray`. -/
def isArray (w : World) : Val → Bool
  | Val.ref a => (cellAt w a).elems.isSome
  | _ => false

/-- Elements of an array (empty for anything else). -/
def elemsOf (w : World) : Val → List Val
  | Val.ref a => ((cellAt w a).elems).getD []
  | _ => []

/-- Value of a decimal digit. -/
def digitVal (c : Char) : Option Nat :=
  if 48 ≤ c.toNat ∧ c.toNat ≤ 57 then some (c.toNat - 48) else none

/-- Read a run of decimal digits. -/
def parseDigits : List Char → Nat → Option Nat
  | [], acc => some acc
  | c :: cs, acc =>
    match digitVal c with
    | some d => parseDigits cs (acc * 10 + d)
    | none => none

/-- A property name that is a canonical array index: `0`, or digits without a
leading zero, below `2^32 - 1`. -/
def parseIndex (name : String) : Option Nat :=
  match name.data with
  | [] => none
  | [c] => digitVal c
  | c :: cs =>
    if c = '0' then none
    else
      match parseDigits (c :: cs) 0 with
      | some n => if n < 4294967295 then some n else none
      | none => none

/-- Lookup of a named member of a cell: own properties first, then inherited ones. -/
def namedMember (c : Cell) (name : String) : Val :=
  match c.props.lookup name with
  | some v => v
  | none =>
    match c.hidden.lookup name with
    | some v => v
    | none => (c.inherited.lookup name).getD Val.undefined

/-- The member `v[name]` of a value other than `undefined` and `null`. -/
def member (P : Platform) (w : World) (v : Val) (name : String) : Val :=
  match v with
  | Val.ref a =>
    match (cellAt w a).elems with
    | some es =>
      if name = "length" then Val.num es.length
      else
        match parseIndex name with
        | some i => (es[i]?).getD (namedMember (cellAt w a) name)
        | none => namedMember (cellAt w a) name
    | none => namedMember (cellAt w a) name
  | Val.undefined => Val.undefined
  | Val.null => Val.undefined
  | prim => P.primMember prim name

/-- Property-key and string-concatenation conversion of a value. -/
def toStr (P : Platform) (w : World) : Val → String
  | Val.undefined => "undefined"
  | Val.null => "null"
  | Val.bool true => "true"
  | Val.bool false => "false"
  | Val.num n => toString n
  | Val.str s => s
  | Val.ref a => P.display w (Val.ref a)

/-- `JSON.stringify(v)` as it appears inside a string concatenation. -/
def jsonStringify (P : Platform) (w : World) : Val → String
  | Val.undefined => "undefined"
  | Val.null => "null"
  | Val.bool true => "true"
  | Val.bool false => "false"
  | Val.num n => toString n
  | Val.str s => P.stringify w (Val.str s)
  | Val.ref a =>
    if (cellAt w a).code.isSome then "undefined" else P.stringify w (Val.ref a)

/-- The object made by `new Error(message)`: message and stack are own non-enumerable
properties, the name is inherited. -/
def errorCell (P : Platform) (message : String) : Cell :=
  { hidden := [("message", Val.str message), ("stack", Val.str (P.stack message))],
    inherited := [("name", Val.str "Error")] }

/-- `new Error(message)`. -/
def newError (P : Platform) (message : String) (w : World) : Val × World :=
  alloc (errorCell P message) w

/-- `throw new Error(message)`. -/
def throwNew (P : Platform) (message : String) (w : World) : Res × World :=
  (Res.throw (newError P message w).1, (newError P message w).2)

/-- The read `v[name]`: a TypeError on `undefined` and `null`. -/
def getMember (P : Platform) (w : World) (v : Val) (name : String) : Res × World :=
  match v with
  | Val.undefined => throwNew P ("Cannot read properties of undefined (reading " ++ name ++ ")") w
  | Val.null => throwNew P ("Cannot read properties of null (reading " ++ name ++ ")") w
  | _ => (Res.ok (member P w v name), w)

/-- Overwrite or append an entry of a property list. -/
def setEntry (name : String) (value : Val) : List (String × Val) → List (String × Val)
  | [] => [(name, value)]
  | (k, v) :: rest => if k = name then (k, value) :: rest else (k, v) :: setEntry name value rest

/-- Write a named property of a cell: an existing own property keeps its place and its
enumerability, otherwise a new own enumerable property is created. -/
def setNamed (c : Cell) (name : String) (value : Val) : Cell :=
  if (c.props.lookup name).isSome then { c with props := setEntry name value c.props }
  else if (c.hidden.lookup name).isSome then { c with hidden := setEntry name value c.hidden }
  else { c with props := c.props ++ [(name, value)] }

/-- Write element `i` of an element list, extending it with `undefined` when needed. -/
def setElem (es : List Val) (i : Nat) (value : Val) : List Val :=
  if i < es.length then es.set i value
  else es ++ List.replicate (i - es.length) Val.undefined ++ [value]

/-- Set the length of an element list. -/
def resize (es : List Val) (n : Nat) : List Val :=
  es.take n ++ List.replicate (n - es.length) Val.undefined

/-- Whether the cell has an own named property. -/
def hasOwn (c : Cell) (name : String) : Bool :=
  (c.props.lookup name).isSome || (c.hidden.lookup name).isSome

/-- The assignment of a named property of an object in strict mode: a property that
is not there yet can only be added to an extensible object. -/
def setNamedMember (P : Platform) (w : World) (a : Nat) (name : String) (value : Val) :
    Res × World :=
  if hasOwn (cellAt w a) name || (cellAt w a).extensible then
    (Res.ok value, setCell w a (setNamed (cellAt w a) name value))
  else throwNew P ("Cannot add property " ++ name ++ ", object is not extensible") w

/-- The assignment `obj[name] = value` in strict mode; returns the assigned value.  A
TypeError is thrown for a name that cannot be assigned, for a new property or a new
element of an object that is not extensible, for an element beyond a length that
cannot be assigned, and for a value that is not an object. -/
def setMember (P : Platform) (w : World) (obj : Val) (name : String) (value : Val) :
    Res × World :=
  match obj with
  | Val.ref a =>
    if (cellAt w a).readOnly.contains name then
      throwNew P ("Cannot assign to read only property " ++ name ++ " of object") w
    else
      match (cellAt w a).elems with
      | some es =>
        if name = "length" then
          match P.toLength w value with
          | some n => (Res.ok value, setCell w a { cellAt w a with elems := some (resize es n) })
          | none => throwNew P "Invalid array length" w
        else
          match parseIndex name with
          | some i =>
            if i < es.length
                || ((cellAt w a).extensible && !(cellAt w a).readOnly.contains "length") then
              (Res.ok value, setCell w a { cellAt w a with elems := some (setElem es i value) })
            else throwNew P ("Cannot add property " ++ name ++ ", object is not extensible") w
          | none => setNamedMember P w a name value
      | none => setNamedMember P w a name value
  | Val.undefined => throwNew P ("Cannot set properties of undefined (setting " ++ name ++ ")") w
  | Val.null => throwNew P ("Cannot set properties of null (setting " ++ name ++ ")") w
  | _ => throwNew P ("Cannot create property " ++ name ++ " on a primitive value") w

/-- Whether the assignment `obj[name] = value` to the object at address `a` stores the
value: the name can be assigned and is not the length of a list, and the property is
there already or the object takes a new one. -/
def assignable (w : World) (a : Nat) (name : String) : Bool :=
  !(cellAt w a).readOnly.contains name &&
    match (cellAt w a).elems with
    | some es =>
      name != "length" &&
        match parseIndex name with
        | some i =>
          decide (i < es.length)
            || ((cellAt w a).extensible && !(cellAt w a).readOnly.contains "length")
        | none => hasOwn (cellAt w a) name || (cellAt w a).extensible
    | none => hasOwn (cellAt w a) name || (cellAt w a).extensible

/-- The world after element `i` of a list has been written. -/
def writeIndex (w : World) (arr : Val) (i : Nat) (value : Val) : World :=
  match arr with
  | Val.ref a =>
    match (cellAt w a).elems with
    | some es => setCell w a { cellAt w a with elems := some (setElem es i value) }
    | none => w
  | _ => w

/-- The element assignment `arr[i] = value` in strict mode, for an index `i` of a
list: as `setMember` does for the name of the index. -/
def setIndex (P : Platform) (w : World) (arr : Val) (i : Nat) (value : Val) : Res × World :=
  match arr with
  | Val.ref a =>
    match (cellAt w a).elems with
    | some es =>
      if (cellAt w a).readOnly.contains (toString i) then
        throwNew P ("Cannot assign to read only property " ++ toString i ++ " of object") w
      else if i < es.length
          || ((cellAt w a).extensible && !(cellAt w a).readOnly.contains "length") then
        (Res.ok value, writeIndex w arr i value)
      else throwNew P ("Cannot add property " ++ toString i ++ ", object is not extensible") w
    | none => setMember P w arr (toString i) value
  | _ => setMember P w arr (toString i) value

/-- Index entries `i, i+1, ...` of an element list, as enumerated by `Object.assign`. -/
def indexed : Nat → List Val → List (String × Val)
  | _, [] => []
  | i, v :: vs => (toString i, v) :: indexed (i + 1) vs

/-- Own enumerable properties of a value, in enumeration order. -/
def ownEnumerable (w : World) : Val → List (String × Val)
  | Val.ref a =>
    (match (cellAt w a).elems with
     | some es => indexed 0 es
     | none => []) ++ (cellAt w a).props
  | Val.str s => indexed 0 (s.data.map (fun c => Val.str (String.singleton c)))
  | _ => []

/-- `Object.assign({}, source)`. -/
def objectAssign (source : Val) (w : World) : Val × World :=
  allocObject ((ownEnumerable w source).foldl (fun acc kv => setEntry kv.1 kv.2 acc) []) w

/-- Lines 37-41. -/
def checkForDisallowedFunction (P : Platform) (context functionName : Val) (w : World) :
    Res × World :=
  andThen (getMember P w context (toStr P w functionName)) fun f w1 =>
    if disallowedFunctions.contains f then
      throwNew P ("Function " ++ toStr P w1 functionName ++ " cannot be executed.") w1
    else (Res.ok Val.undefined, w1)

/-- Lines 57-61: `response.result = Object.assign({}, response.result)`. -/
def cleanResponse (response : Frame) (w : World) : Frame × World :=
  ({ response with result := (objectAssign response.result w).1 },
   (objectAssign response.result w).2)

/-- Lines 63-65. -/
def getHeaderPropertyValue (P : Platform) (w : World) (header : Val) (property : String) : Val :=
  if truthy header then member P w header property else header

/-- Lines 67-69: `Array.isArray(messageData) ? messageData.shift() : undefined`. -/
def getHeader (w : World) (messageData : Val) : Val × World :=
  match messageData with
  | Val.ref a =>
    match (cellAt w a).elems with
    | some es => (es.headD Val.undefined, setCell w a { cellAt w a with elems := some es.tail })
    | none => (Val.undefined, w)
  | _ => (Val.undefined, w)

/-- Lines 88-104. -/
def isResultError (P : Platform) (w : World) (result : Val) : Bool :=
  if !truthy result then false
  else
    let message :=
      if truthy (member P w result "message") then member P w result "message"
      else member P w result "description"
    if !truthy message || typeOf w message != "string" then false
    else if !truthy (member P w result "stack") || typeOf w (member P w result "stack") != "string"
    then false
    else true

/-- The host's `self.postMessage(response)`: the response is queued for the controller
when the structured clone algorithm accepts it, and a DataCloneError is thrown
otherwise. -/
def postMessage (P : Platform) (response : Frame) (w : World) : Res × World :=
  if P.cloneable w response.id && P.cloneable w response.result then
    (Res.ok Val.undefined, { w with outbox := w.outbox ++ [response] })
  else throwNew P "The object could not be cloned." w

/-- Lines 225-231. -/
def sendResponse (P : Platform) (response : Frame) (w : World) : Res × World :=
  tryCatch (postMessage P response w) fun _ w1 =>
    postMessage P (cleanResponse response w1).1 (cleanResponse response w1).2

/-- Lines 196-212 of `respond`: the response to a result that is not deferred. -/
def respondNow (P : Platform) (header result : Val) (w : World) : Res × World :=
  sendResponse P
    { id := getHeaderPropertyValue P w header "id",
      isError := isResultError P w result,
      result := result } w

/-- The call `f.apply(thisArg, args)`, where `reply` is what the closures of the script
do with their header and a result (they call `respond`).  The invocation is recorded,
then the body runs: lines 235-241 for `close`, lines 243-249 for `createCallback` and
for the closures it returns, lines 217-219 and 220-222 for the two closures of
`respondWhenDone`, the host for everything else. -/
def applyWith (P : Platform) (reply : Val → Val → World → Res × World) (f thisArg : Val)
    (args : List Val) (w : World) : Res × World :=
  match f with
  | Val.ref a =>
    match (cellAt w a).code with
    | some code =>
      let w1 := { w with calls := w.calls ++ [{ code := code, thisArg := thisArg, args := args }] }
      match code with
      | Fn.close =>
        andThen (P.originalClose thisArg args w1) fun _ w2 =>
          (Res.ok (allocObject [("dynamicWorkerMessage", Val.str "Worker closed.")] w2).1,
           (allocObject [("dynamicWorkerMessage", Val.str "Worker closed.")] w2).2)
      | Fn.createCallback =>
        (Res.ok (alloc { code := some (Fn.callback (args.headD Val.undefined)) } w1).1,
         (alloc { code := some (Fn.callback (args.headD Val.undefined)) } w1).2)
      | Fn.callback header =>
        reply header (allocArray args w1).1 (allocArray args w1).2
      | Fn.whenFulfilled header =>
        andThen (reply header (args.headD Val.undefined) w1) fun _ w2 =>
          (Res.ok Val.undefined, w2)
      | Fn.whenRejected header =>
        andThen (reply header (args.headD Val.undefined) w1) fun _ w2 =>
          (Res.ok Val.undefined, w2)
      | other => P.invoke other thisArg args w1
    | none => throwNew P "The value is not a function" w
  | _ => throwNew P "The value is not a function" w

/-- Lines 215-223: `result.then(function ...)` is called with the first closure, then
`catch` is read from what that call returns and is called with the second closure;
nothing is returned.  Neither closure is run here: that is left to the deferred
value.  Should `then` or `catch` be a closure of the script, it is called with a
freshly made closure, or responds with a freshly made list, neither of which is
deferred, so inside these two calls the closures' `respond` is `respondNow`
(`respondWhenDone_applyFn` shows that the calls are those of `applyFn`). -/
def respondWhenDone (P : Platform) (header result : Val) (w : World) : Res × World :=
  andThen
    (applyWith P (respondNow P) (member P w result "then") result
      [(alloc { code := some (Fn.whenFulfilled header) } w).1]
      (alloc { code := some (Fn.whenFulfilled header) } w).2) fun chained w1 =>
  andThen (getMember P w1 chained "catch") fun handler w2 =>
  andThen
    (applyWith P (respondNow P) handler chained
      [(alloc { code := some (Fn.whenRejected header) } w2).1]
      (alloc { code := some (Fn.whenRejected header) } w2).2) fun _ w3 =>
  (Res.ok Val.undefined, w3)

/-- Lines 191-213. -/
def respond (P : Platform) (header result : Val) (w : World) : Res × World :=
  if truthy result && typeOf w (member P w result "then") == "function" then
    respondWhenDone P header result w
  else respondNow P header result w

/-- The call `f.apply(thisArg, args)` with the closures of the script calling
`respond`. -/
def applyFn (P : Platform) (f thisArg : Val) (args : List Val) (w : World) : Res × World :=
  applyWith P (respond P) f thisArg args w

mutual

/-- Lines 106-116. -/
def process (P : Platform) : Nat → Val → World → Res × World
  | 0, _, w => (Res.timeout, w)
  | fuel + 1, request, w =>
    if isArray w request then processFrom P fuel request 0 (Val.ref selfAddr) w
    else processFrom P fuel (allocArray [request] w).1 0 (Val.ref selfAddr) (allocArray [request] w).2

/-- The loop of lines 111-113, from index `i` with the current `result`. -/
def processFrom (P : Platform) : Nat → Val → Nat → Val → World → Res × World
  | 0, _, _, _, w => (Res.timeout, w)
  | fuel + 1, request, i, result, w =>
    if i < (elemsOf w request).length then
      andThen (processRequest P fuel ((elemsOf w request).getD i Val.undefined) result w)
        fun r w1 => processFrom P fuel request (i + 1) r w1
    else (Res.ok result, w)

/-- Lines 118-126. -/
def processMultiple (P : Platform) : Nat → Val → World → Res × World
  | 0, _, w => (Res.timeout, w)
  | fuel + 1, requests, w =>
    if isArray w requests then processMultipleFrom P fuel requests 0 w
    else processMultipleFrom P fuel (allocArray [requests] w).1 0 (allocArray [requests] w).2

/-- The loop of lines 121-123, from index `i`. -/
def processMultipleFrom (P : Platform) : Nat → Val → Nat → World → Res × World
  | 0, _, _, w => (Res.timeout, w)
  | fuel + 1, requests, i, w =>
    if i < (elemsOf w requests).length then
      andThen (process P fuel ((elemsOf w requests).getD i Val.undefined) w) fun r w1 =>
      andThen (setIndex P w1 requests i r) fun _ w2 =>
        processMultipleFrom P fuel requests (i + 1) w2
    else (Res.ok requests, w)

/-- Lines 128-138. -/
def processRequest (P : Platform) : Nat → Val → Val → World → Res × World
  | 0, _, _, w => (Res.timeout, w)
  | fuel + 1, request, context, w =>
    if typeOf w request == "string" then getMember P w context (toStr P w request)
    else if isArray w request && typeOf w (member P w request "0") == "string" then
      processRequestProperty P fuel request context w
    else if request != Val.null && typeOf w request == "object" then
      processRequestObject P fuel request context w
    else throwNew P ("Bad request!\n" ++ jsonStringify P w request) w

/-- Lines 140-155. -/
def processRequestFunction (P : Platform) : Nat → Val → Val → World → Res × World
  | 0, _, _, w => (Res.timeout, w)
  | fuel + 1, request, context, w =>
    andThen (getMember P w request "function") fun name w1 =>
    andThen (getMember P w1 context (toStr P w1 name)) fun f w2 =>
    if typeOf w2 f != "function" then
      throwNew P ("Function " ++ toStr P w2 name ++ " does not exist!") w2
    else
      andThen (checkForDisallowedFunction P context name w2) fun _ w3 =>
      andThen
        (if truthy (member P w3 request "processedArguments") then
          andThen (processMultiple P fuel (member P w3 request "processedArguments") w3)
            fun args w4 => setMember P w4 request "arguments" args
        else (Res.ok Val.undefined, w3)) fun _ w5 =>
      andThen (getMember P w5 context (toStr P w5 (member P w5 request "function"))) fun g w6 =>
      applyFn P g context
        (if isArray w6 (member P w6 request "arguments")
         then elemsOf w6 (member P w6 request "arguments")
         else [member P w6 request "arguments"]) w6

/-- Lines 157-171. -/
def processRequestObject (P : Platform) : Nat → Val → Val → World → Res × World
  | 0, _, _, w => (Res.timeout, w)
  | fuel + 1, request, context, w =>
    andThen (getMember P w request "function") fun name w1 =>
    if typeOf w1 name == "string" then processRequestFunction P fuel request context w1
    else if typeOf w1 (member P w1 request "property") == "string" then
      processRequestProperty P fuel
        (allocArray [member P w1 request "property", member P w1 request "value",
          member P w1 request "processedValue", member P w1 request "processedValueArray"] w1).1
        context
        (allocArray [member P w1 request "property", member P w1 request "value",
          member P w1 request "processedValue", member P w1 request "processedValueArray"] w1).2
    else (Res.ok Val.undefined, w1)

/-- Lines 173-189. -/
def processRequestProperty (P : Platform) : Nat → Val → Val → World → Res × World
  | 0, _, _, w => (Res.timeout, w)
  | fuel + 1, request, context, w =>
    andThen (getMember P w request "1") fun r1 w1 =>
    if typeOf w1 r1 == "undefined" && typeOf w1 (member P w1 request "2") == "undefined"
        && typeOf w1 (member P w1 request "3") == "undefined" then
      getMember P w1 context (toStr P w1 (member P w1 request "0"))
    else
      andThen
        (if truthy (member P w1 request "3") then
          andThen (processMultiple P fuel (member P w1 request "3") w1)
            fun v w2 => setMember P w2 request "1" v
        else if truthy (member P w1 request "2") then
          andThen (process P fuel (member P w1 request "2") w1)
            fun v w2 => setMember P w2 request "1" v
        else (Res.ok Val.undefined, w1)) fun _ w3 =>
      setMember P w3 context (toStr P w3 (member P w3 request "0")) (member P w3 request "1")

end

/-- Lines 71-86, with `messageData` the event's `data`. -/
def handleMessage (P : Platform) (fuel : Nat) (messageData : Val) (w : World) : Res × World :=
  tryCatch
    (andThen (process P fuel messageData (getHeader w messageData).2) fun result w1 =>
      respond P (getHeader w messageData).1 result w1)
    fun ex w2 => respond P (getHeader w messageData).1 ex w2

/-- The messages of the three errors the interpreter throws itself: the bad-request
error (line 137), the function-not-found error (line 142) and the
function-disallowed error (line 39). -/
def InterpreterMessage (P : Platform) (message : String) : Prop :=
  (∃ w request, message = "Bad request!\n" ++ jsonStringify P w request) ∨
  (∃ n, message = "Function " ++ n ++ " does not exist!") ∨
  (∃ n, message = "Function " ++ n ++ " cannot be executed.")

/-- The test by which `respond` takes a result for a deferred value (line 192). -/
def isDeferred (P : Platform) (w : World) (result : Val) : Bool :=
  truthy result && typeOf w (member P w result "then") == "function"

end DynamicWorker

/-!
The controller: `promise-worker-wrapper.js`

Values that cross the boundary are structured-clone data, modelled as trees.
Correlation ids are strings (the generator returns strings), or `none` for `null` and
`undefined`; on such values the comparison `==` used by the lookups is equality.
The effects of the client on its surroundings (promise settlements, callback
invocations, messages posted to the worker) are recorded in an event log.
-/

namespace PromiseWorker

/-- Structured-clone data as seen by the controller. -/
inductive Data where
  | undefined
  | null
  | bool (b : Bool)
  | num (n : Int)
  | str (s : String)
  | arr (es : List Data)
  | obj (ps : List (String × Data))
  deriving Repr

/-- A correlation id: a string, or `none` for `null` and `undefined`. -/
abbrev Id := Option String

/-- Controller-side objects that are compared by identity: the functions supplied by
the application and the registration records created by `registerCallback`.  Only
the functions can be called. -/
inductive Obj where
  | func (n : Nat)
  | record (n : Nat)
  deriving DecidableEq, Repr

/-- An options object or a header: the fields the client reads, each absent or
present, and any further fields. -/
structure Options where
  id : Option Id := none
  thisArg : Option Data := none
  logMessages : Option Bool := none
  logResult : Option Bool := none
  extras : List (String × Data) := []
  deriving Repr

/-- The trigger `{id, resolve, reject}`; `promise` names the promise whose resolving
functions it holds. -/
structure Trigger where
  id : Id
  promise : Nat
  deriving DecidableEq, Repr

/-- The registration `{id, thisArg, callback}`; `ident` is the identity of the record. -/
structure Registration where
  ident : Nat
  id : Id
  thisArg : Data
  callback : Obj
  deriving Repr

/-- An inbound response `{id, isError, result}`. -/
structure Response where
  id : Id
  isError : Bool
  result : Data
  deriving Repr

/-- An outbound message: the header followed by the requests. -/
structure Wire where
  header : Options
  requests : List Data
  deriving Repr

/-- A promise returned by the client: `new Promise(executor)` number `p`, or
`Promise.reject(reason)`. -/
inductive Promise where
  | created (p : Nat)
  | rejected (reason : Data)
  deriving Repr

/-- Effects of the client on its surroundings. -/
inductive Event where
  | spawn (worker : Nat)
  | listen (worker : Nat)
  | unlisten (worker : Nat)
  | kill (worker : Nat)
  | send (worker : Nat) (message : Wire)
  | resolve (promise : Nat) (value : Data)
  | reject (promise : Nat) (reason : Data)
  | apply (callback : Obj) (thisArg : Data) (arguments : Data)
  deriving Repr

/-- What the surroundings contribute: the id generator (`Utilities.uuidv4`, as the
sequence of ids it returns) and the outcome of a function called by
`callback.apply(thisArg, result)` (`none` when the call returns, the thrown value
otherwise). -/
structure Host where
  uuid : Nat → String
  applies : Obj → Data → Data → Option Data

/-- A `PromiseWorker` instance (lines 15-36) together with the counters of the ids,
promises, workers and records created so far and the event log. -/
structure Client where
  callbacks : List Registration := []
  closing : Option Promise := none
  options : Options := { logMessages := some false, logResult := some false }
  triggers : List Trigger := []
  worker : Option Nat := none
  workerId : Id := none
  generated : Nat := 0
  promises : Nat := 0
  workers : Nat := 0
  records : Nat := 0
  events : List Event := []
  deriving Repr

/-- The value `{promiseWorkerMessage: 'Worker closed.'}`. -/
def workerClosed : Data :=
  Data.obj [("promiseWorkerMessage", Data.str "Worker closed.")]

/-- The value `{promiseWorkerMessage: 'Worker closed.  Must first call init()'}`. -/
def workerClosedInit : Data :=
  Data.obj [("promiseWorkerMessage", Data.str "Worker closed.  Must first call init()")]

/-- The value `{promiseWorkerMessage: 'Worker already closed.'}`. -/
def alreadyClosed : Data :=
  Data.obj [("promiseWorkerMessage", Data.str "Worker already closed.")]

/-- JavaScript truthiness of data. -/
def Data.truthy : Data → Bool
  | Data.undefined => false
  | Data.null => false
  | Data.bool b => b
  | Data.num n => n != 0
  | Data.str s => s != ""
  | Data.arr _ => true
  | Data.obj _ => true

/-- The test `d.name === text` for a string `text`. -/
def Data.memberIs (d : Data) (name text : String) : Bool :=
  match d with
  | Data.obj ps =>
    match ps.lookup name with
    | some (Data.str s) => s == text
    | _ => false
  | _ => false

/-- Overwrite or append a field. -/
def setField (name : String) (value : Data) : List (String × Data) → List (String × Data)
  | [] => [(name, value)]
  | (k, v) :: rest => if k = name then (k, value) :: rest else (k, v) :: setField name value rest

/-- `Object.assign(target, source)` on options records: fields of the source win. -/
def assign (target source : Options) : Options :=
  { id := source.id.orElse fun _ => target.id,
    thisArg := source.thisArg.orElse fun _ => target.thisArg,
    logMessages := source.logMessages.orElse fun _ => target.logMessages,
    logResult := source.logResult.orElse fun _ => target.logResult,
    extras := source.extras.foldl (fun acc kv => setField kv.1 kv.2 acc) target.extras }

/-- The field `header.id`. -/
def Options.getId (header : Options) : Id :=
  header.id.getD none

/-- The field `header.thisArg`. -/
def Options.getThisArg (header : Options) : Data :=
  header.thisArg.getD Data.undefined

/-- Lines 53-57. -/
def Callbacks.getById (array : List Registration) (id : Id) : Option Registration :=
  (array.filter fun callback => callback.id == id).head?

/-- Whether `Function.prototype.apply` takes the value for its list of arguments: a
list or another object is read as the arguments, `undefined` and `null` stand for no
arguments, and any other value is refused before the function is called. -/
def Data.isArgumentList : Data → Bool
  | Data.bool _ => false
  | Data.num _ => false
  | Data.str _ => false
  | _ => true

/-- The TypeError of a call `callback.apply(thisArg, result)` that does not reach the
function: the callback is not a function, or the result is not a list of arguments. -/
def applyRefused : Data :=
  Data.obj [("name", Data.str "TypeError")]

/-- Lines 43-51: the events of the call and the value it throws, if any. -/
def Callbacks.execute (H : Host) (array : List Registration) (response : Response) :
    List Event × Option Data :=
  match Callbacks.getById array response.id with
  | none => ([], none)
  | some callback =>
    match callback.callback with
    | Obj.func f =>
      if response.result.isArgumentList then
        ([Event.apply (Obj.func f) callback.thisArg response.result],
         H.applies (Obj.func f) callback.thisArg response.result)
      else ([], some applyRefused)
    | Obj.record _ => ([], some applyRefused)

/-- Lines 59-65: `indexOf` compares the argument with the records of the array. -/
def Callbacks.remove (array : List Registration) (callback : Obj) : List Registration :=
  if array.findIdx (fun r => Obj.record r.ident == callback) < array.length then
    array.eraseIdx (array.findIdx fun r => Obj.record r.ident == callback)
  else array

/-- Lines 67-69. -/
def Callbacks.removeAll (_array : List Registration) : List Registration :=
  []

/-- Lines 78-84. -/
def _isResponseWorkerClosed (response : Response) : Bool :=
  !response.isError && response.result.truthy
    && response.result.memberIs "dynamicWorkerMessage" "Worker closed."

/-- Lines 107-111. -/
def Triggers.getById (array : List Trigger) (id : Id) : Option Trigger :=
  (array.filter fun trigger => trigger.id == id).head?

/-- Lines 123-129. -/
def Triggers.remove (array : List Trigger) (trigger : Trigger) : List Trigger :=
  if array.indexOf trigger < array.length then array.eraseIdx (array.indexOf trigger)
  else array

/-- Lines 91-105: the settlement made, and the array afterwards. -/
def Triggers.activate (array : List Trigger) (response : Response) :
    List Event × List Trigger :=
  match Triggers.getById array response.id with
  | none => ([], array)
  | some trigger =>
    (if !response.isError then [Event.resolve trigger.promise response.result]
     else [Event.reject trigger.promise response.result],
     Triggers.remove array trigger)

/-- Lines 113-121: every trigger is shifted out and rejected. -/
def Triggers.rejectAll (array : List Trigger) : List Event × List Trigger :=
  (array.map fun trigger => Event.reject trigger.promise workerClosed, [])

/-- Line 74: `PromiseWorker._generateId()`. -/
def _generateId (H : Host) (c : Client) : String × Client :=
  (H.uuid c.generated, { c with generated := c.generated + 1 })

/-- Lines 165-180; `options` is `none` when the argument is not an object. -/
def _generateHeader (H : Host) (c : Client) (options : Option Options) : Options × Client :=
  (assign (assign (assign {} c.options) { id := some (some (_generateId H c).1) })
    (options.getD {}),
   (_generateId H c).2)

/-- Lines 134-140. -/
def _addHeaderToMessage (H : Host) (c : Client) (message : Data) (options : Option Options) :
    Wire × Client :=
  ({ header := (_generateHeader H c options).1,
     requests := match message with
       | Data.arr es => es
       | other => [other] },
   (_generateHeader H c options).2)

/-- Lines 273-293. -/
def postMessage (H : Host) (c : Client) (message : Data) (options : Option Options) :
    Promise × Client :=
  match c.worker, c.closing with
  | some worker, none =>
    let wire := (_addHeaderToMessage H c message options).1
    let c1 := (_addHeaderToMessage H c message options).2
    (Promise.created c1.promises,
     { c1 with
       promises := c1.promises + 1,
       triggers := c1.triggers ++ [{ id := wire.header.getId, promise := c1.promises }],
       events := c1.events ++ [Event.send worker wire] })
  | _, _ => (Promise.rejected workerClosedInit, c)

/-- Lines 150-163. -/
def close (H : Host) (c : Client) : Promise × Client :=
  match c.worker, c.closing with
  | some _, none =>
    ((postMessage H c (Data.obj [("function", Data.str "close")])
        (some { id := some c.workerId })).1,
     { (postMessage H c (Data.obj [("function", Data.str "close")])
        (some { id := some c.workerId })).2 with
       closing := some (postMessage H c (Data.obj [("function", Data.str "close")])
        (some { id := some c.workerId })).1 })
  | some _, some closing => (closing, c)
  | none, _ => (Promise.rejected alreadyClosed, c)

/-- Lines 331-335; `options` is `none` when the argument is not an object. -/
def setOptions (c : Client) (options : Option Options) : Client :=
  { c with options := assign c.options (options.getD {}) }

/-- Lines 240-254, the body of the promise executor: the worker is spawned, given its
id and listened to, and the options are applied.  The import of scripts that follows
in a later turn of the event loop is a `postMessage`. -/
def init (H : Host) (c : Client) (options : Option Options) : Client :=
  let c1 := { c with
    worker := some c.workers,
    workers := c.workers + 1,
    workerId := some (_generateId H c).1,
    generated := (_generateId H c).2.generated,
    events := c.events ++ [Event.spawn c.workers, Event.listen c.workers] }
  match options with
  | some o => setOptions c1 (some o)
  | none => c1

/-- Lines 214-225, with the paths already collected in a list. -/
def importScripts (H : Host) (c : Client) (paths : List Data) : Promise × Client :=
  postMessage H c
    (Data.obj [("function", Data.str "importScripts"), ("arguments", Data.arr paths)]) none

/-- Lines 307-320: returns the descriptor `{function: 'createCallback', arguments: header}`
as its header. -/
def registerCallback (H : Host) (c : Client) (callback : Obj) (options : Option Options) :
    Options × Client :=
  let header := (_generateHeader H c options).1
  let c1 := (_generateHeader H c options).2
  (header,
   { c1 with
     records := c1.records + 1,
     callbacks := c1.callbacks ++
       [{ ident := c1.records, id := header.getId, thisArg := header.getThisArg,
          callback := callback }] })

/-- Lines 343-362. -/
def terminate (c : Client) : Client :=
  match c.worker with
  | none => c
  | some worker =>
    let c1 := { c with worker := none, events := c.events ++ [Event.kill worker, Event.unlisten worker] }
    let c2 :=
      match c1.closing, Triggers.getById c1.triggers c1.workerId with
      | some _, some trigger =>
        { c1 with
          events := c1.events ++ [Event.resolve trigger.promise Data.undefined],
          triggers := Triggers.remove c1.triggers trigger }
      | _, _ => c1
    { c2 with
      events := c2.events ++ (Triggers.rejectAll c2.triggers).1,
      triggers := (Triggers.rejectAll c2.triggers).2,
      callbacks := Callbacks.removeAll c2.callbacks,
      closing := none }

/-- Lines 370-372. -/
def unregisterAllCallbacks (c : Client) : Client :=
  { c with callbacks := Callbacks.removeAll c.callbacks }

/-- Lines 385-387. -/
def unregisterCallback (c : Client) (callback : Obj) : Client :=
  { c with callbacks := Callbacks.remove c.callbacks callback }

/-- Lines 182-202: the value thrown out of the listener, if any, and the client
afterwards. -/
def _handleMessageReceived (H : Host) (c : Client) (response : Response) :
    Option Data × Client :=
  let c1 := { c with
    events := c.events ++ (Triggers.activate c.triggers response).1,
    triggers := (Triggers.activate c.triggers response).2 }
  let c2 := { c1 with events := c1.events ++ (Callbacks.execute H c1.callbacks response).1 }
  match (Callbacks.execute H c1.callbacks response).2 with
  | some ex => (some ex, c2)
  | none => if _isResponseWorkerClosed response then (none, terminate c2) else (none, c2)

/-- One call of the client's interface, or one inbound response. -/
inductive Action where
  | init (options : Option Options)
  | postMessage (message : Data) (options : Option Options)
  | importScripts (paths : List Data)
  | registerCallback (callback : Obj) (options : Option Options)
  | unregisterCallback (callback : Obj)
  | unregisterAllCallbacks
  | setOptions (options : Option Options)
  | close
  | receive (response : Response)
  | terminate

/-- The client after one action. -/
def step (H : Host) (c : Client) : Action → Client
  | Action.init options => init H c options
  | Action.postMessage message options => (postMessage H c message options).2
  | Action.importScripts paths => (importScripts H c paths).2
  | Action.registerCallback callback options => (registerCallback H c callback options).2
  | Action.unregisterCallback callback => unregisterCallback c callback
  | Action.unregisterAllCallbacks => unregisterAllCallbacks c
  | Action.setOptions options => setOptions c options
  | Action.close => (close H c).2
  | Action.receive response => (_handleMessageReceived H c response).2
  | Action.terminate => terminate c

/-- The client after a sequence of actions. -/
def run (H : Host) (c : Client) (actions : List Action) : Client :=
  actions.foldl (step H) c

/-- Whether the options passed with an action carry an `id` field of their own. -/
def Action.definesId : Action → Bool
  | Action.postMessage _ (some options) => options.id.isSome
  | Action.registerCallback _ (some options) => options.id.isSome
  | _ => false

/-- The ids of the live triggers. -/
def triggerIds (c : Client) : List Id :=
  c.triggers.map Trigger.id

/-- The ids of the live callback registrations. -/
def callbackIds (c : Client) : List Id :=
  c.callbacks.map Registration.id

/-- No two live triggers share an id, no two live registrations share an id, and no id
belongs to both a trigger and a registration. -/
def UniqueIds (c : Client) : Prop :=
  (triggerIds c).Nodup ∧ (callbackIds c).Nodup ∧ ∀ i ∈ triggerIds c, i ∉ callbackIds c

/-- What holds of every client reached without id overrides: the ids in use are
pairwise distinct and were all issued by the generator, the worker id was issued by
the generator, and while no close is in flight the worker id is not in use. -/
structure Consistent (H : Host) (c : Client) : Prop where
  nodup : (triggerIds c ++ callbackIds c).Nodup
  issued : ∀ i ∈ triggerIds c ++ callbackIds c, ∃ k, k < c.generated ∧ i = some (H.uuid k)
  workerIssued : c.worker.isSome = true → ∃ k, k < c.generated ∧ c.workerId = some (H.uuid k)
  idle : c.worker.isSome = true → c.closing = none → c.workerId ∉ triggerIds c ++ callbackIds c

/-- A generator that never repeats an id: the ids are `x`, `xx`, `xxx`, and so on.
Callbacks return normally. -/
def demoHost : Host where
  uuid := fun n => String.mk (List.replicate (n + 1) 'x')
  applies := fun _ _ _ => none

end PromiseWorker

/-!
A small worker scope used to instantiate the theorems
-/

namespace DynamicWorker

/-- A host whose structured clone rejects functions, with three application functions:
`native 0` returns the list of its arguments, `native 1` throws its first argument,
`native 2` returns its receiver. -/
def demoPlatform : Platform where
  stack := fun _ => "at dynamic-worker.js"
  stack_nonempty := fun _ => (by decide : "at dynamic-worker.js" ≠ "")
  primMember := fun _ _ => Val.undefined
  display := fun _ _ => "[object Object]"
  stringify := fun _ _ => "null"
  toLength := fun _ v =>
    match v with
    | Val.num n => if 0 ≤ n then some n.toNat else none
    | _ => none
  cloneable := fun w v => typeOf w v != "function"
  originalClose := fun _ _ w => (Res.ok Val.undefined, w)
  invoke := fun code thisArg args w =>
    match code with
    | Fn.native 0 => ((Res.ok (allocArray args w).1), (allocArray args w).2)
    | Fn.native 1 => (Res.throw (args.headD Val.undefined), w)
    | Fn.native 2 => (Res.ok thisArg, w)
    | _ => (Res.ok Val.undefined, w)

/-- The root scope at address 0 and the objects it refers to: `eval` (1), `close` (2),
`createCallback` (3), `echo` (4), `raise` (5), the record `note` (6) with an empty
message and a stack, the deferred value `later` (7) that never settles, and the
function (8) that is its `then` and its `catch`.  The scope's `self` cannot be
assigned. -/
def demoScope : List Cell :=
  [ { props := [("close", Val.ref 2), ("createCallback", Val.ref 3), ("echo", Val.ref 4),
                ("raise", Val.ref 5), ("note", Val.ref 6), ("later", Val.ref 7),
                ("five", Val.num 5)],
      hidden := [("eval", Val.ref 1)],
      inherited := [("self", Val.ref 0)],
      readOnly := ["self"] },
    { code := some Fn.eval },
    { code := some Fn.close },
    { code := some Fn.createCallback },
    { code := some (Fn.native 0) },
    { code := some (Fn.native 1) },
    { props := [("message", Val.str ""), ("stack", Val.str "at line 1")] },
    { props := [("then", Val.ref 8), ("catch", Val.ref 8)] },
    { code := some (Fn.native 2) } ]

/-- The scope with a message `[header, request]` at address 11, where the header (9)
is `{id: 'a'}` and the request (10) is the given cell. -/
def demoWorld (request : Cell) : World :=
  { heap := demoScope ++
      [ { props := [("id", Val.str "a")] },
        request,
        { elems := some [Val.ref 9, Val.ref 10] } ] }

/-- The scope with a message `[header, request]` at address 11 as in `demoWorld`, and
one more object of the message at address 12. -/
def demoWorld2 (request part : Cell) : World :=
  { heap := demoScope ++
      [ { props := [("id", Val.str "a")] },
        request,
        { elems := some [Val.ref 9, Val.ref 10] },
        part ] }

/-- The scope with a message `[header, name]` at address 10, where the header (9) is
`{id: 'a'}` and the request is a bare name. -/
def demoRead (name : String) : World :=
  { heap := demoScope ++
      [ { props := [("id", Val.str "a")] },
        { elems := some [Val.ref 9, Val.str name] } ] }

end DynamicWorker

namespace DynamicWorker

/-- A structured clone that walks the value: a function is rejected wherever it occurs
among the elements and the own enumerable properties. -/
def deepCloneable : Nat → World → Val → Bool
  | 0, _, _ => false
  | fuel + 1, w, Val.ref a =>
    (cellAt w a).code.isNone &&
    (((cellAt w a).elems.getD []).all fun v => deepCloneable fuel w v) &&
    ((cellAt w a).props.all fun kv => deepCloneable fuel w kv.2)
  | _ + 1, _, _ => true

/-- Outcome of the independent-list rule: the results, the fault of the first request
that fails, or exhaustion of the evaluation budget. -/
inductive Resolved where
  | values (vs : List Val)
  | failed (e : Val)
  | exhausted
  deriving DecidableEq, Repr

/-- The independent-list rule in the words of the specification: the requests `rs` of
the list `requests`, standing at the indices from `i` on, are evaluated one after the
other, each as its own message starting again from the root scope (`process`) and
never against the result of another; each result is assigned to the place of its
request.  Returns the results. -/
def resolveIndependently (P : Platform) :
    Nat → Val → Nat → List Val → World → Resolved × World
  | _, _, _, [], w => (Resolved.values [], w)
  | 0, _, _, _ :: _, w => (Resolved.exhausted, w)
  | fuel + 1, requests, i, r :: rest, w =>
    match process P (fuel + 1) r w with
    | (Res.ok v, w1) =>
      match setIndex P w1 requests i v with
      | (Res.ok _, w2) =>
        match resolveIndependently P fuel requests (i + 1) rest w2 with
        | (Resolved.values vs, w3) => (Resolved.values (v :: vs), w3)
        | other => other
      | (Res.throw e, w2) => (Resolved.failed e, w2)
      | (Res.timeout, w2) => (Resolved.exhausted, w2)
    | (Res.throw e, w1) => (Resolved.failed e, w1)
    | (Res.timeout, w1) => (Resolved.exhausted, w1)

/-- Whether the evaluation of each of the requests `rs` of the list `requests`,
standing at the indices from `i` on, leaves the elements of the list as they are. -/
def leavesList (P : Platform) : Nat → Val → Nat → List Val → World → Bool
  | _, _, _, [], _ => true
  | 0, _, _, _ :: _, _ => true
  | fuel + 1, requests, i, r :: rest, w =>
    match process P (fuel + 1) r w with
    | (Res.ok v, w1) =>
      elemsOf w1 requests == elemsOf w requests &&
        match setIndex P w1 requests i v with
        | (Res.ok _, w2) => leavesList P fuel requests (i + 1) rest w2
        | _ => true
    | (Res.throw _, _) => true
    | (Res.timeout, _) => true

/-- The chain rule in the words of the specification: a left fold over the requests,
each step computing `processRequest(element, previousResult)`, starting from
`result`. -/
def foldRequests (P : Platform) : Nat → List Val → Val → World → Res × World
  | _, [], result, w => (Res.ok result, w)
  | 0, _ :: _, _, w => (Res.timeout, w)
  | fuel + 1, r :: rest, result, w =>
    andThen (processRequest P (fuel + 1) r result w) fun v w1 => foldRequests P fuel rest v w1

/-- Whether the evaluation of the requests `rs`, chained from `result`, leaves the
elements of the list `requests` as they are after every step. -/
def keepsList (P : Platform) : Nat → Val → List Val → Val → World → Bool
  | _, _, [], _, _ => true
  | 0, _, _ :: _, _, _ => true
  | fuel + 1, requests, r :: rest, result, w =>
    match processRequest P (fuel + 1) r result w with
    | (Res.ok v, w1) =>
      elemsOf w1 requests == elemsOf w requests && keepsList P fuel requests rest v w1
    | (Res.throw _, _) => true
    | (Res.timeout, _) => true

/-- How a deferred value runs the closures it was given by `then(onFulfilled)` and, on
what that call returned, by `catch(onRejected)`, when it settles with `v`: on
fulfilment the first closure is called with `v`, and a fault thrown by that closure
is passed to the second; on failure the second closure is called with `v`. -/
def whenSettled (P : Platform) (onFulfilled onRejected : Val) (fulfilled : Bool) (v : Val)
    (w : World) : Res × World :=
  if fulfilled then
    tryCatch (applyFn P onFulfilled Val.undefined [v] w) fun ex w1 =>
      applyFn P onRejected Val.undefined [ex] w1
  else applyFn P onRejected Val.undefined [v] w

/-- The host of `demoPlatform` with the walking structured clone. -/
def strictPlatform : Platform :=
  { demoPlatform with cloneable := fun w v => deepCloneable 8 w v }

/-- The scope with the self-referring message `M = [['msg', M], ['2', undefined,
'self'], 'five']` at address 11 (its first two elements at 9 and 10) and the separate
list `[['msg', M], ['2', undefined, 'self']]` of its first two elements at address
12. -/
def cyclicMessage : World :=
  { heap := demoScope ++
      [ { elems := some [Val.str "msg", Val.ref 11] },
        { elems := some [Val.str "2", Val.undefined, Val.str "self"] },
        { elems := some [Val.ref 9, Val.ref 10, Val.str "five"] },
        { elems := some [Val.ref 9, Val.ref 10] } ] }

/-- The scope with the self-referring list `L = [[['msg', L], ['1', undefined,
'note']], 'five']` at address 12: its first element, the message at address 11, is
made of the tuples at 9 and 10. -/
def cyclicList : World :=
  { heap := demoScope ++
      [ { elems := some [Val.str "msg", Val.ref 12] },
        { elems := some [Val.str "1", Val.undefined, Val.str "note"] },
        { elems := some [Val.ref 9, Val.ref 10] },
        { elems := some [Val.ref 11, Val.str "five"] } ] }

end DynamicWorker

namespace PromiseWorker

/-- Lines 280-289: the message with its header, and the client at the moment
`self.worker.postMessage(message)` is reached inside the promise executor: the
promise exists and its trigger is in the table. -/
def registerTrigger (H : Host) (c : Client) (message : Data) (options : Option Options) :
    Wire × Client :=
  ((_addHeaderToMessage H c message options).1,
   { (_addHeaderToMessage H c message options).2 with
     promises := (_addHeaderToMessage H c message options).2.promises + 1,
     triggers := (_addHeaderToMessage H c message options).2.triggers ++
       [{ id := (_addHeaderToMessage H c message options).1.header.getId,
          promise := (_addHeaderToMessage H c message options).2.promises }] })

/-- The close sentinel `{dynamicWorkerMessage: 'Worker closed.'}` as it arrives at the
controller. -/
def closeSentinel : Data :=
  Data.obj [("dynamicWorkerMessage", Data.str "Worker closed.")]

/-- The callback invocations among the events, in order. -/
def invocations (events : List Event) : List Event :=
  events.filter fun e =>
    match e with
    | Event.apply _ _ _ => true
    | _ => false

/-- The host of `demoHost`, except that every callback throws the string `boom`. -/
def throwingHost : Host where
  uuid := demoHost.uuid
  applies := fun _ _ _ => some (Data.str "boom")

end PromiseWorker

/-!
Theorems about the worker
-/

namespace DynamicWorker

/-- A read of a member that is not `undefined` succeeds and leaves the world alone. -/
theorem getMember_of_member (P : Platform) (w : World) (v : Val) (name : String)
    (h : member P w v name ≠ Val.undefined) :
    getMember P w v name = (Res.ok (member P w v name), w) := by
  cases v <;> simp_all [getMember, member]

/-- C1: when `context[n]` is the scope's `eval`, `processRequestFunction` on a request
`{function: n, ...}` throws `new Error('Function n cannot be executed.')`; the world
afterwards is the world before plus that error object, so no function has been
invoked and no nested argument has been resolved. -/
theorem processRequestFunction_eval_disallowed (P : Platform) (fuel : Nat) (w : World)
    (request context : Val) (n : String)
    (hreq : member P w request "function" = Val.str n)
    (hctx : member P w context n = Val.ref evalAddr)
    (heval : (cellAt w evalAddr).code = some Fn.eval) :
    processRequestFunction P (fuel + 1) request context w =
      (Res.throw (Val.ref w.heap.length),
       { w with heap := w.heap ++ [errorCell P ("Function " ++ n ++ " cannot be executed.")] }) := by
  have h1 : getMember P w request "function" = (Res.ok (Val.str n), w) := by
    rw [getMember_of_member P w request "function" (by rw [hreq]; simp), hreq]
  have h2 : getMember P w context n = (Res.ok (Val.ref evalAddr), w) := by
    rw [getMember_of_member P w context n (by rw [hctx]; simp), hctx]
  simp [processRequestFunction, andThen, h1, h2, toStr, typeOf, heval,
    checkForDisallowedFunction, disallowedFunctions, throwNew, newError, alloc]

/-- Witness for C1 in the demo scope: the request `{function: 'eval', arguments: '1+1'}`
against the root scope. -/
theorem processRequestFunction_eval_disallowed_witness :
    member demoPlatform
        (demoWorld { props := [("function", Val.str "eval"), ("arguments", Val.str "1+1")] })
        (Val.ref 10) "function" = Val.str "eval" ∧
    processRequestFunction demoPlatform 1 (Val.ref 10) (Val.ref selfAddr)
        (demoWorld { props := [("function", Val.str "eval"), ("arguments", Val.str "1+1")] }) =
      (Res.throw (Val.ref 12),
       { demoWorld { props := [("function", Val.str "eval"), ("arguments", Val.str "1+1")] } with
         heap := (demoWorld
             { props := [("function", Val.str "eval"), ("arguments", Val.str "1+1")] }).heap ++
           [errorCell demoPlatform ("Function " ++ "eval" ++ " cannot be executed.")] }) :=
  ⟨by decide,
   processRequestFunction_eval_disallowed demoPlatform 0 _ (Val.ref 10) (Val.ref selfAddr) "eval"
     (by decide) (by decide) (by decide)⟩

end DynamicWorker

namespace DynamicWorker

/-- C2: the request `{}` is not a name, not a tuple and has neither a function name nor
a property name, yet `processRequest` returns `undefined` for it instead of throwing
the bad-request error, and `handleMessage` answers it as a success. -/
theorem processRequest_empty_record_returns :
    processRequest demoPlatform 2 (Val.ref 10) (Val.ref selfAddr) (demoWorld {}) =
      (Res.ok Val.undefined, demoWorld {}) ∧
    (handleMessage demoPlatform 4 (Val.ref 11) (demoWorld {})).2.outbox =
      [{ id := Val.str "a", isError := false, result := Val.undefined }] := by
  decide

/-- The type of a value is `string` exactly for strings. -/
theorem typeOf_eq_string (w : World) (v : Val) :
    typeOf w v = "string" ↔ ∃ s, v = Val.str s := by
  cases v <;> simp [typeOf]
  split <;> decide

/-- A string is truthy exactly when it is not empty. -/
theorem truthy_str (s : String) : truthy (Val.str s) = true ↔ s ≠ "" := by
  simp [truthy]

/-- The guard `!v || typeof v !== 'string'` fails exactly for non-empty strings. -/
theorem nonempty_string_test (w : World) (v : Val) :
    (!truthy v || typeOf w v != "string") = false ↔ ∃ s, s ≠ "" ∧ v = Val.str s := by
  cases v <;> simp [truthy, typeOf]
  split <;> simp

/-- C3, counterexample: the record `{message: '', stack: 'at line 1'}` has a
string-typed message field and a string-typed stack field, and `isResultError` is
false for it. -/
theorem isResultError_empty_message :
    typeOf (demoRead "note") (member demoPlatform (demoRead "note") (Val.ref 6) "message")
      = "string" ∧
    typeOf (demoRead "note") (member demoPlatform (demoRead "note") (Val.ref 6) "stack")
      = "string" ∧
    isResultError demoPlatform (demoRead "note") (Val.ref 6) = false := by
  decide

/-- C3, amended: `isResultError(result)` is true exactly when `result` is truthy, the
value `result.message || result.description` is a non-empty string, and
`result.stack` is a non-empty string. -/
theorem isResultError_iff (P : Platform) (w : World) (result : Val) :
    isResultError P w result = true ↔
      truthy result = true ∧
      (∃ s, s ≠ "" ∧
        (member P w result "message" = Val.str s ∨
         (truthy (member P w result "message") = false ∧
          member P w result "description" = Val.str s))) ∧
      (∃ t, t ≠ "" ∧ member P w result "stack" = Val.str t) := by
  unfold isResultError
  cases hr : truthy result
  · simp
  · simp only [Bool.not_true, Bool.false_eq_true, if_false, true_and]
    generalize member P w result "message" = m
    generalize member P w result "description" = d
    generalize member P w result "stack" = st
    rw [← nonempty_string_test w st]
    cases hm : truthy m
    · have hno : ∀ s, s ≠ "" → m ≠ Val.str s := by
        intro s hs hms
        rw [hms, (truthy_str s).mpr hs] at hm
        exact Bool.noConfusion hm
      have hd : (!truthy d || typeOf w d != "string") = false ↔
          ∃ s, s ≠ "" ∧ (m = Val.str s ∨ (false = false ∧ d = Val.str s)) := by
        rw [nonempty_string_test]
        constructor
        · rintro ⟨s, hs, h⟩
          exact ⟨s, hs, Or.inr ⟨rfl, h⟩⟩
        · rintro ⟨s, hs, h | ⟨_, h⟩⟩
          · exact absurd h (hno s hs)
          · exact ⟨s, hs, h⟩
      rw [← hd]
      simp only [hm, Bool.false_eq_true, if_false]
      generalize (!truthy d || typeOf w d != "string") = b1
      generalize (!truthy st || typeOf w st != "string") = b2
      cases b1 <;> cases b2 <;> simp
    · have hyes : (!truthy m || typeOf w m != "string") = false ↔
          ∃ s, s ≠ "" ∧ (m = Val.str s ∨ (true = false ∧ d = Val.str s)) := by
        rw [nonempty_string_test]
        constructor
        · rintro ⟨s, hs, h⟩
          exact ⟨s, hs, Or.inl h⟩
        · rintro ⟨s, hs, h | ⟨h, _⟩⟩
          · exact ⟨s, hs, h⟩
          · exact Bool.noConfusion h
      rw [← hyes]
      simp only [hm, if_true]
      generalize (!truthy m || typeOf w m != "string") = b1
      generalize (!truthy st || typeOf w st != "string") = b2
      cases b1 <;> cases b2 <;> simp

end DynamicWorker

namespace DynamicWorker

/-- A text that starts with a non-empty literal is not empty. -/
theorem append_ne_empty (a b : String) (h : a ≠ "") : a ++ b ≠ "" := by
  intro hab
  have h1 : (a ++ b).data = ("" : String).data := by rw [hab]
  rw [String.data_append] at h1
  have h2 : a.data = [] := (List.append_eq_nil.mp h1).1
  apply h
  cases a
  simp_all

/-- Every message of an interpreter error is non-empty. -/
theorem interpreterMessage_ne_empty (P : Platform) (message : String)
    (h : InterpreterMessage P message) : message ≠ "" := by
  rcases h with ⟨w, r, h⟩ | ⟨n, h⟩ | ⟨n, h⟩
  · rw [h]
    exact append_ne_empty _ _ (by decide)
  · rw [h, String.append_assoc]
    exact append_ne_empty _ _ (by decide)
  · rw [h, String.append_assoc]
    exact append_ne_empty _ _ (by decide)

/-- An error object with a non-empty message is classified as an error. -/
theorem isResultError_errorCell (P : Platform) (w : World) (k : Nat) (message : String)
    (hcell : cellAt w k = errorCell P message) (hne : message ≠ "") :
    isResultError P w (Val.ref k) = true := by
  have hm : member P w (Val.ref k) "message" = Val.str message := by
    simp [member, hcell, errorCell, namedMember, List.lookup]
  have hs : member P w (Val.ref k) "stack" = Val.str (P.stack message) := by
    simp [member, hcell, errorCell, namedMember, List.lookup]
  have hst := P.stack_nonempty message
  simp [isResultError, hm, hs, truthy, typeOf, hne, hst]

/-- What `handleMessage` does with a message `[header, ...requests]` whose evaluation
returns or throws `v`, when `v` is not deferred and the host can clone `v` and the
header id: one frame is posted and nothing is thrown. -/
theorem handleMessage_frame (P : Platform) (fuel : Nat) (w w' : World) (a : Nat)
    (header v : Val) (requests : List Val) (r : Res)
    (hmsg : (cellAt w a).elems = some (header :: requests))
    (hev : process P fuel (Val.ref a)
      (setCell w a { cellAt w a with elems := some requests }) = (r, w'))
    (hr : r = Res.ok v ∨ r = Res.throw v)
    (hnd : isDeferred P w' v = false)
    (hid : P.cloneable w' (getHeaderPropertyValue P w' header "id") = true)
    (hv : P.cloneable w' v = true) :
    handleMessage P fuel (Val.ref a) w =
      (Res.ok Val.undefined,
       { w' with outbox := w'.outbox ++
          [{ id := getHeaderPropertyValue P w' header "id",
             isError := isResultError P w' v,
             result := v }] }) := by
  have hh : getHeader w (Val.ref a) =
      (header, setCell w a { cellAt w a with elems := some requests }) := by
    simp [getHeader, hmsg]
  have hresp : respond P header v w' =
      (Res.ok Val.undefined,
       { w' with outbox := w'.outbox ++
          [{ id := getHeaderPropertyValue P w' header "id",
             isError := isResultError P w' v,
             result := v }] }) := by
    unfold isDeferred at hnd
    simp [respond, respondNow, hnd, sendResponse, postMessage, hid, hv, tryCatch]
  unfold handleMessage
  rw [hh]
  simp only []
  rw [hev]
  rcases hr with h | h <;> subst h <;> simp [andThen, tryCatch, hresp]

end DynamicWorker

namespace DynamicWorker

/-- C4, counterexample.  First message: `[{id: 'a'}, 'createCallback']` evaluates to
the function at address 3, which is not deferred; the frame that is sent carries a
fresh empty object (address 12) instead of it.  Second message:
`[{id: 'a'}, {function: 'raise', processedArguments: ['later']}]` raises the deferred
value at address 7, and no frame is sent. -/
theorem handleMessage_frame_not_the_value :
    ((process demoPlatform 3 (Val.ref 10) (getHeader (demoRead "createCallback") (Val.ref 10)).2).1
        = Res.ok (Val.ref 3) ∧
      isDeferred demoPlatform (demoRead "createCallback") (Val.ref 3) = false ∧
      (handleMessage demoPlatform 3 (Val.ref 10) (demoRead "createCallback")).2.outbox =
        [{ id := Val.str "a", isError := false, result := Val.ref 12 }] ∧
      cellAt (handleMessage demoPlatform 3 (Val.ref 10) (demoRead "createCallback")).2 12 = {}) ∧
    ((process demoPlatform 10 (Val.ref 11)
        (getHeader
          (demoWorld2 { props := [("function", Val.str "raise"), ("processedArguments", Val.ref 12)] }
            { elems := some [Val.str "later"] }) (Val.ref 11)).2).1
        = Res.throw (Val.ref 7) ∧
      (handleMessage demoPlatform 10 (Val.ref 11)
          (demoWorld2 { props := [("function", Val.str "raise"), ("processedArguments", Val.ref 12)] }
            { elems := some [Val.str "later"] })).1 = Res.ok Val.undefined ∧
      (handleMessage demoPlatform 10 (Val.ref 11)
          (demoWorld2 { props := [("function", Val.str "raise"), ("processedArguments", Val.ref 12)] }
            { elems := some [Val.str "later"] })).2.outbox = []) := by
  decide

/-- C4, amended: for a message `[header, ...requests]` whose evaluation returns or
raises a value `v` that is not deferred and that the host can clone together with the
header id, `handleMessage` throws nothing and posts exactly one frame
`{id: header.id, isError: isResultError(v), result: v}`; when `v` is one of the
interpreter's own errors, `isError` is true. -/
theorem handleMessage_sends_one_frame (P : Platform) (fuel : Nat) (w w' : World) (a : Nat)
    (header v : Val) (requests : List Val) (r : Res)
    (hmsg : (cellAt w a).elems = some (header :: requests))
    (hev : process P fuel (Val.ref a)
      (setCell w a { cellAt w a with elems := some requests }) = (r, w'))
    (hr : r = Res.ok v ∨ r = Res.throw v)
    (hnd : isDeferred P w' v = false)
    (hid : P.cloneable w' (getHeaderPropertyValue P w' header "id") = true)
    (hv : P.cloneable w' v = true) :
    handleMessage P fuel (Val.ref a) w =
      (Res.ok Val.undefined,
       { w' with outbox := w'.outbox ++
          [{ id := getHeaderPropertyValue P w' header "id",
             isError := isResultError P w' v,
             result := v }] }) ∧
    (∀ k message, v = Val.ref k → cellAt w' k = errorCell P message →
      InterpreterMessage P message → isResultError P w' v = true) := by
  refine ⟨handleMessage_frame P fuel w w' a header v requests r hmsg hev hr hnd hid hv, ?_⟩
  intro k message hk hcell hmessage
  rw [hk]
  exact isResultError_errorCell P w' k message hcell
    (interpreterMessage_ne_empty P message hmessage)

/-- Witness for C4: the message `[{id: 'a'}, {function: 'eval', arguments: '1+1'}]` is
answered by one frame carrying the function-disallowed error, flagged as an error. -/
theorem handleMessage_sends_one_frame_witness :
    (handleMessage demoPlatform 5 (Val.ref 11)
      (demoWorld { props := [("function", Val.str "eval"), ("arguments", Val.str "1+1")] })).2.outbox
      = [{ id := Val.str "a", isError := true, result := Val.ref 12 }] ∧
    isResultError demoPlatform
      (process demoPlatform 5 (Val.ref 11)
        (setCell (demoWorld { props := [("function", Val.str "eval"), ("arguments", Val.str "1+1")] })
          11 { elems := some [Val.ref 10] })).2 (Val.ref 12) = true := by
  have h := handleMessage_sends_one_frame demoPlatform 5
    (demoWorld { props := [("function", Val.str "eval"), ("arguments", Val.str "1+1")] })
    (process demoPlatform 5 (Val.ref 11)
        (setCell (demoWorld { props := [("function", Val.str "eval"), ("arguments", Val.str "1+1")] })
          11 { elems := some [Val.ref 10] })).2
    11 (Val.ref 9) (Val.ref 12) [Val.ref 10] (Res.throw (Val.ref 12))
    (by decide) (by decide) (Or.inr rfl) (by decide) (by decide) (by decide)
  refine ⟨?_, h.2 12 "Function eval cannot be executed." rfl (by decide) (Or.inr (Or.inr ⟨"eval", by decide⟩))⟩
  rw [h.1]
  decide

end DynamicWorker

/-!
Theorems about the controller
-/

namespace PromiseWorker

/-- The lookup finds nothing exactly when no trigger has the id. -/
theorem Triggers.getById_eq_none (array : List Trigger) (id : Id) :
    Triggers.getById array id = none ↔ ∀ t ∈ array, t.id ≠ id := by
  induction array with
  | nil => simp [Triggers.getById]
  | cons u rest ih =>
    unfold Triggers.getById at ih ⊢
    by_cases h : u.id = id
    · rw [List.filter_cons_of_pos (by simpa using h)]
      simp [h]
    · rw [List.filter_cons_of_neg (by simpa using h), ih]
      simp [h]

/-- A trigger returned by the lookup is in the array and has the id. -/
theorem Triggers.getById_some (array : List Trigger) (id : Id) (t : Trigger)
    (h : Triggers.getById array id = some t) : t ∈ array ∧ t.id = id := by
  unfold Triggers.getById at h
  have hm : t ∈ array.filter fun trigger => trigger.id == id := List.mem_of_mem_head? h
  have := List.mem_filter.mp hm
  exact ⟨this.1, by simpa using this.2⟩

/-- With distinct ids the lookup returns the one trigger that has the id. -/
theorem Triggers.getById_of_mem (array : List Trigger) (t : Trigger)
    (hd : (array.map Trigger.id).Nodup) (ht : t ∈ array) :
    Triggers.getById array t.id = some t := by
  induction array with
  | nil => cases ht
  | cons u rest ih =>
    rw [List.map_cons, List.nodup_cons] at hd
    unfold Triggers.getById at ih ⊢
    rcases List.mem_cons.mp ht with h | h
    · subst h
      rw [List.filter_cons_of_pos (by simp)]
      rfl
    · have hne : u.id ≠ t.id := by
        intro he
        exact hd.1 (he ▸ List.mem_map_of_mem Trigger.id h)
      rw [List.filter_cons_of_neg (by simpa using hne)]
      exact ih hd.2 h

/-- Removal by identity is the erasure of the first occurrence. -/
theorem Triggers.remove_eq_erase (array : List Trigger) (t : Trigger) :
    Triggers.remove array t = array.erase t := by
  unfold Triggers.remove
  split
  · exact List.eraseIdx_indexOf_eq_erase t array
  · rename_i h
    have : t ∉ array := fun hm => h (List.indexOf_lt_length.mpr hm)
    exact (List.erase_of_not_mem this).symm

/-- With distinct ids, erasing a trigger keeps exactly the triggers with another id. -/
theorem erase_eq_filter_id (array : List Trigger) (t : Trigger)
    (hd : (array.map Trigger.id).Nodup) (ht : t ∈ array) :
    array.erase t = array.filter fun u => u.id != t.id := by
  induction array with
  | nil => cases ht
  | cons u rest ih =>
    rw [List.map_cons, List.nodup_cons] at hd
    by_cases h : u = t
    · subst h
      have hall : ∀ v ∈ rest, (v.id != u.id) = true := by
        intro v hv
        have : v.id ≠ u.id := fun he => hd.1 (he ▸ List.mem_map_of_mem Trigger.id hv)
        simpa using this
      rw [List.erase_cons_head, List.filter_cons_of_neg (by simp)]
      exact (List.filter_eq_self.mpr hall).symm
    · have hmem : t ∈ rest := by
        rcases List.mem_cons.mp ht with h1 | h1
        · exact absurd h1.symm h
        · exact h1
      have hne : u.id ≠ t.id := fun he => hd.1 (he ▸ List.mem_map_of_mem Trigger.id hmem)
      rw [List.erase_cons_tail (by simpa using h),
        List.filter_cons_of_pos (by simpa using hne), ih hd.2 hmem]

end PromiseWorker

namespace PromiseWorker

open DynamicWorker

/-- C5, counterexample.  The record `note` of the scope, `{message: '', stack: 'at line 1'}`,
has a string message and a string stack; returned by the request `'note'` it is answered
with `isError = false`, and `Triggers.activate` resolves the trigger with such a
response.  The request `{function: 'raise', processedArguments: ['later']}` throws the
deferred value at address 7, which lacks the error shape, and no response is sent. -/
theorem error_shape_resolves :
    (typeOf (demoRead "note") (member demoPlatform (demoRead "note") (Val.ref 6) "message")
        = "string" ∧
      typeOf (demoRead "note") (member demoPlatform (demoRead "note") (Val.ref 6) "stack")
        = "string" ∧
      (handleMessage demoPlatform 3 (Val.ref 10) (demoRead "note")).2.outbox =
        [{ id := Val.str "a", isError := false, result := Val.ref 6 }] ∧
      (Triggers.activate [{ id := some "a", promise := 0 }]
          { id := some "a", isError := false,
            result := Data.obj [("message", Data.str ""), ("stack", Data.str "at line 1")] }).1 =
        [Event.resolve 0 (Data.obj [("message", Data.str ""), ("stack", Data.str "at line 1")])]) ∧
    ((process demoPlatform 10 (Val.ref 11)
        (getHeader
          (demoWorld2 { props := [("function", Val.str "raise"), ("processedArguments", Val.ref 12)] }
            { elems := some [Val.str "later"] }) (Val.ref 11)).2).1
        = Res.throw (Val.ref 7) ∧
      isResultError demoPlatform
        (demoWorld2 { props := [("function", Val.str "raise"), ("processedArguments", Val.ref 12)] }
            { elems := some [Val.str "later"] }) (Val.ref 7) = false ∧
      (handleMessage demoPlatform 10 (Val.ref 11)
          (demoWorld2 { props := [("function", Val.str "raise"), ("processedArguments", Val.ref 12)] }
            { elems := some [Val.str "later"] })).2.outbox = []) :=
  ⟨⟨by decide, by decide, by decide, rfl⟩, by decide, by decide, by decide⟩

/-- C5, amended: let the evaluation of a message return or throw a value `v` that is
not deferred and that the host can clone together with the header id.  If `v` was
thrown and `isResultError(v)` is false, the worker posts `{id, isError: false, result: v}`
and `Triggers.activate` resolves the matching trigger with the delivered result; if `v`
was returned and `isResultError(v)` is true, the worker posts `{id, isError: true,
result: v}` and `Triggers.activate` rejects the matching trigger with it. -/
theorem thrown_value_resolves (P : Platform) (fuel : Nat) (w w' : World) (a : Nat)
    (header v : Val) (requests : List Val) (r : Res)
    (array : List Trigger) (t : Trigger) (response : Response)
    (hmsg : (cellAt w a).elems = some (header :: requests))
    (hev : process P fuel (Val.ref a)
      (setCell w a { cellAt w a with elems := some requests }) = (r, w'))
    (hnd : isDeferred P w' v = false)
    (hid : P.cloneable w' (getHeaderPropertyValue P w' header "id") = true)
    (hv : P.cloneable w' v = true)
    (hfound : Triggers.getById array response.id = some t)
    (hflag : response.isError = isResultError P w' v) :
    (r = Res.throw v → isResultError P w' v = false →
      handleMessage P fuel (Val.ref a) w =
        (Res.ok Val.undefined,
         { w' with outbox := w'.outbox ++
            [{ id := getHeaderPropertyValue P w' header "id", isError := false, result := v }] }) ∧
      (Triggers.activate array response).1 = [Event.resolve t.promise response.result]) ∧
    (r = Res.ok v → isResultError P w' v = true →
      handleMessage P fuel (Val.ref a) w =
        (Res.ok Val.undefined,
         { w' with outbox := w'.outbox ++
            [{ id := getHeaderPropertyValue P w' header "id", isError := true, result := v }] }) ∧
      (Triggers.activate array response).1 = [Event.reject t.promise response.result]) := by
  constructor
  · intro hr herr
    have h := handleMessage_frame P fuel w w' a header v requests r hmsg hev (Or.inr hr) hnd hid hv
    rw [herr] at h hflag
    refine ⟨h, ?_⟩
    simp [Triggers.activate, hfound, hflag]
  · intro hr herr
    have h := handleMessage_frame P fuel w w' a header v requests r hmsg hev (Or.inl hr) hnd hid hv
    rw [herr] at h hflag
    refine ⟨h, ?_⟩
    simp [Triggers.activate, hfound, hflag]

/-- Witness for C5: the request `{function: 'raise', arguments: 'oops'}` throws the plain
string `oops`; the worker answers `{id: 'a', isError: false, result: 'oops'}` and the
trigger `a` is resolved. -/
theorem thrown_value_resolves_witness :
    (handleMessage demoPlatform 6 (Val.ref 11)
      (demoWorld { props := [("function", Val.str "raise"), ("arguments", Val.str "oops")] })).2.outbox
      = [{ id := Val.str "a", isError := false, result := Val.str "oops" }] ∧
    (Triggers.activate [{ id := some "a", promise := 0 }]
        { id := some "a", isError := false, result := Data.str "oops" }).1 =
      [Event.resolve 0 (Data.str "oops")] := by
  have h := (thrown_value_resolves demoPlatform 6
    (demoWorld { props := [("function", Val.str "raise"), ("arguments", Val.str "oops")] })
    (process demoPlatform 6 (Val.ref 11)
        (setCell (demoWorld { props := [("function", Val.str "raise"), ("arguments", Val.str "oops")] })
          11 { elems := some [Val.ref 10] })).2
    11 (Val.ref 9) (Val.str "oops") [Val.ref 10] (Res.throw (Val.str "oops"))
    [{ id := some "a", promise := 0 }] { id := some "a", promise := 0 }
    { id := some "a", isError := false, result := Data.str "oops" }
    (by decide) (by decide) (by decide) (by decide) (by decide) (by decide) (by decide)).1
    rfl (by decide)
  refine ⟨?_, h.2⟩
  rw [h.1]
  decide

end PromiseWorker

namespace PromiseWorker

/-- A function is never one of the records of the registry, so `Callbacks.remove`
called with a function removes nothing. -/
theorem Callbacks.remove_func (array : List Registration) (f : Nat) :
    Callbacks.remove array (Obj.func f) = array := by
  have h : array.findIdx (fun r => Obj.record r.ident == Obj.func f) = array.length := by
    induction array with
    | nil => rfl
    | cons r rest ih =>
      have hne : (Obj.record r.ident == Obj.func f) = false := by
        rw [beq_eq_false_iff_ne]
        intro he
        cases he
      rw [List.findIdx_cons, ih, hne]
      rfl
  unfold Callbacks.remove
  rw [h]
  simp

/-- C6: after `registerCallback(fn)` and `unregisterCallback(fn)` on a fresh client the
registry still holds the registration of `fn`, and a response carrying its id still
invokes `fn`. -/
theorem unregisterCallback_keeps_registration :
    (unregisterCallback (registerCallback demoHost {} (Obj.func 0) none).2 (Obj.func 0)).callbacks
      = [{ ident := 0, id := some "x", thisArg := Data.undefined, callback := Obj.func 0 }] ∧
    (_handleMessageReceived demoHost
        (unregisterCallback (registerCallback demoHost {} (Obj.func 0) none).2 (Obj.func 0))
        { id := some "x", isError := false, result := Data.arr [Data.num 1] }).2.events
      = [Event.apply (Obj.func 0) Data.undefined (Data.arr [Data.num 1])] :=
  ⟨rfl, rfl⟩

/-- C8: in a trigger table with pairwise distinct ids, a response whose id is that of
the trigger `t` settles `t` once (resolve with the result when `isError` is false,
reject with it otherwise) and leaves the table with every trigger other than `t`, in
place; delivered a second time it settles nothing and changes nothing.  A response
whose id no trigger has settles nothing and leaves the table as it is. -/
theorem activate_settles_once (array : List Trigger) (response : Response)
    (hd : (array.map Trigger.id).Nodup) :
    (∀ t ∈ array, t.id = response.id →
      Triggers.activate array response =
        ([if response.isError then Event.reject t.promise response.result
          else Event.resolve t.promise response.result],
         array.filter fun u => u ≠ t) ∧
      Triggers.activate (array.filter fun u => u ≠ t) response =
        ([], array.filter fun u => u ≠ t)) ∧
    ((∀ t ∈ array, t.id ≠ response.id) → Triggers.activate array response = ([], array)) := by
  constructor
  · intro t ht hid
    have hfound : Triggers.getById array response.id = some t := by
      rw [← hid]
      exact Triggers.getById_of_mem array t hd ht
    have hfilter : (array.filter fun u => decide (u ≠ t)) = array.filter fun u => u.id != t.id := by
      apply List.filter_congr
      intro u hu
      by_cases h : u = t
      · subst h
        simp
      · have : u.id ≠ t.id := by
          intro he
          have h1 := Triggers.getById_of_mem array u hd hu
          rw [he, hid, hfound] at h1
          exact h (Option.some.inj h1).symm
        simp [h, this]
    have herase : Triggers.remove array t = array.filter fun u => decide (u ≠ t) := by
      rw [Triggers.remove_eq_erase, erase_eq_filter_id array t hd ht, hfilter]
    constructor
    · unfold Triggers.activate
      rw [hfound]
      simp only [herase]
      cases response.isError <;> rfl
    · have hnone : Triggers.getById (array.filter fun u => decide (u ≠ t)) response.id = none := by
        rw [Triggers.getById_eq_none]
        intro u hu
        rw [hfilter] at hu
        have := (List.mem_filter.mp hu).2
        rw [← hid]
        simpa using this
      unfold Triggers.activate
      rw [hnone]
  · intro hnone
    unfold Triggers.activate
    rw [(Triggers.getById_eq_none array response.id).mpr hnone]

/-- Witness for C8: the table with triggers `a` and `b` and a successful response for `a`. -/
theorem activate_settles_once_witness :
    Triggers.activate [{ id := some "a", promise := 0 }, { id := some "b", promise := 1 }]
        { id := some "a", isError := false, result := Data.num 7 } =
      ([Event.resolve 0 (Data.num 7)], [{ id := some "b", promise := 1 }]) ∧
    Triggers.activate [{ id := some "b", promise := 1 }]
        { id := some "a", isError := false, result := Data.num 7 } =
      ([], [{ id := some "b", promise := 1 }]) :=
  (activate_settles_once [{ id := some "a", promise := 0 }, { id := some "b", promise := 1 }]
    { id := some "a", isError := false, result := Data.num 7 } (by decide)).1
    { id := some "a", promise := 0 } (by decide) rfl

end PromiseWorker

namespace PromiseWorker

/-- After `terminate()` the client has no worker. -/
theorem terminate_worker_none (c : Client) : (terminate c).worker = none := by
  unfold terminate
  cases hw : c.worker with
  | none => simp [hw]
  | some worker =>
    cases hc : c.closing <;> cases hg : Triggers.getById c.triggers c.workerId <;> simp [hc, hg]

/-- C9: when a worker is present, `terminate()` leaves the client without worker, with
an empty trigger table, an empty callback registry and the closing marker reset.  Its
effects are: the worker is terminated and detached; then, if a close is in flight and
its trigger (the one found under `workerId`) is pending, that trigger is resolved and
every other trigger is rejected with the worker-closed value, otherwise every trigger
is rejected with that value.  No callback is invoked. -/
theorem terminate_settles_all (c : Client) (worker : Nat) (hw : c.worker = some worker) :
    (terminate c).worker = none ∧
    (terminate c).triggers = [] ∧
    (terminate c).callbacks = [] ∧
    (terminate c).closing = none ∧
    (terminate c).events =
      c.events ++ Event.kill worker :: Event.unlisten worker ::
        (match c.closing, Triggers.getById c.triggers c.workerId with
         | some _, some t =>
           Event.resolve t.promise Data.undefined ::
             (c.triggers.erase t).map fun u => Event.reject u.promise workerClosed
         | _, _ => c.triggers.map fun u => Event.reject u.promise workerClosed) ∧
    (∀ e ∈ (terminate c).events, e ∈ c.events ∨ ∀ f a r, e ≠ Event.apply f a r) := by
  have hev : (terminate c).events =
      c.events ++ Event.kill worker :: Event.unlisten worker ::
        (match c.closing, Triggers.getById c.triggers c.workerId with
         | some _, some t =>
           Event.resolve t.promise Data.undefined ::
             (c.triggers.erase t).map fun u => Event.reject u.promise workerClosed
         | _, _ => c.triggers.map fun u => Event.reject u.promise workerClosed) := by
    unfold terminate
    rw [hw]
    cases hc : c.closing <;> cases hg : Triggers.getById c.triggers c.workerId <;>
      simp [hc, hg, Triggers.rejectAll, Triggers.remove_eq_erase]
  refine ⟨?_, ?_, ?_, ?_, hev, ?_⟩
  · unfold terminate
    rw [hw]
    cases hc : c.closing <;> cases hg : Triggers.getById c.triggers c.workerId <;> simp [hc, hg]
  · unfold terminate
    rw [hw]
    simp [Triggers.rejectAll]
  · unfold terminate
    rw [hw]
    simp [Callbacks.removeAll]
  · unfold terminate
    rw [hw]
  · intro e he
    rw [hev] at he
    rcases List.mem_append.mp he with h | h
    · exact Or.inl h
    · right
      intro f a r hfa
      subst hfa
      cases hc : c.closing <;> cases hg : Triggers.getById c.triggers c.workerId <;>
        simp [hc, hg] at h

/-- Witness for C9: a close is in flight under the worker id `w`, one other request is
pending. -/
theorem terminate_settles_all_witness :
    (terminate
      { worker := some 0, workerId := some "w", closing := some (Promise.created 1),
        triggers := [{ id := some "q", promise := 0 }, { id := some "w", promise := 1 }] }).events =
      [Event.kill 0, Event.unlisten 0, Event.resolve 1 Data.undefined,
       Event.reject 0 workerClosed] :=
  (terminate_settles_all
    { worker := some 0, workerId := some "w", closing := some (Promise.created 1),
      triggers := [{ id := some "q", promise := 0 }, { id := some "w", promise := 1 }] }
    0 rfl).2.2.2.2.1

/-- C10: `terminate()` applied to the client that `terminate()` produced returns that
client unchanged: no field changes and the event log gains nothing. -/
theorem terminate_idempotent (c : Client) : terminate (terminate c) = terminate c := by
  cases hw : c.worker with
  | none =>
    have h : terminate c = c := by
      unfold terminate
      rw [hw]
    rw [h, h]
  | some worker =>
    have h : (terminate c).worker = none := (terminate_worker_none c)
    generalize terminate c = d at h
    unfold terminate
    rw [h]

end PromiseWorker

namespace PromiseWorker

/-- Without a worker `terminate()` does nothing. -/
theorem terminate_of_no_worker (c : Client) (hw : c.worker = none) : terminate c = c := by
  unfold terminate
  rw [hw]

/-- The fields of the client after `terminate()` when a worker is present. -/
theorem terminate_of_worker (c : Client) (worker : Nat) (hw : c.worker = some worker) :
    (terminate c).triggers = [] ∧ (terminate c).callbacks = [] ∧
    (terminate c).closing = none ∧ (terminate c).generated = c.generated ∧
    (terminate c).workerId = c.workerId := by
  unfold terminate
  rw [hw]
  cases hc : c.closing <;> cases hg : Triggers.getById c.triggers c.workerId <;>
    simp [hc, hg, Triggers.rejectAll, Callbacks.removeAll]

/-- The events of `terminate()` when a worker is present. -/
theorem terminate_events (c : Client) (worker : Nat) (hw : c.worker = some worker) :
    (terminate c).events =
      c.events ++ Event.kill worker :: Event.unlisten worker ::
        (match c.closing, Triggers.getById c.triggers c.workerId with
         | some _, some t =>
           Event.resolve t.promise Data.undefined ::
             (c.triggers.erase t).map fun u => Event.reject u.promise workerClosed
         | _, _ => c.triggers.map fun u => Event.reject u.promise workerClosed) := by
  unfold terminate
  rw [hw]
  cases hc : c.closing <;> cases hg : Triggers.getById c.triggers c.workerId <;>
    simp [hc, hg, Triggers.rejectAll, Triggers.remove_eq_erase]

/-- The id of the header built for options that carry no id is the generated one. -/
theorem generateHeader_getId (H : Host) (c : Client) (options : Option Options)
    (h : (options.getD {}).id = none) :
    (_generateHeader H c options).1.getId = some (H.uuid c.generated) := by
  simp [_generateHeader, assign, Options.getId, _generateId, h]

/-- The id of the header built for options that carry an id is that id. -/
theorem generateHeader_getId_override (H : Host) (c : Client) (o : Options) (i : Id)
    (h : o.id = some i) :
    (_generateHeader H c (some o)).1.getId = i := by
  simp [_generateHeader, assign, Options.getId, _generateId, h]

/-- Building a header draws one id and changes nothing else. -/
theorem generateHeader_client (H : Host) (c : Client) (options : Option Options) :
    (_generateHeader H c options).2 = { c with generated := c.generated + 1 } := by
  simp [_generateHeader, _generateId]

/-- The triggers after the activation of a response are a sublist of those before. -/
theorem activate_sublist (array : List Trigger) (response : Response) :
    (Triggers.activate array response).2.Sublist array := by
  unfold Triggers.activate
  cases Triggers.getById array response.id with
  | none => exact List.Sublist.refl _
  | some t =>
    simp only [Triggers.remove_eq_erase]
    exact List.erase_sublist t array

/-- The registrations after a removal are a sublist of those before. -/
theorem Callbacks.remove_sublist (array : List Registration) (callback : Obj) :
    (Callbacks.remove array callback).Sublist array := by
  unfold Callbacks.remove
  split
  · exact List.eraseIdx_sublist _ _
  · exact List.Sublist.refl _

/-- Consistency survives any change that drops triggers or registrations, draws ids,
and keeps the worker and its id as long as a worker remains. -/
theorem Consistent.shrink {H : Host} {c c' : Client} (h : Consistent H c)
    (hT : (triggerIds c').Sublist (triggerIds c))
    (hC : (callbackIds c').Sublist (callbackIds c))
    (hg : c.generated ≤ c'.generated)
    (hW : c'.worker.isSome = true →
      c.worker.isSome = true ∧ c'.workerId = c.workerId ∧ (c'.closing = none → c.closing = none)) :
    Consistent H c' := by
  have hsub : (triggerIds c' ++ callbackIds c').Sublist (triggerIds c ++ callbackIds c) :=
    List.Sublist.append hT hC
  refine ⟨h.nodup.sublist hsub, ?_, ?_, ?_⟩
  · intro i hi
    obtain ⟨k, hk, hik⟩ := h.issued i (hsub.subset hi)
    exact ⟨k, Nat.lt_of_lt_of_le hk hg, hik⟩
  · intro hw
    obtain ⟨hw1, hid, _⟩ := hW hw
    obtain ⟨k, hk, hik⟩ := h.workerIssued hw1
    exact ⟨k, Nat.lt_of_lt_of_le hk hg, hid ▸ hik⟩
  · intro hw hc hmem
    obtain ⟨hw1, hid, hcl⟩ := hW hw
    exact h.idle hw1 (hcl hc) (hid ▸ hsub.subset hmem)

/-- An id drawn now differs from every id issued before. -/
theorem fresh_not_issued {H : Host} (hinj : Function.Injective H.uuid) {c : Client}
    (h : Consistent H c) : some (H.uuid c.generated) ∉ triggerIds c ++ callbackIds c := by
  intro hmem
  obtain ⟨k, hk, hik⟩ := h.issued _ hmem
  have := hinj (Option.some.inj hik)
  omega

end PromiseWorker

namespace PromiseWorker

/-- Consistency survives taking one more id into use, when that id was not in use, was
issued by the generator, and is not the id of an idle worker. -/
theorem Consistent.extend {H : Host} {c c' : Client} (h : Consistent H c) (i : Id)
    (hids : (triggerIds c' ++ callbackIds c').Perm (i :: (triggerIds c ++ callbackIds c)))
    (hg : c'.generated = c.generated + 1)
    (hw : c'.worker = c.worker) (hwid : c'.workerId = c.workerId)
    (hi : i ∉ triggerIds c ++ callbackIds c)
    (hissued : ∃ k, k < c.generated + 1 ∧ i = some (H.uuid k))
    (hidle : c'.worker.isSome = true → c'.closing = none → c.closing = none ∧ c.workerId ≠ i) :
    Consistent H c' := by
  refine ⟨?_, ?_, ?_, ?_⟩
  · rw [hids.nodup_iff, List.nodup_cons]
    exact ⟨hi, h.nodup⟩
  · intro j hj
    rcases List.mem_cons.mp (hids.subset hj) with hj1 | hj1
    · rw [hg, hj1]
      exact hissued
    · obtain ⟨k, hk, hjk⟩ := h.issued j hj1
      exact ⟨k, by omega, hjk⟩
  · intro hw1
    rw [hw] at hw1
    obtain ⟨k, hk, hik⟩ := h.workerIssued hw1
    exact ⟨k, by omega, hwid ▸ hik⟩
  · intro hw1 hc hmem
    obtain ⟨hc0, hne⟩ := hidle hw1 hc
    rw [hw] at hw1
    rw [hwid] at hmem
    rcases List.mem_cons.mp (hids.subset hmem) with hm | hm
    · exact hne hm
    · exact h.idle hw1 hc0 hm

/-- Consistency survives taking a freshly drawn id into use. -/
theorem Consistent.extend_fresh {H : Host} (hinj : Function.Injective H.uuid) {c c' : Client}
    (h : Consistent H c)
    (hids : (triggerIds c' ++ callbackIds c').Perm
      (some (H.uuid c.generated) :: (triggerIds c ++ callbackIds c)))
    (hg : c'.generated = c.generated + 1)
    (hw : c'.worker = c.worker) (hwid : c'.workerId = c.workerId)
    (hcl : c'.closing = c.closing) :
    Consistent H c' := by
  refine h.extend (some (H.uuid c.generated)) hids hg hw hwid (fresh_not_issued hinj h)
    ⟨c.generated, by omega, rfl⟩ ?_
  intro hw1 hc
  rw [hw] at hw1
  refine ⟨hcl ▸ hc, ?_⟩
  intro he
  obtain ⟨k, hk, hik⟩ := h.workerIssued hw1
  rw [hik] at he
  have := hinj (Option.some.inj he)
  omega

/-- `postMessage` with options that carry no id keeps the client consistent. -/
theorem Consistent.postMessage {H : Host} (hinj : Function.Injective H.uuid) {c : Client}
    (h : Consistent H c) (message : Data) (options : Option Options)
    (ho : (options.getD {}).id = none) :
    Consistent H (postMessage H c message options).2 := by
  unfold PromiseWorker.postMessage
  cases hw : c.worker with
  | none => simpa using h
  | some worker =>
    cases hc : c.closing with
    | some p => simpa using h
    | none =>
      apply h.extend_fresh hinj
      · simp only [_addHeaderToMessage, generateHeader_client, generateHeader_getId H c options ho,
          triggerIds, callbackIds, List.map_append, List.map_cons, List.map_nil]
        rw [List.append_assoc]
        exact List.perm_middle
      · simp [_addHeaderToMessage, generateHeader_client]
      · simp [_addHeaderToMessage, generateHeader_client]
      · simp [_addHeaderToMessage, generateHeader_client]
      · simp [_addHeaderToMessage, generateHeader_client]

/-- `registerCallback` with options that carry no id keeps the client consistent. -/
theorem Consistent.registerCallback {H : Host} (hinj : Function.Injective H.uuid) {c : Client}
    (h : Consistent H c) (callback : Obj) (options : Option Options)
    (ho : (options.getD {}).id = none) :
    Consistent H (registerCallback H c callback options).2 := by
  unfold PromiseWorker.registerCallback
  apply h.extend_fresh hinj
  · simp only [generateHeader_client, generateHeader_getId H c options ho,
      triggerIds, callbackIds, List.map_append, List.map_cons, List.map_nil]
    rw [← List.append_assoc]
    exact (List.perm_append_singleton _ _)
  · simp [generateHeader_client]
  · simp [generateHeader_client]
  · simp [generateHeader_client]
  · simp [generateHeader_client]

/-- `close` keeps the client consistent. -/
theorem Consistent.close {H : Host} {c : Client} (h : Consistent H c) :
    Consistent H (close H c).2 := by
  unfold PromiseWorker.close
  cases hw : c.worker with
  | none => simpa using h
  | some worker =>
    cases hc : c.closing with
    | some p => simpa using h
    | none =>
      have hw1 : c.worker.isSome = true := by rw [hw]; rfl
      apply h.extend c.workerId
      · simp only [PromiseWorker.postMessage, hw, hc, _addHeaderToMessage, generateHeader_client,
          generateHeader_getId_override H c { id := some c.workerId } c.workerId rfl,
          triggerIds, callbackIds, List.map_append, List.map_cons, List.map_nil]
        rw [List.append_assoc]
        exact List.perm_middle
      · simp [PromiseWorker.postMessage, hw, hc, _addHeaderToMessage, generateHeader_client]
      · simp [PromiseWorker.postMessage, hw, hc, _addHeaderToMessage, generateHeader_client]
      · simp [PromiseWorker.postMessage, hw, hc, _addHeaderToMessage, generateHeader_client]
      · exact h.idle hw1 hc
      · obtain ⟨k, hk, hik⟩ := h.workerIssued hw1
        exact ⟨k, by omega, hik⟩
      · intro _ hcl
        simp at hcl

/-- `init` keeps the client consistent. -/
theorem Consistent.init {H : Host} (hinj : Function.Injective H.uuid) {c : Client}
    (h : Consistent H c) (options : Option Options) :
    Consistent H (init H c options) := by
  have key : ∀ c' : Client, triggerIds c' = triggerIds c → callbackIds c' = callbackIds c →
      c'.generated = c.generated + 1 → c'.workerId = some (H.uuid c.generated) →
      Consistent H c' := by
    intro c' hT hC hg hwid
    refine ⟨by rw [hT, hC]; exact h.nodup, ?_, ?_, ?_⟩
    · intro i hi
      rw [hT, hC] at hi
      obtain ⟨k, hk, hik⟩ := h.issued i hi
      exact ⟨k, by omega, hik⟩
    · intro _
      exact ⟨c.generated, by omega, hwid⟩
    · intro _ _ hmem
      rw [hT, hC, hwid] at hmem
      exact fresh_not_issued hinj h hmem
  unfold PromiseWorker.init
  cases options with
  | none => exact key _ rfl rfl (by simp [_generateId]) (by simp [_generateId])
  | some o => exact key _ rfl rfl (by simp [_generateId, setOptions]) (by simp [_generateId, setOptions])

/-- `terminate` keeps the client consistent. -/
theorem Consistent.terminate {H : Host} {c : Client} (h : Consistent H c) :
    Consistent H (terminate c) := by
  cases hw : c.worker with
  | none => rw [terminate_of_no_worker c hw]; exact h
  | some worker =>
    obtain ⟨hT, hC, _, hg, _⟩ := terminate_of_worker c worker hw
    apply h.shrink
    · simp [triggerIds, hT]
    · simp [callbackIds, hC]
    · rw [hg]
    · intro hw1
      rw [terminate_worker_none] at hw1
      cases hw1

/-- Handling an inbound response keeps the client consistent. -/
theorem Consistent.handleMessageReceived {H : Host} {c : Client} (h : Consistent H c)
    (response : Response) :
    Consistent H (_handleMessageReceived H c response).2 := by
  have h2 : Consistent H
      { c with
        events := c.events ++ (Triggers.activate c.triggers response).1 ++
          (Callbacks.execute H c.callbacks response).1,
        triggers := (Triggers.activate c.triggers response).2 } := by
    apply h.shrink
    · exact (activate_sublist c.triggers response).map _
    · exact List.Sublist.refl _
    · exact Nat.le_refl _
    · intro hw
      exact ⟨hw, rfl, fun hc => hc⟩
  unfold _handleMessageReceived
  simp only []
  cases (Callbacks.execute H c.callbacks response).2 with
  | some ex => exact h2
  | none =>
    simp only []
    split
    · exact h2.terminate
    · exact h2

end PromiseWorker

namespace PromiseWorker

/-- A fresh client is consistent. -/
theorem Consistent.fresh (H : Host) : Consistent H {} :=
  ⟨List.nodup_nil, fun _ hi => (by cases hi), fun hw => (by cases hw), fun hw => (by cases hw)⟩

/-- Every action that carries no id of its own keeps the client consistent. -/
theorem Consistent.step {H : Host} (hinj : Function.Injective H.uuid) {c : Client}
    (h : Consistent H c) (a : Action) (ha : a.definesId = false) :
    Consistent H (step H c a) := by
  cases a with
  | init options => exact h.init hinj options
  | postMessage message options =>
    apply h.postMessage hinj
    cases options with
    | none => rfl
    | some o => simpa [Action.definesId] using ha
  | importScripts paths => exact h.postMessage hinj _ none rfl
  | registerCallback callback options =>
    apply h.registerCallback hinj
    cases options with
    | none => rfl
    | some o => simpa [Action.definesId] using ha
  | unregisterCallback callback =>
    apply h.shrink
    · exact List.Sublist.refl _
    · exact (Callbacks.remove_sublist c.callbacks callback).map _
    · exact Nat.le_refl _
    · intro hw
      exact ⟨hw, rfl, fun hc => hc⟩
  | unregisterAllCallbacks =>
    apply h.shrink
    · exact List.Sublist.refl _
    · exact List.nil_sublist _
    · exact Nat.le_refl _
    · intro hw
      exact ⟨hw, rfl, fun hc => hc⟩
  | setOptions options =>
    apply h.shrink
    · exact List.Sublist.refl _
    · exact List.Sublist.refl _
    · exact Nat.le_refl _
    · intro hw
      exact ⟨hw, rfl, fun hc => hc⟩
  | close => exact h.close
  | receive response => exact h.handleMessageReceived response
  | terminate => exact h.terminate

/-- Every sequence of actions that carry no id of their own keeps the client
consistent. -/
theorem Consistent.run {H : Host} (hinj : Function.Injective H.uuid) (actions : List Action) :
    ∀ c : Client, Consistent H c → (∀ a ∈ actions, a.definesId = false) →
      Consistent H (run H c actions) := by
  induction actions with
  | nil => intro c h _; exact h
  | cons a rest ih =>
    intro c h hno
    exact ih (PromiseWorker.step H c a)
      (h.step hinj a (hno a (List.mem_cons_self a rest)))
      (fun b hb => hno b (List.mem_cons_of_mem a hb))

/-- A consistent client has unique ids. -/
theorem Consistent.uniqueIds {H : Host} {c : Client} (h : Consistent H c) : UniqueIds c := by
  have hn := List.nodup_append.mp h.nodup
  exact ⟨hn.1, hn.2.1, fun i hi hc => hn.2.2 hi hc⟩

/-- The generator of the demo host never repeats an id. -/
theorem demoHost_uuid_injective : Function.Injective demoHost.uuid := by
  intro m n h
  have h1 : List.replicate (m + 1) 'x' = List.replicate (n + 1) 'x' := by
    have := congrArg String.data h
    simpa [demoHost] using this
  have h2 := congrArg List.length h1
  simpa using h2

/-- C7, counterexample: with a generator that never repeats an id, two `postMessage`
calls whose options both carry the id `k` leave two live triggers that share it. -/
theorem override_shares_id :
    Function.Injective demoHost.uuid ∧
    triggerIds (run demoHost {}
      [Action.init none,
       Action.postMessage (Data.str "ping") (some { id := some (some "k") }),
       Action.postMessage (Data.str "ping") (some { id := some (some "k") })]) =
      [some "k", some "k"] ∧
    ¬ UniqueIds (run demoHost {}
      [Action.init none,
       Action.postMessage (Data.str "ping") (some { id := some (some "k") }),
       Action.postMessage (Data.str "ping") (some { id := some (some "k") })]) := by
  refine ⟨demoHost_uuid_injective, rfl, ?_⟩
  intro h
  have h1 : ([some "k", some "k"] : List Id).Nodup := h.1
  revert h1
  decide

/-- C7, amended: if the id generator never repeats an id, then in every client reached
from a fresh one through `init`, `postMessage`, `importScripts`, `registerCallback`,
`unregisterCallback`, `unregisterAllCallbacks`, `setOptions`, `close`, inbound
responses and `terminate`, where the options passed to `postMessage` and
`registerCallback` carry no `id` of their own, no two live triggers share an id, no
two live registrations share an id, and no id belongs to both. -/
theorem reachable_ids_unique (H : Host) (hinj : Function.Injective H.uuid)
    (actions : List Action) (hno : ∀ a ∈ actions, a.definesId = false) :
    UniqueIds (run H {} actions) :=
  (Consistent.run hinj actions {} (Consistent.fresh H) hno).uniqueIds

/-- Witness for C7: a session with a request, a callback, a graceful close, its
sentinel response and a new start. -/
theorem reachable_ids_unique_witness :
    UniqueIds (run demoHost {}
      [Action.init none,
       Action.postMessage (Data.str "five") (some { logResult := some true }),
       Action.registerCallback (Obj.func 0) none,
       Action.close,
       Action.receive { id := some "x", isError := false,
                        result := Data.obj [("dynamicWorkerMessage", Data.str "Worker closed.")] },
       Action.init none,
       Action.postMessage (Data.str "five") none]) :=
  reachable_ids_unique demoHost demoHost_uuid_injective _ (by decide)

end PromiseWorker

namespace PromiseWorker

/-- C11: with a worker present and no close in flight, `close()` posts one message,
the request `{function: 'close'}` under a header whose id is the worker's own
`workerId`, adds one trigger under that id, and stores the promise it returns as the
closing marker; called again on the resulting client it returns that same promise and
changes nothing.  With a worker present and a close in flight it returns the stored
promise and changes nothing.  Without a worker it returns a promise rejected with
`{promiseWorkerMessage: 'Worker already closed.'}` and changes nothing. -/
theorem close_sends_once (H : Host) (c : Client) :
    (∀ worker, c.worker = some worker → c.closing = none →
      ∃ header : Options,
        header.getId = c.workerId ∧
        (close H c).1 = Promise.created c.promises ∧
        (close H c).2.closing = some (close H c).1 ∧
        (close H c).2.triggers = c.triggers ++ [{ id := c.workerId, promise := c.promises }] ∧
        (close H c).2.events = c.events ++
          [Event.send worker
            { header := header, requests := [Data.obj [("function", Data.str "close")]] }] ∧
        (close H c).2.worker = c.worker ∧
        (close H c).2.callbacks = c.callbacks ∧
        close H (close H c).2 = ((close H c).1, (close H c).2)) ∧
    (∀ worker p, c.worker = some worker → c.closing = some p → close H c = (p, c)) ∧
    (c.worker = none → close H c = (Promise.rejected alreadyClosed, c)) := by
  refine ⟨?_, ?_, ?_⟩
  · intro worker hw hc
    refine ⟨(_generateHeader H c (some { id := some c.workerId })).1,
      generateHeader_getId_override H c { id := some c.workerId } c.workerId rfl, ?_⟩
    have hcl : close H c =
        (Promise.created c.promises,
         { c with
           generated := c.generated + 1,
           promises := c.promises + 1,
           triggers := c.triggers ++ [{ id := c.workerId, promise := c.promises }],
           events := c.events ++
             [Event.send worker
               { header := (_generateHeader H c (some { id := some c.workerId })).1,
                 requests := [Data.obj [("function", Data.str "close")]] }],
           closing := some (Promise.created c.promises) }) := by
      simp [close, postMessage, hw, hc, _addHeaderToMessage, generateHeader_client,
        generateHeader_getId_override H c { id := some c.workerId } c.workerId rfl]
    rw [hcl]
    refine ⟨rfl, rfl, rfl, rfl, hw ▸ rfl, rfl, ?_⟩
    simp [close, hw]
  · intro worker p hw hc
    simp [close, hw, hc]
  · intro hw
    simp [close, hw]

/-- Witness for C11: the first `close()` of a client whose worker has the id `w`. -/
theorem close_sends_once_witness :
    (close demoHost { worker := some 0, workerId := some "w" }).2.triggers
      = [{ id := some "w", promise := 0 }] ∧
    close demoHost (close demoHost { worker := some 0, workerId := some "w" }).2 =
      (Promise.created 0, (close demoHost { worker := some 0, workerId := some "w" }).2) := by
  obtain ⟨_, _, _, _, ht, _, _, _, hagain⟩ :=
    (close_sends_once demoHost { worker := some 0, workerId := some "w" }).1 0 rfl rfl
  exact ⟨ht, hagain⟩

/-- C13: when the worker is absent or a close is in flight, `postMessage` returns a
promise rejected with `{promiseWorkerMessage: 'Worker closed.  Must first call init()'}`
and leaves the client as it was: no trigger is added, nothing is sent, no id is drawn. -/
theorem postMessage_closed (H : Host) (c : Client) (message : Data) (options : Option Options)
    (h : c.worker = none ∨ c.closing.isSome = true) :
    postMessage H c message options = (Promise.rejected workerClosedInit, c) := by
  unfold postMessage
  rcases h with h | h
  · rw [h]
  · cases hc : c.closing with
    | none => rw [hc] at h; cases h
    | some p => cases c.worker <;> rfl

/-- Witness for C13: a fresh client, which has no worker. -/
theorem postMessage_closed_witness :
    postMessage demoHost {} (Data.str "five") none = (Promise.rejected workerClosedInit, {}) :=
  postMessage_closed demoHost {} (Data.str "five") none (Or.inl rfl)

end PromiseWorker

namespace PromiseWorker

/-- A result that carries the close sentinel is truthy. -/
theorem truthy_of_memberIs (d : Data) (name text : String)
    (h : d.memberIs name text = true) : d.truthy = true := by
  cases d <;> simp_all [Data.memberIs, Data.truthy]

/-- C12, counterexample.  First client: a callback is registered under the id `xx` and
the host's callbacks throw; the sentinel response with that id leaves the worker in
place.  Second client: a request `xx` and the close `x` are pending; the sentinel
response for `xx` resolves `xx`, and then the close trigger `x`, which is another
pending trigger, is resolved as well instead of being rejected. -/
theorem sentinel_not_always_terminated :
    ((_handleMessageReceived throwingHost
        (run throwingHost {} [Action.init none, Action.registerCallback (Obj.func 0) none])
        { id := some "xx", isError := false, result := closeSentinel }).2.worker = some 0) ∧
    (triggerIds (run demoHost {}
        [Action.init none,
         Action.postMessage (Data.obj [("function", Data.str "close")]) none,
         Action.close]) = [some "xx", some "x"] ∧
      ((_handleMessageReceived demoHost
        (run demoHost {}
          [Action.init none,
           Action.postMessage (Data.obj [("function", Data.str "close")]) none,
           Action.close])
        { id := some "xx", isError := false, result := closeSentinel }).2.events.drop 4
        = [Event.resolve 0 closeSentinel, Event.kill 0, Event.unlisten 0,
           Event.resolve 1 Data.undefined])) :=
  ⟨rfl, rfl, rfl⟩

/-- C12, amended: with a worker present, a non-error response whose result carries the
close sentinel, and no callback invocation that throws, `_handleMessageReceived` ends
with the worker absent, the trigger table and the callback registry empty and the
closing marker reset.  The trigger matched by the response is resolved with the
result; then, if a close is in flight and its trigger is still pending, that trigger
is resolved, and every remaining trigger is rejected with the worker-closed value.  A
subsequent `close()` is rejected with the already-closed value. -/
theorem sentinel_terminates (H : Host) (c : Client) (worker : Nat) (response : Response)
    (hw : c.worker = some worker)
    (herr : response.isError = false)
    (hs : response.result.memberIs "dynamicWorkerMessage" "Worker closed." = true)
    (hcb : (Callbacks.execute H c.callbacks response).2 = none) :
    (_handleMessageReceived H c response).1 = none ∧
    (_handleMessageReceived H c response).2.worker = none ∧
    (_handleMessageReceived H c response).2.triggers = [] ∧
    (_handleMessageReceived H c response).2.callbacks = [] ∧
    (_handleMessageReceived H c response).2.closing = none ∧
    (∀ t, Triggers.getById c.triggers response.id = some t →
      (Triggers.activate c.triggers response).1 = [Event.resolve t.promise response.result]) ∧
    (_handleMessageReceived H c response).2.events =
      c.events ++ (Triggers.activate c.triggers response).1 ++
        (Callbacks.execute H c.callbacks response).1 ++
        Event.kill worker :: Event.unlisten worker ::
          (match c.closing,
              Triggers.getById (Triggers.activate c.triggers response).2 c.workerId with
           | some _, some t =>
             Event.resolve t.promise Data.undefined ::
               ((Triggers.activate c.triggers response).2.erase t).map
                 fun u => Event.reject u.promise workerClosed
           | _, _ =>
             (Triggers.activate c.triggers response).2.map
               fun u => Event.reject u.promise workerClosed) ∧
    close H (_handleMessageReceived H c response).2 =
      (Promise.rejected alreadyClosed, (_handleMessageReceived H c response).2) := by
  have hclosed : _isResponseWorkerClosed response = true := by
    simp [_isResponseWorkerClosed, herr, hs, truthy_of_memberIs _ _ _ hs]
  have hrun : _handleMessageReceived H c response =
      (none, terminate
        { c with
          events := c.events ++ (Triggers.activate c.triggers response).1 ++
            (Callbacks.execute H c.callbacks response).1,
          triggers := (Triggers.activate c.triggers response).2 }) := by
    simp [_handleMessageReceived, hcb, hclosed]
  rw [hrun]
  generalize hd : ({ c with
          events := c.events ++ (Triggers.activate c.triggers response).1 ++
            (Callbacks.execute H c.callbacks response).1,
          triggers := (Triggers.activate c.triggers response).2 } : Client) = d
  have hdw : d.worker = some worker := by rw [← hd]; exact hw
  have hnone := terminate_worker_none d
  obtain ⟨hT, hC, hcl, _, _⟩ := terminate_of_worker d worker hdw
  refine ⟨rfl, hnone, hT, hC, hcl, ?_, ?_, ?_⟩
  · intro t ht
    simp [Triggers.activate, ht, herr]
  · have hev := terminate_events d worker hdw
    rw [hev, ← hd]
  · simp [close, hnone]

end PromiseWorker

namespace PromiseWorker

/-- Witness for C12: after `init` and `close`, the sentinel response under the worker id
resolves the close trigger and leaves the client terminated. -/
theorem sentinel_terminates_witness :
    (_handleMessageReceived demoHost (run demoHost {} [Action.init none, Action.close])
        { id := some "x", isError := false, result := closeSentinel }).2.worker = none ∧
    (Triggers.activate (run demoHost {} [Action.init none, Action.close]).triggers
        { id := some "x", isError := false, result := closeSentinel }).1
      = [Event.resolve 0 closeSentinel] :=
  ⟨(sentinel_terminates demoHost (run demoHost {} [Action.init none, Action.close]) 0
      { id := some "x", isError := false, result := closeSentinel } rfl rfl rfl rfl).2.1,
   (sentinel_terminates demoHost (run demoHost {} [Action.init none, Action.close]) 0
      { id := some "x", isError := false, result := closeSentinel } rfl rfl rfl rfl).2.2.2.2.2.1
      { id := some "x", promise := 0 } rfl⟩

end PromiseWorker

namespace PromiseWorker

/-- The lookup finds nothing exactly when no registration has the id. -/
theorem Callbacks.getById_none_iff (array : List Registration) (id : Id) :
    Callbacks.getById array id = none ↔ ∀ r ∈ array, r.id ≠ id := by
  induction array with
  | nil => simp [Callbacks.getById]
  | cons u rest ih =>
    unfold Callbacks.getById at ih ⊢
    by_cases h : u.id = id
    · rw [List.filter_cons_of_pos (by simpa using h)]
      simp [h]
    · rw [List.filter_cons_of_neg (by simpa using h), ih]
      simp [h]

/-- A response whose result is a list does not carry the close sentinel. -/
theorem not_closed_of_list (response : Response) (args : List Data)
    (h : response.result = Data.arr args) : _isResponseWorkerClosed response = false := by
  simp [_isResponseWorkerClosed, h, Data.memberIs]

/-- Handling a response whose result is a list leaves the registry as it is. -/
theorem handleMessageReceived_callbacks (H : Host) (c : Client) (response : Response)
    (args : List Data) (h : response.result = Data.arr args) :
    (_handleMessageReceived H c response).2.callbacks = c.callbacks := by
  unfold _handleMessageReceived
  simp only [not_closed_of_list response args h]
  cases (Callbacks.execute H c.callbacks response).2 <;> rfl

/-- The lookup finds the first registration that carries the id. -/
theorem Callbacks.getById_first (pre post : List Registration) (registration : Registration)
    (hfirst : ∀ u ∈ pre, u.id ≠ registration.id) :
    Callbacks.getById (pre ++ registration :: post) registration.id = some registration := by
  induction pre with
  | nil =>
    unfold Callbacks.getById
    rw [List.nil_append, List.filter_cons_of_pos (by simp)]
    rfl
  | cons u rest ih =>
    have hu : u.id ≠ registration.id := hfirst u (List.mem_cons_self u rest)
    have hrest := ih (fun v hv => hfirst v (List.mem_cons_of_mem u hv))
    unfold Callbacks.getById at hrest ⊢
    rw [List.cons_append, List.filter_cons_of_neg (by simpa using hu)]
    exact hrest

/-- When the ids of the registry are pairwise distinct, no registration in front of a
given one carries its id. -/
theorem Callbacks.first_of_nodup (pre post : List Registration) (registration : Registration)
    (hnodup : ((pre ++ registration :: post).map Registration.id).Nodup) :
    ∀ u ∈ pre, u.id ≠ registration.id := by
  intro u hu heq
  rw [List.map_append, List.map_cons] at hnodup
  have hdis := (List.nodup_append.mp hnodup).2.2
  exact hdis (List.mem_map_of_mem Registration.id hu)
    (by rw [heq]; exact List.mem_cons_self _ _)

/-- When the ids of the registry are pairwise distinct, the lookup of the id of a
registration finds that registration. -/
theorem Callbacks.getById_distinct (array : List Registration) (registration : Registration)
    (hnodup : (array.map Registration.id).Nodup) (hmem : registration ∈ array) :
    Callbacks.getById array registration.id = some registration := by
  obtain ⟨pre, post, hsplit⟩ := List.append_of_mem hmem
  subst hsplit
  exact Callbacks.getById_first pre post registration
    (Callbacks.first_of_nodup pre post registration hnodup)

/-- What `Callbacks.execute` does with a response that carries the id of the first
registration with that id, a function, and whose result is a list: one invocation. -/
theorem Callbacks.execute_first (H : Host) (pre post : List Registration)
    (registration : Registration) (f : Nat) (response : Response) (args : List Data)
    (hfirst : ∀ u ∈ pre, u.id ≠ registration.id)
    (hfn : registration.callback = Obj.func f)
    (hid : response.id = registration.id)
    (hlist : response.result = Data.arr args) :
    (Callbacks.execute H (pre ++ registration :: post) response).1 =
      [Event.apply (Obj.func f) registration.thisArg response.result] := by
  unfold Callbacks.execute
  rw [hid, Callbacks.getById_first pre post registration hfirst]
  simp only [hfn, hlist, Data.isArgumentList, if_true]

/-- The settlement of a trigger is not a callback invocation. -/
theorem invocations_activate (array : List Trigger) (response : Response) :
    invocations (Triggers.activate array response).1 = [] := by
  unfold Triggers.activate
  cases Triggers.getById array response.id with
  | none => rfl
  | some t =>
    cases response.isError <;> rfl

/-- The invocations among two runs of events. -/
theorem invocations_append (xs ys : List Event) :
    invocations (xs ++ ys) = invocations xs ++ invocations ys := by
  unfold invocations
  exact List.filter_append _ _

/-- The events after a response whose result is a list has been handled. -/
theorem handleMessageReceived_events (H : Host) (c : Client) (response : Response)
    (args : List Data) (h : response.result = Data.arr args) :
    (_handleMessageReceived H c response).2.events =
      c.events ++ (Triggers.activate c.triggers response).1
        ++ (Callbacks.execute H c.callbacks response).1 := by
  unfold _handleMessageReceived
  simp only [not_closed_of_list response args h]
  cases (Callbacks.execute H c.callbacks response).2 <;> rfl

/-- C14, counterexample: two registrations made with the same id `k` in their options;
a response carrying `k` invokes the first callback only, so the second registered
callback is not invoked by a response that carries its id. -/
theorem second_registration_not_invoked :
    (callbackIds (run demoHost {}
      [Action.registerCallback (Obj.func 0) (some { id := some (some "k") }),
       Action.registerCallback (Obj.func 1) (some { id := some (some "k") })])
      = [some "k", some "k"]) ∧
    (Callbacks.execute demoHost
      (run demoHost {}
        [Action.registerCallback (Obj.func 0) (some { id := some (some "k") }),
         Action.registerCallback (Obj.func 1) (some { id := some (some "k") })]).callbacks
      { id := some "k", isError := false, result := Data.arr [Data.num 1] }).1
      = [Event.apply (Obj.func 0) Data.undefined (Data.arr [Data.num 1])] :=
  ⟨rfl, rfl⟩

/-- C14, amended: let `registration` be a registration of a function `fn` that is the
first of the registry to carry its id, as every registration is when the ids of the
registry are pairwise distinct.  For every sequence of responses that carry that id
and whose results are lists, `Callbacks.execute` makes one call per response, in
arrival order, each `fn.apply(thisArg, result)` with the response's result; these are
the only callback invocations made while the responses are handled, and the registry
is identical afterwards.  A response whose id matches no registration invokes
nothing. -/
theorem execute_each_response (H : Host) (c : Client) (pre post : List Registration)
    (registration : Registration) (fn : Nat) (responses : List Response)
    (hreg : c.callbacks = pre ++ registration :: post)
    (hfirst : (∀ u ∈ pre, u.id ≠ registration.id) ∨ (callbackIds c).Nodup)
    (hfn : registration.callback = Obj.func fn)
    (hid : ∀ r ∈ responses, r.id = registration.id)
    (hlist : ∀ r ∈ responses, ∃ args, r.result = Data.arr args) :
    Callbacks.getById c.callbacks registration.id = some registration ∧
    (responses.map fun r => (Callbacks.execute H c.callbacks r).1).flatten =
      responses.map (fun r => Event.apply (Obj.func fn) registration.thisArg r.result) ∧
    invocations (run H c (responses.map Action.receive)).events =
      invocations c.events ++
        responses.map (fun r => Event.apply (Obj.func fn) registration.thisArg r.result) ∧
    (run H c (responses.map Action.receive)).callbacks = c.callbacks ∧
    (∀ r : Response, (∀ u ∈ c.callbacks, u.id ≠ r.id) →
      Callbacks.execute H c.callbacks r = ([], none)) := by
  have hpre : ∀ u ∈ pre, u.id ≠ registration.id := by
    rcases hfirst with h | h
    · exact h
    · apply Callbacks.first_of_nodup pre post registration
      unfold callbackIds at h
      rw [hreg] at h
      exact h
  have hone : ∀ r ∈ responses, (Callbacks.execute H (pre ++ registration :: post) r).1 =
      [Event.apply (Obj.func fn) registration.thisArg r.result] := by
    intro r hr
    obtain ⟨args, ha⟩ := hlist r hr
    exact Callbacks.execute_first H pre post registration fn r args hpre hfn (hid r hr) ha
  refine ⟨?_, ?_, ?_, ?_, ?_⟩
  · rw [hreg]
    exact Callbacks.getById_first pre post registration hpre
  · rw [hreg]
    clear hid hlist hreg
    induction responses with
    | nil => rfl
    | cons r rest ih =>
      rw [List.map_cons, List.flatten_cons, hone r (List.mem_cons_self r rest),
        ih (fun u hu => hone u (List.mem_cons_of_mem r hu))]
      rfl
  · clear hid hfirst
    induction responses generalizing c with
    | nil => simp [run]
    | cons r rest ih =>
      obtain ⟨args, ha⟩ := hlist r (List.mem_cons_self r rest)
      have hcb := handleMessageReceived_callbacks H c r args ha
      have hev := handleMessageReceived_events H c r args ha
      have hrun : run H c ((r :: rest).map Action.receive) =
          run H (_handleMessageReceived H c r).2 (rest.map Action.receive) := rfl
      rw [hrun, ih (_handleMessageReceived H c r).2 (by rw [hcb]; exact hreg)
        (fun u hu => hlist u (List.mem_cons_of_mem r hu))
        (fun u hu => hone u (List.mem_cons_of_mem r hu)), hev, hreg,
        hone r (List.mem_cons_self r rest)]
      rw [invocations_append, invocations_append, invocations_activate, List.append_nil,
        List.append_assoc]
      rfl
  · clear hid hfirst hone
    induction responses generalizing c with
    | nil => rfl
    | cons r rest ih =>
      obtain ⟨args, ha⟩ := hlist r (List.mem_cons_self r rest)
      have hstep := handleMessageReceived_callbacks H c r args ha
      have := ih (_handleMessageReceived H c r).2 (by rw [hstep]; exact hreg)
        (fun u hu => hlist u (List.mem_cons_of_mem r hu))
      rw [hstep] at this
      exact this
  · intro r hr
    simp [Callbacks.execute, (Callbacks.getById_none_iff c.callbacks r.id).mpr hr]

/-- Witness for C14: one registration, three responses with distinct arguments. -/
theorem execute_each_response_witness :
    invocations (run demoHost (registerCallback demoHost {} (Obj.func 0) none).2
      ([({ id := some "x", isError := false, result := Data.arr [Data.num 1] } : Response),
        { id := some "x", isError := false, result := Data.arr [Data.num 2] },
        { id := some "x", isError := false, result := Data.arr [Data.num 3] }].map
          Action.receive)).events =
      [Event.apply (Obj.func 0) Data.undefined (Data.arr [Data.num 1]),
       Event.apply (Obj.func 0) Data.undefined (Data.arr [Data.num 2]),
       Event.apply (Obj.func 0) Data.undefined (Data.arr [Data.num 3])] :=
  (execute_each_response demoHost (registerCallback demoHost {} (Obj.func 0) none).2 [] []
    { ident := 0, id := some "x", thisArg := Data.undefined, callback := Obj.func 0 } 0
    [{ id := some "x", isError := false, result := Data.arr [Data.num 1] },
     { id := some "x", isError := false, result := Data.arr [Data.num 2] },
     { id := some "x", isError := false, result := Data.arr [Data.num 3] }]
    rfl (Or.inl (fun _ hu => by cases hu)) rfl (by decide)
    (by
      intro r hr
      simp only [List.mem_cons, List.mem_singleton, List.not_mem_nil, or_false] at hr
      rcases hr with h | h | h <;> subst h
      · exact ⟨[Data.num 1], rfl⟩
      · exact ⟨[Data.num 2], rfl⟩
      · exact ⟨[Data.num 3], rfl⟩)).2.2.1

end PromiseWorker

/-!
More theorems about the worker
-/

namespace DynamicWorker

/-- Allocation leaves the existing cells as they are. -/
theorem cellAt_alloc_old (c : Cell) (w : World) (a : Nat) (h : a < w.heap.length) :
    cellAt (alloc c w).2 a = cellAt w a := by
  simp [cellAt, alloc, List.getElem?_append_left h]

/-- The cell at the address returned by an allocation is the allocated one. -/
theorem cellAt_alloc_new (c : Cell) (w : World) :
    cellAt (alloc c w).2 w.heap.length = c := by
  simp [cellAt, alloc]

/-- Allocation does not change the members of a value that was there before. -/
theorem member_alloc (P : Platform) (c : Cell) (w : World) (v : Val) (name : String)
    (h : ∀ a, v = Val.ref a → a < w.heap.length) :
    member P (alloc c w).2 v name = member P w v name := by
  cases v with
  | ref a => simp only [member, cellAt_alloc_old c w a (h a rfl)]
  | _ => rfl

/-- A read on a value other than `undefined` and `null` returns the member and leaves
the world alone. -/
theorem getMember_ok (P : Platform) (w : World) (v : Val) (name : String)
    (hu : v ≠ Val.undefined) (hn : v ≠ Val.null) :
    getMember P w v name = (Res.ok (member P w v name), w) := by
  cases v <;> simp_all [getMember]

/-- The name `1`, `2` and `3` are the array indices 1, 2 and 3, and `0` is the index 0. -/
theorem parseIndex_small :
    parseIndex "0" = some 0 ∧ parseIndex "1" = some 1 ∧ parseIndex "2" = some 2 ∧
    parseIndex "3" = some 3 := by
  decide

/-- The members `0` to `3` of an array are its first four elements. -/
theorem member_tuple (P : Platform) (w : World) (a : Nat) (es : List Val)
    (h : (cellAt w a).elems = some es) :
    member P w (Val.ref a) "0" = (es[0]?).getD (namedMember (cellAt w a) "0") ∧
    member P w (Val.ref a) "1" = (es[1]?).getD (namedMember (cellAt w a) "1") ∧
    member P w (Val.ref a) "2" = (es[2]?).getD (namedMember (cellAt w a) "2") ∧
    member P w (Val.ref a) "3" = (es[3]?).getD (namedMember (cellAt w a) "3") := by
  obtain ⟨h0, h1, h2, h3⟩ := parseIndex_small
  refine ⟨?_, ?_, ?_, ?_⟩ <;> simp [member, h, h0, h1, h2, h3]

end DynamicWorker

namespace DynamicWorker

/-- A tuple whose value, nested value and nested value list are absent is a read. -/
theorem processRequestProperty_read (P : Platform) (fuel : Nat) (w : World)
    (request context : Val) (name : String)
    (h0 : member P w request "0" = Val.str name)
    (h1 : member P w request "1" = Val.undefined)
    (h2 : member P w request "2" = Val.undefined)
    (h3 : member P w request "3" = Val.undefined)
    (hu : request ≠ Val.undefined) (hn : request ≠ Val.null) :
    processRequestProperty P (fuel + 1) request context w = getMember P w context name := by
  simp [processRequestProperty, getMember_ok P w request "1" hu hn, andThen, h0, h1, h2, h3,
    typeOf, toStr]

/-- C17: the bare name, the tuple `[name]` and the record `{property: name}` are
evaluated as the read `context[name]` is: the first two in the world as it stands, the
record after the tuple `[name, undefined, undefined, undefined]` has been allocated
for it.  On a context other than `undefined` and `null` that read returns the current
`context[name]` and leaves the world as it is, so for the record the world only gains
the tuple.  As a message, the bare name returns the root scope's current value of the
name, and the world only gains the one-element list that wraps it. -/
theorem read_forms_agree (P : Platform) (fuel : Nat) (w : World) (context : Val)
    (name : String) :
    processRequest P (fuel + 1) (Val.str name) context w = getMember P w context name ∧
    (∀ a, isArray w (Val.ref a) = true →
      member P w (Val.ref a) "0" = Val.str name →
      member P w (Val.ref a) "1" = Val.undefined →
      member P w (Val.ref a) "2" = Val.undefined →
      member P w (Val.ref a) "3" = Val.undefined →
      processRequest P (fuel + 2) (Val.ref a) context w = getMember P w context name) ∧
    (∀ a, isArray w (Val.ref a) = false → typeOf w (Val.ref a) = "object" →
      typeOf w (member P w (Val.ref a) "function") ≠ "string" →
      member P w (Val.ref a) "property" = Val.str name →
      member P w (Val.ref a) "value" = Val.undefined →
      member P w (Val.ref a) "processedValue" = Val.undefined →
      member P w (Val.ref a) "processedValueArray" = Val.undefined →
      processRequest P (fuel + 3) (Val.ref a) context w =
        getMember P
          { w with heap := w.heap ++
              [{ elems := some [Val.str name, Val.undefined, Val.undefined, Val.undefined] }] }
          context name) ∧
    (context ≠ Val.undefined → context ≠ Val.null →
      (∀ c, context = Val.ref c → c < w.heap.length) →
      getMember P w context name = (Res.ok (member P w context name), w) ∧
      getMember P
          { w with heap := w.heap ++
              [{ elems := some [Val.str name, Val.undefined, Val.undefined, Val.undefined] }] }
          context name =
        (Res.ok (member P w context name),
         { w with heap := w.heap ++
              [{ elems := some [Val.str name, Val.undefined, Val.undefined, Val.undefined] }] })) ∧
    (selfAddr < w.heap.length →
      process P (fuel + 3) (Val.str name) w =
        (Res.ok (member P w (Val.ref selfAddr) name),
         { w with heap := w.heap ++ [{ elems := some [Val.str name] }] })) := by
  refine ⟨?_, ?_, ?_, ?_, ?_⟩
  · simp [processRequest, typeOf, toStr]
  · intro a harr h0 h1 h2 h3
    have ht : typeOf w (Val.ref a) ≠ "string" := by
      simp only [typeOf]
      split <;> decide
    have hs : typeOf w (Val.str name) = "string" := rfl
    have hstep : processRequest P (fuel + 2) (Val.ref a) context w =
        processRequestProperty P (fuel + 1) (Val.ref a) context w := by
      simp [processRequest, ht, harr, h0, hs]
    rw [hstep]
    exact processRequestProperty_read P fuel w (Val.ref a) context name h0 h1 h2 h3
      (by simp) (by simp)
  · intro a harr hobj hfun hprop hval hpv hpva
    have ht : typeOf w (Val.ref a) ≠ "string" := by rw [hobj]; decide
    have hprop' : typeOf w (member P w (Val.ref a) "property") = "string" := by
      rw [hprop]; rfl
    have hstep : processRequest P (fuel + 3) (Val.ref a) context w =
        processRequestObject P (fuel + 2) (Val.ref a) context w := by
      simp [processRequest, ht, harr, hobj]
    rw [hstep]
    simp only [processRequestObject, getMember, andThen, beq_iff_eq, hfun, if_false, hprop',
      if_true, hprop, hval, hpv, hpva]
    have hw1 : (allocArray [Val.str name, Val.undefined, Val.undefined, Val.undefined] w).2 =
        { w with heap := w.heap ++
            [{ elems := some [Val.str name, Val.undefined, Val.undefined, Val.undefined] }] } := rfl
    have hr1 : (allocArray [Val.str name, Val.undefined, Val.undefined, Val.undefined] w).1 =
        Val.ref w.heap.length := rfl
    rw [hr1, hw1]
    have hcell : (cellAt { w with heap := w.heap ++
            [{ elems := some [Val.str name, Val.undefined, Val.undefined, Val.undefined] }] }
          w.heap.length).elems =
        some [Val.str name, Val.undefined, Val.undefined, Val.undefined] := by
      simp [cellAt]
    obtain ⟨m0, m1, m2, m3⟩ := member_tuple P _ w.heap.length _ hcell
    exact processRequestProperty_read P fuel _ (Val.ref w.heap.length) context name
      (by rw [m0]; rfl) (by rw [m1]; rfl) (by rw [m2]; rfl) (by rw [m3]; rfl) (by simp) (by simp)
  · intro hu hn hc
    refine ⟨getMember_ok P w context name hu hn, ?_⟩
    rw [getMember_ok P _ context name hu hn]
    have := member_alloc P
      { elems := some [Val.str name, Val.undefined, Val.undefined, Val.undefined] } w context name hc
    simp only [alloc] at this
    rw [this]
  · intro hself
    have hm := member_alloc P { elems := some [Val.str name] } w (Val.ref selfAddr) name
      (fun a ha => by cases ha; exact hself)
    simp only [alloc] at hm
    simp [process, isArray, processFrom, elemsOf, allocArray, alloc, cellAt, processRequest,
      typeOf, toStr, getMember, andThen]
    simpa [cellAt] using hm

end DynamicWorker

namespace DynamicWorker

/-- Witness for C17 in the demo scope, where `five` is 5: the tuple `['five']`, the
record `{property: 'five'}` and the message `'five'`. -/
theorem read_forms_agree_witness :
    (processRequest demoPlatform 2 (Val.ref 10) (Val.ref selfAddr)
        (demoWorld { elems := some [Val.str "five"] })).1 = Res.ok (Val.num 5) ∧
    (processRequest demoPlatform 3 (Val.ref 10) (Val.ref selfAddr)
        (demoWorld { props := [("property", Val.str "five")] })).1 = Res.ok (Val.num 5) ∧
    (process demoPlatform 3 (Val.str "five") (demoWorld {})).1 = Res.ok (Val.num 5) := by
  refine ⟨?_, ?_, ?_⟩
  · rw [(read_forms_agree demoPlatform 0 (demoWorld { elems := some [Val.str "five"] })
      (Val.ref selfAddr) "five").2.1 10 (by decide) (by decide) (by decide) (by decide)
      (by decide)]
    decide
  · rw [(read_forms_agree demoPlatform 0 (demoWorld { props := [("property", Val.str "five")] })
      (Val.ref selfAddr) "five").2.2.1 10 (by decide) (by decide) (by decide) (by decide)
      (by decide) (by decide) (by decide)]
    decide
  · rw [(read_forms_agree demoPlatform 0 (demoWorld {}) (Val.ref selfAddr) "five").2.2.2.2
      (by decide)]
    decide

end DynamicWorker

namespace DynamicWorker

/-- A function request without nested arguments, on a context whose member is a
function that is not disallowed, is the call of that function on the context with
the argument list of the request. -/
theorem processRequestFunction_call (P : Platform) (fuel : Nat) (w : World)
    (request context : Val) (f : String) (g : Nat) (code : Fn)
    (hreq : member P w request "function" = Val.str f)
    (hnested : truthy (member P w request "processedArguments") = false)
    (hctx : member P w context f = Val.ref g)
    (hcode : (cellAt w g).code = some code)
    (hallowed : Val.ref g ∉ disallowedFunctions) :
    processRequestFunction P (fuel + 1) request context w =
      applyFn P (Val.ref g) context
        (if isArray w (member P w request "arguments")
         then elemsOf w (member P w request "arguments")
         else [member P w request "arguments"]) w := by
  have h1 : getMember P w request "function" = (Res.ok (Val.str f), w) := by
    rw [getMember_of_member P w request "function" (by rw [hreq]; simp), hreq]
  have h2 : getMember P w context f = (Res.ok (Val.ref g), w) := by
    rw [getMember_of_member P w context f (by rw [hctx]; simp), hctx]
  simp [processRequestFunction, andThen, h1, h2, toStr, typeOf, hcode,
    checkForDisallowedFunction, hallowed, hnested, hreq]

/-- C18: for a context whose member `f` is a function that is not on the deny-list, the
request `{function: f, arguments: args}` (no nested arguments) is the call
`context[f].apply(context, list)`, where `list` is `args` when `args` is a list and
`[args]` otherwise (also when `args` is absent), and returns what the call returns;
for a function of the host, the call is recorded with receiver `context` and that
argument list and the function's own outcome is returned. -/
theorem processRequestFunction_invokes (P : Platform) (fuel : Nat) (w : World)
    (request context : Val) (f : String) (g : Nat) (code : Fn)
    (hreq : member P w request "function" = Val.str f)
    (hnested : truthy (member P w request "processedArguments") = false)
    (hctx : member P w context f = Val.ref g)
    (hcode : (cellAt w g).code = some code)
    (hallowed : Val.ref g ∉ disallowedFunctions) :
    processRequestFunction P (fuel + 1) request context w =
      applyFn P (Val.ref g) context
        (if isArray w (member P w request "arguments")
         then elemsOf w (member P w request "arguments")
         else [member P w request "arguments"]) w ∧
    (∀ k args, code = Fn.native k →
      applyFn P (Val.ref g) context args w =
        P.invoke (Fn.native k) context args
          { w with calls := w.calls ++
              [{ code := Fn.native k, thisArg := context, args := args }] }) := by
  refine ⟨processRequestFunction_call P fuel w request context f g code hreq hnested hctx
    hcode hallowed, ?_⟩
  intro k args hk
  subst hk
  simp [applyFn, applyWith, hcode]

/-- Witness for C18: `echo` returns the list of its arguments; called through
`{function: 'echo', arguments: [1, 2, 3]}` it is invoked on the root scope with 1, 2, 3
and its result, a list holding 1, 2, 3, is returned. -/
theorem processRequestFunction_invokes_witness :
    (processRequestFunction demoPlatform 1 (Val.ref 10) (Val.ref selfAddr)
      (demoWorld2 { props := [("function", Val.str "echo"), ("arguments", Val.ref 12)] }
        { elems := some [Val.num 1, Val.num 2, Val.num 3] })).1 = Res.ok (Val.ref 13) ∧
    elemsOf (processRequestFunction demoPlatform 1 (Val.ref 10) (Val.ref selfAddr)
      (demoWorld2 { props := [("function", Val.str "echo"), ("arguments", Val.ref 12)] }
        { elems := some [Val.num 1, Val.num 2, Val.num 3] })).2 (Val.ref 13)
      = [Val.num 1, Val.num 2, Val.num 3] ∧
    (processRequestFunction demoPlatform 1 (Val.ref 10) (Val.ref selfAddr)
      (demoWorld2 { props := [("function", Val.str "echo"), ("arguments", Val.ref 12)] }
        { elems := some [Val.num 1, Val.num 2, Val.num 3] })).2.calls
      = [{ code := Fn.native 0, thisArg := Val.ref selfAddr,
           args := [Val.num 1, Val.num 2, Val.num 3] }] := by
  rw [(processRequestFunction_invokes demoPlatform 0
    (demoWorld2 { props := [("function", Val.str "echo"), ("arguments", Val.ref 12)] }
      { elems := some [Val.num 1, Val.num 2, Val.num 3] })
    (Val.ref 10) (Val.ref selfAddr) "echo" 4 (Fn.native 0)
    (by decide) (by decide) (by decide) (by decide) (by decide)).1]
  decide

/-- C19: when `context[n]` evaluates to a value that is not a function (absent, or any
other value, even one on the deny-list), `processRequestFunction` on a request
`{function: n, ...}` throws `new Error('Function n does not exist!')`; the world
afterwards is the world before plus that error object, so nothing has been invoked
and no nested argument has been resolved. -/
theorem processRequestFunction_not_found (P : Platform) (fuel : Nat) (w : World)
    (request context v : Val) (n : String)
    (hreq : member P w request "function" = Val.str n)
    (hctx : getMember P w context n = (Res.ok v, w))
    (hv : typeOf w v ≠ "function") :
    processRequestFunction P (fuel + 1) request context w =
      (Res.throw (Val.ref w.heap.length),
       { w with heap := w.heap ++ [errorCell P ("Function " ++ n ++ " does not exist!")] }) := by
  have h1 : getMember P w request "function" = (Res.ok (Val.str n), w) := by
    rw [getMember_of_member P w request "function" (by rw [hreq]; simp), hreq]
  simp [processRequestFunction, andThen, h1, hctx, toStr, hv, throwNew, newError, alloc]

/-- Witness for C19: the root scope of the demo has a member `five` that is a number
and no member `missing`. -/
theorem processRequestFunction_not_found_witness :
    (processRequestFunction demoPlatform 1 (Val.ref 10) (Val.ref selfAddr)
      (demoWorld { props := [("function", Val.str "five")] })).1 = Res.throw (Val.ref 12) ∧
    member demoPlatform
      (processRequestFunction demoPlatform 1 (Val.ref 10) (Val.ref selfAddr)
        (demoWorld { props := [("function", Val.str "five")] })).2 (Val.ref 12) "message"
      = Val.str "Function five does not exist!" := by
  rw [processRequestFunction_not_found demoPlatform 0
    (demoWorld { props := [("function", Val.str "five")] })
    (Val.ref 10) (Val.ref selfAddr) (Val.num 5) "five" (by decide) (by decide) (by decide)]
  decide

end DynamicWorker

namespace DynamicWorker

/-- The names the responder reads on a result are not array indices. -/
theorem parseIndex_names :
    parseIndex "then" = none ∧ parseIndex "message" = none ∧
    parseIndex "description" = none ∧ parseIndex "stack" = none := by
  decide

/-- A freshly made list has no member `then`, `message`, `description` or `stack`. -/
theorem member_fresh_list (P : Platform) (w : World) (k : Nat) (es : List Val)
    (h : cellAt w k = { elems := some es }) :
    member P w (Val.ref k) "then" = Val.undefined ∧
    member P w (Val.ref k) "message" = Val.undefined ∧
    member P w (Val.ref k) "description" = Val.undefined ∧
    member P w (Val.ref k) "stack" = Val.undefined := by
  obtain ⟨h1, h2, h3, h4⟩ := parseIndex_names
  refine ⟨?_, ?_, ?_, ?_⟩ <;> simp [member, h, h1, h2, h3, h4, namedMember]

/-- A result that is not deferred and that the host can clone, together with the header
id, is answered by one frame. -/
theorem respond_frame (P : Platform) (w : World) (header v : Val)
    (hnd : isDeferred P w v = false)
    (hid : P.cloneable w (getHeaderPropertyValue P w header "id") = true)
    (hv : P.cloneable w v = true) :
    respond P header v w =
      (Res.ok Val.undefined,
       { w with outbox := w.outbox ++
          [{ id := getHeaderPropertyValue P w header "id",
             isError := isResultError P w v,
             result := v }] }) := by
  unfold isDeferred at hnd
  simp [respond, respondNow, hnd, sendResponse, postMessage, hid, hv, tryCatch]

/-- What a closure made by `createCallback(header)` does when it is called with the
arguments `args`, if the host can clone the header id and the list of the arguments:
the call is recorded, the list is allocated, and one frame is posted. -/
theorem callback_frame (P : Platform) (w : World) (k : Nat) (header thisArg : Val)
    (args : List Val)
    (hcode : (cellAt w k).code = some (Fn.callback header))
    (hheader : truthy header = true)
    (hid : P.cloneable
      { w with
        calls := w.calls ++ [{ code := Fn.callback header, thisArg := thisArg, args := args }],
        heap := w.heap ++ [{ elems := some args }] }
      (member P
        { w with
          calls := w.calls ++ [{ code := Fn.callback header, thisArg := thisArg, args := args }],
          heap := w.heap ++ [{ elems := some args }] } header "id") = true)
    (hlist : P.cloneable
      { w with
        calls := w.calls ++ [{ code := Fn.callback header, thisArg := thisArg, args := args }],
        heap := w.heap ++ [{ elems := some args }] }
      (Val.ref w.heap.length) = true) :
    applyFn P (Val.ref k) thisArg args w =
      (Res.ok Val.undefined,
       { w with
         calls := w.calls ++ [{ code := Fn.callback header, thisArg := thisArg, args := args }],
         heap := w.heap ++ [{ elems := some args }],
         outbox := w.outbox ++
           [{ id := member P
                { w with
                  calls := w.calls ++
                    [{ code := Fn.callback header, thisArg := thisArg, args := args }],
                  heap := w.heap ++ [{ elems := some args }] } header "id",
              isError := false,
              result := Val.ref w.heap.length }] }) := by
  have happ : applyFn P (Val.ref k) thisArg args w =
      respond P header (Val.ref w.heap.length)
        { w with
          calls := w.calls ++ [{ code := Fn.callback header, thisArg := thisArg, args := args }],
          heap := w.heap ++ [{ elems := some args }] } := by
    simp [applyFn, applyWith, hcode, allocArray, alloc]
  rw [happ]
  generalize hw2 : ({ w with
      calls := w.calls ++ [{ code := Fn.callback header, thisArg := thisArg, args := args }],
      heap := w.heap ++ [{ elems := some args }] } : World) = w2 at hid hlist ⊢
  have hcell : cellAt w2 w.heap.length = { elems := some args } := by
    rw [← hw2]
    simp [cellAt]
  obtain ⟨m1, m2, m3, m4⟩ := member_fresh_list P w2 w.heap.length args hcell
  have hnd : isDeferred P w2 (Val.ref w.heap.length) = false := by
    simp [isDeferred, m1, typeOf]
  have herr : isResultError P w2 (Val.ref w.heap.length) = false := by
    simp [isResultError, m2, m3, truthy]
  have hidv : getHeaderPropertyValue P w2 header "id" = member P w2 header "id" := by
    simp [getHeaderPropertyValue, hheader]
  have hr := respond_frame P w2 header (Val.ref w.heap.length) hnd (by rw [hidv]; exact hid) hlist
  rw [hr, herr, hidv, ← hw2]

end DynamicWorker

namespace PromiseWorker

open DynamicWorker

/-- C15, counterexample: in the demo scope with a host whose structured clone rejects
functions wherever they occur, the descriptor `{function: 'createCallback',
arguments: {id: 'a'}}` evaluates to a closure (address 12); invoked with a function
as its argument, the closure throws and no frame is sent. -/
theorem callback_with_function_argument :
    (processRequestFunction strictPlatform 1 (Val.ref 10) (Val.ref selfAddr)
      (demoWorld { props := [("function", Val.str "createCallback"), ("arguments", Val.ref 9)] })).1
      = Res.ok (Val.ref 12) ∧
    (applyFn strictPlatform (Val.ref 12) Val.undefined [Val.ref 4]
      (processRequestFunction strictPlatform 1 (Val.ref 10) (Val.ref selfAddr)
        (demoWorld
          { props := [("function", Val.str "createCallback"), ("arguments", Val.ref 9)] })).2).1
      = Res.throw (Val.ref 16) ∧
    (applyFn strictPlatform (Val.ref 12) Val.undefined [Val.ref 4]
      (processRequestFunction strictPlatform 1 (Val.ref 10) (Val.ref selfAddr)
        (demoWorld
          { props := [("function", Val.str "createCallback"), ("arguments", Val.ref 9)] })).2).2.outbox
      = [] := by
  decide

/-- C15, amended: `registerCallback(fn, options)` adds exactly one registration
`{id, thisArg, callback: fn}` whose id and `thisArg` are those of the header it
returns inside the descriptor.  In the worker, the descriptor `{function:
'createCallback', arguments: header}` evaluated against a root scope that still holds
the script's `createCallback` yields a new closure; and every invocation of a closure
made for `header` with an argument list that the host can clone (together with the
header id) posts exactly one frame `{id: header.id, isError: false, result: list}`,
where `list` is a new list holding the arguments. -/
theorem registerCallback_descriptor (H : Host) (c : Client) (fn : Obj)
    (options : Option Options) (P : Platform) (fuel : Nat) (header : Val) :
    ((registerCallback H c fn options).2.callbacks =
        c.callbacks ++
          [{ ident := c.records,
             id := (registerCallback H c fn options).1.getId,
             thisArg := (registerCallback H c fn options).1.getThisArg,
             callback := fn }] ∧
      (registerCallback H c fn options).2.triggers = c.triggers) ∧
    (∀ (w : World) (request : Val) (g : Nat),
      member P w request "function" = Val.str "createCallback" →
      truthy (member P w request "processedArguments") = false →
      member P w request "arguments" = header →
      isArray w header = false →
      member P w (Val.ref selfAddr) "createCallback" = Val.ref g →
      (cellAt w g).code = some Fn.createCallback →
      Val.ref g ∉ disallowedFunctions →
      processRequestFunction P (fuel + 1) request (Val.ref selfAddr) w =
        (Res.ok (Val.ref w.heap.length),
         { w with
           calls := w.calls ++
             [{ code := Fn.createCallback, thisArg := Val.ref selfAddr, args := [header] }],
           heap := w.heap ++ [{ code := some (Fn.callback header) }] })) ∧
    (∀ (w : World) (k : Nat) (thisArg : Val) (args : List Val),
      (cellAt w k).code = some (Fn.callback header) →
      truthy header = true →
      P.cloneable
        { w with
          calls := w.calls ++ [{ code := Fn.callback header, thisArg := thisArg, args := args }],
          heap := w.heap ++ [{ elems := some args }] }
        (member P
          { w with
            calls := w.calls ++ [{ code := Fn.callback header, thisArg := thisArg, args := args }],
            heap := w.heap ++ [{ elems := some args }] } header "id") = true →
      P.cloneable
        { w with
          calls := w.calls ++ [{ code := Fn.callback header, thisArg := thisArg, args := args }],
          heap := w.heap ++ [{ elems := some args }] }
        (Val.ref w.heap.length) = true →
      applyFn P (Val.ref k) thisArg args w =
        (Res.ok Val.undefined,
         { w with
           calls := w.calls ++ [{ code := Fn.callback header, thisArg := thisArg, args := args }],
           heap := w.heap ++ [{ elems := some args }],
           outbox := w.outbox ++
             [{ id := member P
                  { w with
                    calls := w.calls ++
                      [{ code := Fn.callback header, thisArg := thisArg, args := args }],
                    heap := w.heap ++ [{ elems := some args }] } header "id",
                isError := false,
                result := Val.ref w.heap.length }] })) := by
  refine ⟨⟨?_, ?_⟩, ?_, ?_⟩
  · simp [registerCallback, generateHeader_client]
  · simp [registerCallback, generateHeader_client]
  · intro w request g hfun hnested hargs harr hself hcode hallowed
    rw [processRequestFunction_call P fuel w request (Val.ref selfAddr) "createCallback" g
      Fn.createCallback hfun hnested hself hcode hallowed]
    simp [hargs, harr, applyFn, applyWith, hcode, alloc]
  · intro w k thisArg args hcode hheader hid hlist
    exact callback_frame P w k header thisArg args hcode hheader hid hlist

/-- Witness for C15: the descriptor with the header `{id: 'a'}` in the demo scope, and
the closure it yields invoked with the arguments 1 and 2. -/
theorem registerCallback_descriptor_witness :
    (registerCallback demoHost {} (Obj.func 0) none).2.callbacks =
      [{ ident := 0, id := some "x", thisArg := Data.undefined, callback := Obj.func 0 }] ∧
    (processRequestFunction demoPlatform 1 (Val.ref 10) (Val.ref selfAddr)
      (demoWorld { props := [("function", Val.str "createCallback"), ("arguments", Val.ref 9)] })).1
      = Res.ok (Val.ref 12) ∧
    (applyFn demoPlatform (Val.ref 12) Val.undefined [Val.num 1, Val.num 2]
      (processRequestFunction demoPlatform 1 (Val.ref 10) (Val.ref selfAddr)
        (demoWorld
          { props := [("function", Val.str "createCallback"), ("arguments", Val.ref 9)] })).2).2.outbox
      = [{ id := Val.str "a", isError := false, result := Val.ref 13 }] := by
  have h := registerCallback_descriptor demoHost {} (Obj.func 0) none demoPlatform 0 (Val.ref 9)
  refine ⟨h.1.1, ?_, ?_⟩
  · rw [h.2.1
      (demoWorld { props := [("function", Val.str "createCallback"), ("arguments", Val.ref 9)] })
      (Val.ref 10) 3 (by decide) (by decide) (by decide) (by decide) (by decide) (by decide)
      (by decide)]
    decide
  · rw [h.2.2 _ 12 Val.undefined [Val.num 1, Val.num 2] (by decide) (by decide) (by decide)
      (by decide)]
    decide

end PromiseWorker

namespace DynamicWorker

/-- After an entry has been written, the lookup of its name gives the written value. -/
theorem lookup_setEntry (name : String) (value : Val) (l : List (String × Val)) :
    (setEntry name value l).lookup name = some value := by
  induction l with
  | nil => simp [setEntry, List.lookup]
  | cons kv rest ih =>
    obtain ⟨k, v⟩ := kv
    by_cases h : k = name
    · subst h
      simp [setEntry, List.lookup]
    · have h' : (name == k) = false := by
        rw [beq_eq_false_iff_ne]
        exact fun e => h e.symm
      simp [setEntry, h, List.lookup, h', ih]

/-- Writing an entry leaves the lookup of a name that was absent before absent only if
it is another name; in particular a list without the name keeps being without it when
it is not touched. -/
theorem lookup_append_new (name : String) (value : Val) (l : List (String × Val))
    (h : l.lookup name = none) : (l ++ [(name, value)]).lookup name = some value := by
  induction l with
  | nil => simp [List.lookup]
  | cons kv rest ih =>
    obtain ⟨k, v⟩ := kv
    cases hk : (name == k) with
    | true => simp [List.lookup, hk] at h
    | false =>
      simp only [List.lookup, hk] at h
      simp [List.lookup, hk, ih h]

/-- After a named property has been written, reading it gives the written value. -/
theorem namedMember_setNamed (c : Cell) (name : String) (value : Val) :
    namedMember (setNamed c name value) name = value := by
  unfold setNamed
  cases hp : c.props.lookup name with
  | some v => simp [namedMember, lookup_setEntry]
  | none =>
    cases hh : c.hidden.lookup name with
    | some v => simp [namedMember, hp, lookup_setEntry]
    | none => simp [namedMember, hh, lookup_append_new name value c.props hp]

/-- Writing a named property does not change the elements. -/
theorem setNamed_elems (c : Cell) (name : String) (value : Val) :
    (setNamed c name value).elems = c.elems := by
  unfold setNamed
  split
  · rfl
  · split <;> rfl

/-- After an element has been written, reading it gives the written value. -/
theorem getElem?_setElem (es : List Val) (i : Nat) (value : Val) :
    (setElem es i value)[i]? = some value := by
  unfold setElem
  split
  · rename_i h
    simp [h]
  · rename_i h
    have hlen : (es ++ List.replicate (i - es.length) Val.undefined).length = i := by
      simp
      omega
    rw [List.getElem?_append_right (by omega), hlen]
    simp

/-- The cell written at an address inside the heap is the cell read there afterwards. -/
theorem cellAt_setCell (w : World) (a : Nat) (c : Cell) (h : a < w.heap.length) :
    cellAt (setCell w a c) a = c := by
  simp [cellAt, setCell, h]

/-- An address whose cell is a list lies inside the heap. -/
theorem lt_length_of_elems (w : World) (a : Nat) (es : List Val)
    (h : (cellAt w a).elems = some es) : a < w.heap.length := by
  by_contra hlt
  have : w.heap[a]? = none := List.getElem?_eq_none (by omega)
  simp [cellAt, this] at h

/-- The assignment `object[name] = value` on an object that takes it returns the
value, and the member read afterwards is that value. -/
theorem member_setMember (P : Platform) (w : World) (c : Nat) (name : String) (value : Val)
    (hc : c < w.heap.length)
    (hassign : assignable w c name = true) :
    (setMember P w (Val.ref c) name value).1 = Res.ok value ∧
    member P (setMember P w (Val.ref c) name value).2 (Val.ref c) name = value := by
  unfold assignable at hassign
  rw [Bool.and_eq_true] at hassign
  obtain ⟨hro, hrest⟩ := hassign
  have hro1 : (cellAt w c).readOnly.contains name = false := by
    cases h : (cellAt w c).readOnly.contains name
    · rfl
    · rw [h] at hro
      cases hro
  cases he : (cellAt w c).elems with
  | none =>
    rw [he] at hrest
    have hset : setNamedMember P w c name value =
        (Res.ok value, setCell w c (setNamed (cellAt w c) name value)) := by
      unfold setNamedMember
      rw [if_pos hrest]
    simp only [setMember, hro1, Bool.false_eq_true, if_false, he, hset]
    refine ⟨trivial, ?_⟩
    simp only [member, cellAt_setCell w c _ hc, setNamed_elems, he, namedMember_setNamed]
  | some es =>
    rw [he] at hrest
    simp only [Bool.and_eq_true, bne_iff_ne, ne_eq] at hrest
    obtain ⟨hne, hrest⟩ := hrest
    cases hi : parseIndex name with
    | none =>
      rw [hi] at hrest
      have hset : setNamedMember P w c name value =
          (Res.ok value, setCell w c (setNamed (cellAt w c) name value)) := by
        unfold setNamedMember
        rw [if_pos hrest]
      simp only [setMember, hro1, Bool.false_eq_true, if_false, he, hne, hi, hset]
      refine ⟨trivial, ?_⟩
      simp only [member, cellAt_setCell w c _ hc, setNamed_elems, he, hne, if_false, hi,
        namedMember_setNamed]
    | some i =>
      rw [hi] at hrest
      simp only [setMember, hro1, Bool.false_eq_true, if_false, he, hne, hi]
      rw [if_pos hrest]
      refine ⟨rfl, ?_⟩
      simp only [member, cellAt_setCell w c _ hc, hne, if_false, hi, getElem?_setElem]
      rfl

end DynamicWorker

namespace DynamicWorker

/-- A truthy value is not `undefined`. -/
theorem typeOf_ne_undefined_of_truthy (w : World) (v : Val) (h : truthy v = true) :
    typeOf w v ≠ "undefined" := by
  cases v <;> simp_all [truthy, typeOf]
  split <;> decide

/-- The type `undefined` is that of the value `undefined` only. -/
theorem typeOf_eq_undefined (w : World) (v : Val) :
    typeOf w v = "undefined" ↔ v = Val.undefined := by
  cases v <;> simp [typeOf]
  split <;> decide

/-- Writing element 1 of a list keeps element 0. -/
theorem setElem_one_head (x value : Val) (rest : List Val) :
    (setElem (x :: rest) 1 value)[0]? = some x := by
  unfold setElem
  split <;> simp

/-- Storing the resolved value in slot 1 of the tuple. -/
theorem setMember_slot_one (P : Platform) (w : World) (a : Nat) (es : List Val) (value : Val)
    (hes : (cellAt w a).elems = some es)
    (hassign : assignable w a "1" = true) :
    setMember P w (Val.ref a) "1" value = (Res.ok value, writeIndex w (Val.ref a) 1 value) := by
  unfold assignable at hassign
  rw [Bool.and_eq_true] at hassign
  obtain ⟨hro, hrest⟩ := hassign
  have hro1 : (cellAt w a).readOnly.contains "1" = false := by
    cases h : (cellAt w a).readOnly.contains "1"
    · rfl
    · rw [h] at hro
      cases hro
  rw [hes] at hrest
  simp only [parseIndex_small.2.1, Bool.and_eq_true] at hrest
  have hne : ¬ ("1" = "length") := by decide
  simp only [setMember, hro1, Bool.false_eq_true, if_false, hes, hne, parseIndex_small.2.1,
    writeIndex]
  rw [if_pos hrest.2]

/-- After the resolved value has been stored, the tuple still starts with the name and
holds the value in slot 1. -/
theorem member_after_slot_one (P : Platform) (w : World) (a : Nat) (name : String)
    (rest : List Val) (value : Val)
    (hes : (cellAt w a).elems = some (Val.str name :: rest)) :
    member P (writeIndex w (Val.ref a) 1 value) (Val.ref a) "0" = Val.str name ∧
    member P (writeIndex w (Val.ref a) 1 value) (Val.ref a) "1" = value := by
  have hlt := lt_length_of_elems w a _ hes
  have hcell : (cellAt (writeIndex w (Val.ref a) 1 value) a).elems =
      some (setElem (Val.str name :: rest) 1 value) := by
    simp [writeIndex, hes, cellAt_setCell w a _ hlt]
  obtain ⟨m0, m1, _, _⟩ := member_tuple P _ a _ hcell
  rw [m0, m1, setElem_one_head, getElem?_setElem]
  exact ⟨rfl, rfl⟩

/-- C16, counterexample.  The tuple `['x', 7, '']` has a nested value that is present
(the empty name, which as a message evaluates to `undefined`), yet the literal 7 is
assigned and returned.  The tuple `['x', 1]` against the context 5 assigns nothing:
it throws.  The tuple `['length', 'many']` against a list assigns nothing: it throws.
The tuple `['self', 1]` against the root scope, whose `self` cannot be assigned,
assigns nothing: it throws, and `self` is still the root scope afterwards. -/
theorem processRequestProperty_not_as_claimed :
    ((processRequestProperty demoPlatform 5 (Val.ref 10) (Val.ref selfAddr)
        (demoWorld { elems := some [Val.str "x", Val.num 7, Val.str ""] })).1
        = Res.ok (Val.num 7) ∧
      (process demoPlatform 5 (Val.str "")
        (demoWorld { elems := some [Val.str "x", Val.num 7, Val.str ""] })).1
        = Res.ok Val.undefined) ∧
    ((processRequestProperty demoPlatform 5 (Val.ref 10) (Val.num 5)
        (demoWorld { elems := some [Val.str "x", Val.num 1] })).1
        = Res.throw (Val.ref 12)) ∧
    ((processRequestProperty demoPlatform 5 (Val.ref 10) (Val.ref 12)
        (demoWorld2 { elems := some [Val.str "length", Val.str "many"] }
          { elems := some [Val.num 1] })).1
        = Res.throw (Val.ref 13)) ∧
    ((processRequestProperty demoPlatform 5 (Val.ref 10) (Val.ref selfAddr)
        (demoWorld { elems := some [Val.str "self", Val.num 1] })).1
        = Res.throw (Val.ref 12) ∧
      member demoPlatform
        (processRequestProperty demoPlatform 5 (Val.ref 10) (Val.ref selfAddr)
          (demoWorld { elems := some [Val.str "self", Val.num 1] })).2
        (Val.ref selfAddr) "self" = Val.ref selfAddr) := by
  decide

/-- C16, amended: for a tuple `[name, value, processedValue, processedValueArray]`, with
`v` the list returned by `processMultiple(processedValueArray)` when the value list
is truthy, otherwise the result of `process(processedValue)` when the nested value is
truthy, `processRequestProperty` stores `v` in slot 1 of the tuple (a plain list, which takes
it) and performs the assignment `context[name] = v`; when both are falsy and one of
the three is present it performs the assignment `context[name] = value` with the
literal value.  On a context that is an object on which `name` can be assigned (the
name is not read-only there, the property exists already or the object is extensible,
and for a list the name is not `length`) the assignment returns the assigned value,
and `context[name]` is that value afterwards. -/
theorem processRequestProperty_assigns (P : Platform) (fuel : Nat) (w : World) (a : Nat)
    (context : Val) (name : String) (rest : List Val)
    (hes : (cellAt w a).elems = some (Val.str name :: rest)) :
    (∀ v w2 rest2,
      (truthy (member P w (Val.ref a) "3") = true ∨ truthy (member P w (Val.ref a) "2") = true) →
      (if truthy (member P w (Val.ref a) "3") then
          processMultiple P fuel (member P w (Val.ref a) "3") w
        else process P fuel (member P w (Val.ref a) "2") w) = (Res.ok v, w2) →
      (cellAt w2 a).elems = some (Val.str name :: rest2) →
      assignable w2 a "1" = true →
      processRequestProperty P (fuel + 1) (Val.ref a) context w =
        setMember P (writeIndex w2 (Val.ref a) 1 v) context name v) ∧
    (truthy (member P w (Val.ref a) "3") = false →
      truthy (member P w (Val.ref a) "2") = false →
      ¬ (member P w (Val.ref a) "1" = Val.undefined ∧
         member P w (Val.ref a) "2" = Val.undefined ∧
         member P w (Val.ref a) "3" = Val.undefined) →
      processRequestProperty P (fuel + 1) (Val.ref a) context w =
        setMember P w context name (member P w (Val.ref a) "1")) ∧
    (∀ (w' : World) (c : Nat) (value : Val), c < w'.heap.length →
      assignable w' c name = true →
      (setMember P w' (Val.ref c) name value).1 = Res.ok value ∧
      member P (setMember P w' (Val.ref c) name value).2 (Val.ref c) name = value) := by
  have hget : getMember P w (Val.ref a) "1" = (Res.ok (member P w (Val.ref a) "1"), w) :=
    getMember_ok P w (Val.ref a) "1" (by simp) (by simp)
  have hname : member P w (Val.ref a) "0" = Val.str name := by
    rw [(member_tuple P w a _ hes).1]
    simp
  refine ⟨?_, ?_, ?_⟩
  · intro v w2 rest2 htruthy hnest htuple hslot
    have hwrite : ¬ (typeOf w (member P w (Val.ref a) "1") = "undefined" ∧
        typeOf w (member P w (Val.ref a) "2") = "undefined" ∧
        typeOf w (member P w (Val.ref a) "3") = "undefined") := by
      rintro ⟨_, h2, h3⟩
      rcases htruthy with h | h
      · exact typeOf_ne_undefined_of_truthy w _ h h3
      · exact typeOf_ne_undefined_of_truthy w _ h h2
    have hcond : (typeOf w (member P w (Val.ref a) "1") == "undefined" &&
        typeOf w (member P w (Val.ref a) "2") == "undefined" &&
        typeOf w (member P w (Val.ref a) "3") == "undefined") = false := by
      rw [Bool.eq_false_iff]
      intro hc
      simp only [Bool.and_eq_true, beq_iff_eq] at hc
      exact hwrite ⟨hc.1.1, hc.1.2, hc.2⟩
    obtain ⟨m0, m1⟩ := member_after_slot_one P w2 a name rest2 v htuple
    have hstore := setMember_slot_one P w2 a _ v htuple hslot
    cases h3 : truthy (member P w (Val.ref a) "3") with
    | true =>
      rw [h3] at hnest
      simp only [if_true] at hnest
      simp [processRequestProperty, hget, andThen, hcond, h3, hnest, hstore, m0, m1, toStr]
    | false =>
      rw [h3] at hnest
      simp only [Bool.false_eq_true, if_false] at hnest
      have h2 : truthy (member P w (Val.ref a) "2") = true := by
        rcases htruthy with h | h
        · rw [h3] at h
          cases h
        · exact h
      simp [processRequestProperty, hget, andThen, hcond, h3, h2, hnest, hstore, m0, m1, toStr]
  · intro h3 h2 hpresent
    have hwrite : ¬ (typeOf w (member P w (Val.ref a) "1") = "undefined" ∧
        typeOf w (member P w (Val.ref a) "2") = "undefined" ∧
        typeOf w (member P w (Val.ref a) "3") = "undefined") := by
      rintro ⟨t1, t2, t3⟩
      exact hpresent ⟨(typeOf_eq_undefined w _).mp t1, (typeOf_eq_undefined w _).mp t2,
        (typeOf_eq_undefined w _).mp t3⟩
    have hcond : (typeOf w (member P w (Val.ref a) "1") == "undefined" &&
        typeOf w (member P w (Val.ref a) "2") == "undefined" &&
        typeOf w (member P w (Val.ref a) "3") == "undefined") = false := by
      rw [Bool.eq_false_iff]
      intro hc
      simp only [Bool.and_eq_true, beq_iff_eq] at hc
      exact hwrite ⟨hc.1.1, hc.1.2, hc.2⟩
    simp [processRequestProperty, hget, andThen, hcond, h3, h2, hname, toStr]
  · intro w' c value hc hassign
    exact member_setMember P w' c name value hc hassign

end DynamicWorker

namespace DynamicWorker

/-- Witness for C16: in the demo scope `five` resolves to 5; the tuple
`['x', undefined, 'five']` against the root scope returns 5 and leaves 5 in `x`. -/
theorem processRequestProperty_assigns_witness :
    (processRequestProperty demoPlatform 5 (Val.ref 10) (Val.ref selfAddr)
      (demoWorld { elems := some [Val.str "x", Val.undefined, Val.str "five"] })).1
      = Res.ok (Val.num 5) ∧
    member demoPlatform
      (processRequestProperty demoPlatform 5 (Val.ref 10) (Val.ref selfAddr)
        (demoWorld { elems := some [Val.str "x", Val.undefined, Val.str "five"] })).2
      (Val.ref selfAddr) "x" = Val.num 5 := by
  have h := (processRequestProperty_assigns demoPlatform 4
    (demoWorld { elems := some [Val.str "x", Val.undefined, Val.str "five"] }) 10
    (Val.ref selfAddr) "x" [Val.undefined, Val.str "five"] (by decide)).1
    (Val.num 5)
    (process demoPlatform 4 (Val.str "five")
      (demoWorld { elems := some [Val.str "x", Val.undefined, Val.str "five"] })).2
    [Val.undefined, Val.str "five"] (Or.inr (by decide)) (by decide) (by decide) (by decide)
  rw [h]
  decide

end DynamicWorker

namespace DynamicWorker

/-- Writing slot `i` of a list whose elements are `pre ++ r :: rest`, with `i` the
length of `pre`, gives the elements `pre ++ value :: rest`. -/
theorem elemsOf_writeIndex (w : World) (a : Nat) (pre rest : List Val) (r value : Val)
    (h : elemsOf w (Val.ref a) = pre ++ r :: rest) :
    elemsOf (writeIndex w (Val.ref a) pre.length value) (Val.ref a) = pre ++ value :: rest := by
  cases he : (cellAt w a).elems with
  | none => simp [elemsOf, he] at h
  | some es =>
    have hes : es = pre ++ r :: rest := by simpa [elemsOf, he] using h
    have hlt := lt_length_of_elems w a es he
    simp only [writeIndex, he, elemsOf, cellAt_setCell w a _ hlt, Option.getD_some]
    subst hes
    simp [setElem]

/-- An element assignment on a list that returns has written the element. -/
theorem setIndex_ok (P : Platform) (w w2 : World) (a i : Nat) (es : List Val) (value x : Val)
    (hes : (cellAt w a).elems = some es)
    (h : setIndex P w (Val.ref a) i value = (Res.ok x, w2)) :
    w2 = writeIndex w (Val.ref a) i value := by
  simp only [setIndex, hes] at h
  split at h
  · simp [throwNew] at h
  · split at h
    · exact ((Prod.mk.inj h).2).symm
    · simp [throwNew] at h

/-- The loop of `processMultiple` from index `i` agrees with the independent-list rule
on the remaining requests, as long as their evaluation leaves the list alone. -/
theorem processMultipleFrom_independent (P : Platform) (a : Nat) :
    ∀ (rest : List Val) (fuel : Nat) (w : World) (pre : List Val),
      elemsOf w (Val.ref a) = pre ++ rest →
      leavesList P fuel (Val.ref a) pre.length rest w = true →
      (∀ vs w', resolveIndependently P fuel (Val.ref a) pre.length rest w
          = (Resolved.values vs, w') →
        processMultipleFrom P (fuel + 1) (Val.ref a) pre.length w = (Res.ok (Val.ref a), w') ∧
        elemsOf w' (Val.ref a) = pre ++ vs ∧ vs.length = rest.length) ∧
      (∀ e w', resolveIndependently P fuel (Val.ref a) pre.length rest w
          = (Resolved.failed e, w') →
        processMultipleFrom P (fuel + 1) (Val.ref a) pre.length w = (Res.throw e, w')) ∧
      (∀ w', resolveIndependently P fuel (Val.ref a) pre.length rest w
          = (Resolved.exhausted, w') →
        processMultipleFrom P (fuel + 1) (Val.ref a) pre.length w = (Res.timeout, w')) := by
  intro rest
  induction rest with
  | nil =>
    intro fuel w pre hel _
    have hs : resolveIndependently P fuel (Val.ref a) pre.length [] w
        = (Resolved.values [], w) := by
      cases fuel <;> rfl
    rw [hs]
    refine ⟨?_, ?_, ?_⟩
    · intro vs w' h
      obtain ⟨hv, hw⟩ := Prod.mk.inj h
      cases hv
      subst hw
      refine ⟨?_, by simpa using hel, rfl⟩
      simp [processMultipleFrom, hel]
    · intro e w' h
      cases (Prod.mk.inj h).1
    · intro w' h
      cases (Prod.mk.inj h).1
  | cons r rest ih =>
    intro fuel w pre hel hkeep
    have hi : pre.length < (elemsOf w (Val.ref a)).length := by
      rw [hel]
      simp
    have hr : (elemsOf w (Val.ref a)).getD pre.length Val.undefined = r := by
      rw [hel, List.getD_eq_getElem?_getD, List.getElem?_append_right (Nat.le_refl _)]
      simp
    cases fuel with
    | zero =>
      have hs : resolveIndependently P 0 (Val.ref a) pre.length (r :: rest) w
          = (Resolved.exhausted, w) := rfl
      have hc : processMultipleFrom P 1 (Val.ref a) pre.length w = (Res.timeout, w) := by
        rw [processMultipleFrom]
        simp only [hi, if_true, hr]
        rfl
      rw [hs, hc]
      refine ⟨?_, ?_, ?_⟩
      · intro vs w' h
        cases (Prod.mk.inj h).1
      · intro e w' h
        cases (Prod.mk.inj h).1
      · intro w' h
        rw [(Prod.mk.inj h).2]
    | succ f =>
      have hc : processMultipleFrom P (f + 2) (Val.ref a) pre.length w =
          andThen (process P (f + 1) r w) fun v w1 =>
          andThen (setIndex P w1 (Val.ref a) pre.length v) fun _ w2 =>
            processMultipleFrom P (f + 1) (Val.ref a) (pre.length + 1) w2 := by
        rw [processMultipleFrom]
        simp only [hi, if_true, hr]
      rw [hc]
      simp only [resolveIndependently]
      simp only [leavesList] at hkeep
      cases hp : process P (f + 1) r w with
      | mk res w1 =>
        rw [hp] at hkeep
        cases res with
        | throw e =>
          simp only [andThen]
          refine ⟨?_, ?_, ?_⟩
          · intro vs w' h
            cases (Prod.mk.inj h).1
          · intro e' w' h
            obtain ⟨he, hw⟩ := Prod.mk.inj h
            cases he
            rw [hw]
          · intro w' h
            cases (Prod.mk.inj h).1
        | timeout =>
          simp only [andThen]
          refine ⟨?_, ?_, ?_⟩
          · intro vs w' h
            cases (Prod.mk.inj h).1
          · intro e' w' h
            cases (Prod.mk.inj h).1
          · intro w' h
            rw [(Prod.mk.inj h).2]
        | ok v =>
          simp only [Bool.and_eq_true, beq_iff_eq] at hkeep
          obtain ⟨hsame, hkeep2⟩ := hkeep
          simp only [andThen]
          cases hset : setIndex P w1 (Val.ref a) pre.length v with
          | mk res2 w2 =>
            rw [hset] at hkeep2
            cases res2 with
            | throw e =>
              simp only []
              refine ⟨?_, ?_, ?_⟩
              · intro vs w' h
                cases (Prod.mk.inj h).1
              · intro e' w' h
                obtain ⟨he, hw⟩ := Prod.mk.inj h
                cases he
                rw [hw]
              · intro w' h
                cases (Prod.mk.inj h).1
            | timeout =>
              simp only []
              refine ⟨?_, ?_, ?_⟩
              · intro vs w' h
                cases (Prod.mk.inj h).1
              · intro e' w' h
                cases (Prod.mk.inj h).1
              · intro w' h
                rw [(Prod.mk.inj h).2]
            | ok x =>
              simp only [] at hkeep2 ⊢
              have hes1 : (cellAt w1 a).elems = some (pre ++ r :: rest) := by
                have h1 : elemsOf w1 (Val.ref a) = pre ++ r :: rest := by rw [hsame, hel]
                cases he : (cellAt w1 a).elems with
                | none => simp [elemsOf, he] at h1
                | some es => simpa [elemsOf, he] using h1
              have hw2 := setIndex_ok P w1 w2 a pre.length _ v x hes1 hset
              have hel1 : elemsOf w2 (Val.ref a) = (pre ++ [v]) ++ rest := by
                rw [hw2, elemsOf_writeIndex w1 a pre rest r v (by rw [hsame, hel])]
                simp
              have hlen : (pre ++ [v]).length = pre.length + 1 := by simp
              have hrec := ih f w2 (pre ++ [v]) hel1 (by rw [hlen]; exact hkeep2)
              rw [hlen] at hrec
              obtain ⟨h1, h2, h3⟩ := hrec
              cases hspec : resolveIndependently P f (Val.ref a) (pre.length + 1) rest w2 with
              | mk out w3 =>
                cases out with
                | values vs' =>
                  obtain ⟨g1, g2, g3⟩ := h1 vs' w3 hspec
                  refine ⟨?_, ?_, ?_⟩
                  · intro vs w' h
                    obtain ⟨hv, hw⟩ := Prod.mk.inj h
                    cases hv
                    subst hw
                    exact ⟨g1, by simpa using g2, by simp [g3]⟩
                  · intro e w' h
                    cases (Prod.mk.inj h).1
                  · intro w' h
                    cases (Prod.mk.inj h).1
                | failed e =>
                  have g := h2 e w3 hspec
                  refine ⟨?_, ?_, ?_⟩
                  · intro vs w' h
                    cases (Prod.mk.inj h).1
                  · intro e' w' h
                    obtain ⟨he, hw⟩ := Prod.mk.inj h
                    cases he
                    subst hw
                    exact g
                  · intro w' h
                    cases (Prod.mk.inj h).1
                | exhausted =>
                  have g := h3 w3 hspec
                  refine ⟨?_, ?_, ?_⟩
                  · intro vs w' h
                    cases (Prod.mk.inj h).1
                  · intro e' w' h
                    cases (Prod.mk.inj h).1
                  · intro w' h
                    rw [← (Prod.mk.inj h).2]
                    exact g

end DynamicWorker

namespace DynamicWorker

/-- C20, counterexample: the list `L = [[['msg', L], ['1', undefined, 'note']], 'five']`
holds itself.  Its first element, evaluated as a message, stores `L` in the scope and
then puts the record `note` in the place of `'five'`.  The loop reads the list anew
at every step, so `processMultiple(L)` evaluates the record `note` as its second
request and leaves the list `[note, undefined]`, although `process('five')` is 5: the
second element of the result is not `process` of the second element of the list. -/
theorem processMultiple_not_independent :
    elemsOf cyclicList (Val.ref 12) = [Val.ref 11, Val.str "five"] ∧
    (processMultiple demoPlatform 10 (Val.ref 12) cyclicList).1 = Res.ok (Val.ref 12) ∧
    elemsOf (processMultiple demoPlatform 10 (Val.ref 12) cyclicList).2 (Val.ref 12)
      = [Val.ref 6, Val.undefined] ∧
    (process demoPlatform 8 (Val.ref 11) cyclicList).1 = Res.ok (Val.ref 6) ∧
    (process demoPlatform 8 (Val.str "five") cyclicList).1 = Res.ok (Val.num 5) ∧
    (process demoPlatform 8 (Val.str "five")
      (process demoPlatform 8 (Val.ref 11) cyclicList).2).1 = Res.ok (Val.num 5) ∧
    (resolveIndependently demoPlatform 8 (Val.ref 12) 0 [Val.ref 11, Val.str "five"]
      cyclicList).1 = Resolved.values [Val.ref 6, Val.num 5] ∧
    leavesList demoPlatform 8 (Val.ref 12) 0 [Val.ref 11, Val.str "five"] cyclicList
      = false := by
  decide

/-- C20, amended: for a list of requests `rs` that the evaluation of its elements leaves
unchanged (apart from each result taking the place of its request), `processMultiple`
does what the independent-list rule does: each request is evaluated with `process`
as its own message from the root scope, never against the result of another element,
and its result is assigned to its place.
When the rule yields the results `vs`, `processMultiple` returns the list, which then
holds exactly `vs` and has the length of `rs`; when a request fails or the budget runs
out, `processMultiple` fails in the same way.  A request that is not a list is handled
as the one-element list that holds it. -/
theorem processMultiple_independent (P : Platform) (fuel : Nat) (w : World) (a : Nat)
    (rs : List Val)
    (hrs : (cellAt w a).elems = some rs)
    (hkeep : leavesList P fuel (Val.ref a) 0 rs w = true) :
    (∀ vs w', resolveIndependently P fuel (Val.ref a) 0 rs w = (Resolved.values vs, w') →
      processMultiple P (fuel + 2) (Val.ref a) w = (Res.ok (Val.ref a), w') ∧
      elemsOf w' (Val.ref a) = vs ∧
      vs.length = rs.length) ∧
    (∀ e w', resolveIndependently P fuel (Val.ref a) 0 rs w = (Resolved.failed e, w') →
      processMultiple P (fuel + 2) (Val.ref a) w = (Res.throw e, w')) ∧
    (∀ w', resolveIndependently P fuel (Val.ref a) 0 rs w = (Resolved.exhausted, w') →
      processMultiple P (fuel + 2) (Val.ref a) w = (Res.timeout, w')) ∧
    (∀ r, isArray w r = false →
      processMultiple P (fuel + 2) r w =
        processMultiple P (fuel + 2) (allocArray [r] w).1 (allocArray [r] w).2) := by
  have hel : elemsOf w (Val.ref a) = [] ++ rs := by simp [elemsOf, hrs]
  obtain ⟨h1, h2, h3⟩ := processMultipleFrom_independent P a rs fuel w [] hel hkeep
  have harr : isArray w (Val.ref a) = true := by simp [isArray, hrs]
  have hpm : processMultiple P (fuel + 2) (Val.ref a) w =
      processMultipleFrom P (fuel + 1) (Val.ref a) 0 w := by
    rw [processMultiple]
    simp only [harr, if_true]
  refine ⟨?_, ?_, ?_, ?_⟩
  · intro vs w' hspec
    obtain ⟨g1, g2, g3⟩ := h1 vs w' hspec
    exact ⟨by rw [hpm]; exact g1, by simpa using g2, g3⟩
  · intro e w' hspec
    rw [hpm]
    exact h2 e w' hspec
  · intro w' hspec
    rw [hpm]
    exact h3 w' hspec
  · intro r hr
    have hnew : isArray (allocArray [r] w).2 (allocArray [r] w).1 = true := by
      have hfst : (allocArray [r] w).1 = Val.ref w.heap.length := rfl
      rw [hfst]
      simp [isArray, allocArray, cellAt_alloc_new]
    rw [processMultiple, processMultiple]
    simp only [hr, hnew, if_true, Bool.false_eq_true, if_false]

/-- Witness for C20: the list `['five', 'note']` in the demo scope resolves to the list
holding 5 and the record `note`. -/
theorem processMultiple_independent_witness :
    (processMultiple demoPlatform 7 (Val.ref 10)
      (demoWorld { elems := some [Val.str "five", Val.str "note"] })).1 = Res.ok (Val.ref 10) ∧
    elemsOf (processMultiple demoPlatform 7 (Val.ref 10)
      (demoWorld { elems := some [Val.str "five", Val.str "note"] })).2 (Val.ref 10)
      = [Val.num 5, Val.ref 6] := by
  have h := (processMultiple_independent demoPlatform 5
    (demoWorld { elems := some [Val.str "five", Val.str "note"] })
    10 [Val.str "five", Val.str "note"] (by decide) (by decide)).1
    [Val.num 5, Val.ref 6]
    (resolveIndependently demoPlatform 5 (Val.ref 10) 0 [Val.str "five", Val.str "note"]
      (demoWorld { elems := some [Val.str "five", Val.str "note"] })).2
    (by decide)
  rw [h.1]
  exact ⟨rfl, h.2.1⟩

end DynamicWorker

namespace DynamicWorker

/-- Sequencing is associative. -/
theorem andThen_assoc (x : Res × World) (k1 k2 : Val → World → Res × World) :
    andThen (andThen x k1) k2 = andThen x fun v w => andThen (k1 v w) k2 := by
  obtain ⟨r, w⟩ := x
  cases r <;> rfl

/-- The fold over no request returns the starting value. -/
theorem foldRequests_nil (P : Platform) (fuel : Nat) (result : Val) (w : World) :
    foldRequests P fuel [] result w = (Res.ok result, w) := by
  cases fuel <;> rfl

/-- The fold over one request is the evaluation of that request. -/
theorem foldRequests_single (P : Platform) (fuel : Nat) (r result : Val) (w : World) :
    foldRequests P fuel [r] result w = processRequest P fuel r result w := by
  cases fuel with
  | zero => simp [foldRequests, processRequest]
  | succ f =>
    simp only [foldRequests]
    generalize processRequest P (f + 1) r result w = x
    obtain ⟨res, w1⟩ := x
    cases res <;> simp [andThen, foldRequests_nil]

/-- The fold over `xs ++ [r]` is the evaluation of `r` against the result of the fold
over `xs`. -/
theorem foldRequests_snoc (P : Platform) (xs : List Val) (r : Val) :
    ∀ (fuel : Nat) (result : Val) (w : World),
      foldRequests P fuel (xs ++ [r]) result w =
        andThen (foldRequests P fuel xs result w)
          fun v w1 => processRequest P (fuel - xs.length) r v w1 := by
  induction xs with
  | nil =>
    intro fuel result w
    simp [foldRequests_nil, andThen, foldRequests_single]
  | cons x rest ih =>
    intro fuel result w
    cases fuel with
    | zero => simp [foldRequests, andThen]
    | succ f =>
      simp only [List.cons_append, foldRequests, andThen_assoc, List.length_cons,
        Nat.add_sub_add_right]
      congr 1
      funext v w1
      exact ih f v w1

/-- The loop of `process` from index `i` agrees with the fold over the remaining
requests, as long as the evaluation leaves the list alone. -/
theorem processFrom_fold (P : Platform) (a : Nat) :
    ∀ (rest : List Val) (fuel : Nat) (w : World) (result : Val) (pre : List Val),
      elemsOf w (Val.ref a) = pre ++ rest →
      keepsList P fuel (Val.ref a) rest result w = true →
      processFrom P (fuel + 1) (Val.ref a) pre.length result w =
        foldRequests P fuel rest result w := by
  intro rest
  induction rest with
  | nil =>
    intro fuel w result pre hel _
    rw [foldRequests_nil]
    simp [processFrom, hel]
  | cons r rest ih =>
    intro fuel w result pre hel hkeep
    have hi : pre.length < (elemsOf w (Val.ref a)).length := by
      rw [hel]
      simp
    have hr : (elemsOf w (Val.ref a)).getD pre.length Val.undefined = r := by
      rw [hel, List.getD_eq_getElem?_getD, List.getElem?_append_right (Nat.le_refl _)]
      simp
    rw [processFrom]
    simp only [hi, if_true, hr]
    cases fuel with
    | zero => simp [processRequest, andThen, foldRequests]
    | succ f =>
      simp only [foldRequests]
      simp only [keepsList] at hkeep
      cases hp : processRequest P (f + 1) r result w with
      | mk res w1 =>
        rw [hp] at hkeep
        cases res with
        | throw e => rfl
        | timeout => rfl
        | ok v =>
          simp only [Bool.and_eq_true, beq_iff_eq] at hkeep
          have hel1 : elemsOf w1 (Val.ref a) = (pre ++ [r]) ++ rest := by
            rw [hkeep.1, hel]
            simp
          have := ih f w1 v (pre ++ [r]) hel1 hkeep.2
          simp only [List.length_append, List.length_singleton] at this
          simp only [andThen]
          exact this

/-- For a list that the evaluation leaves alone, `process` is the fold of
`processRequest` over its elements, starting from the root scope. -/
theorem process_eq_fold (P : Platform) (fuel : Nat) (w : World) (a : Nat) (rs : List Val)
    (hrs : (cellAt w a).elems = some rs)
    (hkeep : keepsList P fuel (Val.ref a) rs (Val.ref selfAddr) w = true) :
    process P (fuel + 2) (Val.ref a) w = foldRequests P fuel rs (Val.ref selfAddr) w := by
  have hel : elemsOf w (Val.ref a) = [] ++ rs := by simp [elemsOf, hrs]
  have harr : isArray w (Val.ref a) = true := by simp [isArray, hrs]
  rw [process]
  simp only [harr, if_true]
  exact processFrom_fold P a rs fuel w (Val.ref selfAddr) [] hel hkeep

end DynamicWorker

namespace DynamicWorker

/-- C21, counterexample: the message `M = [['msg', M], ['2', undefined, 'self'], 'five']`
holds itself.  Its first element stores `M` in the scope and returns it; its second,
evaluated against `M`, puts the root scope in the place of `'five'`.  The loop reads
the list anew at every step, so `process(M)` evaluates the root scope as its third
request and returns `undefined`; but `processRequest('five', process(xs))`, with `xs`
a list of the first two elements of `M`, gives 5, and so does the left fold of
`processRequest` over the three elements. -/
theorem process_not_a_fold :
    elemsOf cyclicMessage (Val.ref 11) = [Val.ref 9, Val.ref 10, Val.str "five"] ∧
    elemsOf cyclicMessage (Val.ref 12) = [Val.ref 9, Val.ref 10] ∧
    (process demoPlatform 8 (Val.ref 11) cyclicMessage).1 = Res.ok Val.undefined ∧
    (andThen (process demoPlatform 8 (Val.ref 12) cyclicMessage)
      fun v w1 => processRequest demoPlatform 4 (Val.str "five") v w1).1
      = Res.ok (Val.num 5) ∧
    (foldRequests demoPlatform 6 [Val.ref 9, Val.ref 10, Val.str "five"] (Val.ref selfAddr)
      cyclicMessage).1 = Res.ok (Val.num 5) ∧
    elemsOf (process demoPlatform 8 (Val.ref 11) cyclicMessage).2 (Val.ref 11)
      = [Val.ref 9, Val.ref 10, Val.ref 0] ∧
    keepsList demoPlatform 6 (Val.ref 11) [Val.ref 9, Val.ref 10, Val.str "five"]
      (Val.ref selfAddr) cyclicMessage = false := by
  decide

/-- C21, amended: for a message list `rs` that its own evaluation leaves unchanged
(after every step the list holds the elements it held before), `process` is the left
fold of `processRequest` over `rs` starting from the root scope.  So the empty list
gives the root scope; a list `xs ++ [r]` gives `processRequest(r, process(xs))`, with
`process(xs)` taken on a list holding `xs` that its evaluation leaves unchanged too;
and a request that is not a list is processed as the one-element list that holds
it. -/
theorem process_left_fold (P : Platform) (fuel : Nat) (w : World) (a : Nat) (rs : List Val)
    (hrs : (cellAt w a).elems = some rs)
    (hkeep : keepsList P fuel (Val.ref a) rs (Val.ref selfAddr) w = true) :
    process P (fuel + 2) (Val.ref a) w = foldRequests P fuel rs (Val.ref selfAddr) w ∧
    (rs = [] → process P (fuel + 2) (Val.ref a) w = (Res.ok (Val.ref selfAddr), w)) ∧
    (∀ b xs r, rs = xs ++ [r] → (cellAt w b).elems = some xs →
      keepsList P fuel (Val.ref b) xs (Val.ref selfAddr) w = true →
      process P (fuel + 2) (Val.ref a) w =
        andThen (process P (fuel + 2) (Val.ref b) w)
          fun v w1 => processRequest P (fuel - xs.length) r v w1) ∧
    (∀ r, isArray w r = false →
      process P (fuel + 2) r w =
        process P (fuel + 2) (allocArray [r] w).1 (allocArray [r] w).2) := by
  have hfold := process_eq_fold P fuel w a rs hrs hkeep
  refine ⟨hfold, ?_, ?_, ?_⟩
  · intro hnil
    rw [hfold, hnil, foldRequests_nil]
  · intro b xs r hsnoc hxs hkeepb
    rw [hfold, hsnoc, foldRequests_snoc, process_eq_fold P fuel w b xs hxs hkeepb]
  · intro r hr
    have hfst : (allocArray [r] w).1 = Val.ref w.heap.length := rfl
    have hnew : isArray (allocArray [r] w).2 (allocArray [r] w).1 = true := by
      rw [hfst]
      simp [isArray, allocArray, cellAt_alloc_new]
    rw [process, process]
    simp only [hr, hnew, if_true, Bool.false_eq_true, if_false]

/-- Witness for C21: in the demo scope the message `['self', 'five']` is `'five'`
evaluated against the result of the message `['self']`, and gives 5. -/
theorem process_left_fold_witness :
    process demoPlatform 6 (Val.ref 10)
        (demoWorld2 { elems := some [Val.str "self", Val.str "five"] }
          { elems := some [Val.str "self"] }) =
      andThen
        (process demoPlatform 6 (Val.ref 12)
          (demoWorld2 { elems := some [Val.str "self", Val.str "five"] }
            { elems := some [Val.str "self"] }))
        (fun v w1 => processRequest demoPlatform 3 (Val.str "five") v w1) ∧
    (process demoPlatform 6 (Val.ref 10)
        (demoWorld2 { elems := some [Val.str "self", Val.str "five"] }
          { elems := some [Val.str "self"] })).1 = Res.ok (Val.num 5) :=
  ⟨(process_left_fold demoPlatform 4
      (demoWorld2 { elems := some [Val.str "self", Val.str "five"] }
        { elems := some [Val.str "self"] })
      10 [Val.str "self", Val.str "five"] (by decide) (by decide)).2.2.1
      12 [Val.str "self"] (Val.str "five") rfl (by decide) (by decide),
   by decide⟩

end DynamicWorker

namespace PromiseWorker

/-- The lookup of a name after a field has been written. -/
theorem lookup_setField (name : String) (value : Data) (l : List (String × Data)) (k : String) :
    (setField name value l).lookup k = if k = name then some value else l.lookup k := by
  induction l with
  | nil =>
    by_cases h : k = name
    · simp [setField, List.lookup, h]
    · have h' : (k == name) = false := by simpa using h
      simp [setField, List.lookup, h, h']
  | cons kv rest ih =>
    obtain ⟨n, v⟩ := kv
    by_cases hn : n = name
    · subst hn
      by_cases h : k = n
      · simp [setField, List.lookup, h]
      · have h' : (k == n) = false := by simpa using h
        simp [setField, List.lookup, h, h']
    · by_cases h : k = n
      · subst h
        simp [setField, hn, List.lookup]
      · have h' : (k == n) = false := by simpa using h
        simp [setField, hn, List.lookup, h', ih]

/-- The lookup of a name after the fields of a record with distinct names have been
copied over a list: the copied field if there is one, the old one otherwise. -/
theorem lookup_copy (l : List (String × Data)) (hl : (l.map Prod.fst).Nodup) :
    ∀ (acc : List (String × Data)) (k : String),
      (l.foldl (fun acc kv => setField kv.1 kv.2 acc) acc).lookup k =
        (match l.lookup k with
         | some v => some v
         | none => acc.lookup k) := by
  induction l with
  | nil => intro acc k; rfl
  | cons kv rest ih =>
    intro acc k
    obtain ⟨n, v⟩ := kv
    rw [List.map_cons, List.nodup_cons] at hl
    rw [List.foldl_cons, ih hl.2, lookup_setField]
    by_cases h : k = n
    · subst h
      have hnone : rest.lookup k = none := by
        rw [List.lookup_eq_none_iff]
        intro p hp
        rw [bne_iff_ne]
        intro hk
        apply hl.1
        rw [show (k, v).1 = p.1 from hk]
        exact List.mem_map_of_mem Prod.fst hp
      simp [hnone, List.lookup]
    · have h' : (k == n) = false := by simpa using h
      simp [h, List.lookup, h']

end PromiseWorker

namespace PromiseWorker

/-- C22: in the header built by `_generateHeader(o)`, with `d` the client's options and
`g` the generated id, the field `id` is that of `o` when `o` has one and `g`
otherwise; the fields `thisArg`, `logMessages` and `logResult` are those of `o` when
`o` has them and those of `d` otherwise; and so is every further field, for records
whose field names are distinct.  The client's own options are as before, one id has
been drawn, and an argument that is not an object gives the header of the empty
record. -/
theorem generateHeader_merges (H : Host) (c : Client) (options : Option Options) :
    (_generateHeader H c options).1.id =
      some (match (options.getD {}).id with
            | some i => i
            | none => some (H.uuid c.generated)) ∧
    (_generateHeader H c options).1.thisArg =
      (match (options.getD {}).thisArg with
       | some t => some t
       | none => c.options.thisArg) ∧
    (_generateHeader H c options).1.logMessages =
      (match (options.getD {}).logMessages with
       | some b => some b
       | none => c.options.logMessages) ∧
    (_generateHeader H c options).1.logResult =
      (match (options.getD {}).logResult with
       | some b => some b
       | none => c.options.logResult) ∧
    ((c.options.extras.map Prod.fst).Nodup → ((options.getD {}).extras.map Prod.fst).Nodup →
      ∀ k, (_generateHeader H c options).1.extras.lookup k =
        (match (options.getD {}).extras.lookup k with
         | some v => some v
         | none => c.options.extras.lookup k)) ∧
    (_generateHeader H c options).2.options = c.options ∧
    (_generateHeader H c options).2.generated = c.generated + 1 ∧
    _generateHeader H c none = _generateHeader H c (some {}) := by
  refine ⟨?_, ?_, ?_, ?_, ?_, rfl, rfl, rfl⟩
  · cases h : (options.getD {}).id <;> simp [_generateHeader, assign, _generateId, h]
  · cases h : (options.getD {}).thisArg <;> simp [_generateHeader, assign, h]
  · cases h : (options.getD {}).logMessages <;> simp [_generateHeader, assign, h]
  · cases h : (options.getD {}).logResult <;> simp [_generateHeader, assign, h]
  · intro hd ho k
    simp only [_generateHeader, assign, List.foldl_nil]
    rw [lookup_copy _ ho, lookup_copy _ hd]
    cases (options.getD {}).extras.lookup k <;> cases c.options.extras.lookup k <;> rfl

/-- Witness for C22: the client's options carry `logResult: false` and a field `tag`,
the message options carry the id `k` and their own `tag`. -/
theorem generateHeader_merges_witness :
    (_generateHeader demoHost
        { options := { logResult := some false, extras := [("tag", Data.num 1)] } }
        (some { id := some (some "k"), extras := [("tag", Data.num 2)] })).1.getId = some "k" ∧
    (_generateHeader demoHost
        { options := { logResult := some false, extras := [("tag", Data.num 1)] } }
        (some { id := some (some "k"), extras := [("tag", Data.num 2)] })).1.extras.lookup "tag"
      = some (Data.num 2) := by
  have h := generateHeader_merges demoHost
    { options := { logResult := some false, extras := [("tag", Data.num 1)] } }
    (some { id := some (some "k"), extras := [("tag", Data.num 2)] })
  refine ⟨?_, ?_⟩
  · rw [Options.getId, h.1]
    rfl
  · rw [h.2.2.2.2.1 (by decide) (by decide) "tag"]
    rfl

end PromiseWorker

namespace PromiseWorker

/-- C24: with a worker present and no close in flight, `postMessage(message, options)`
first brings the client to a state in which one trigger, keyed by the id of the
header it built, has been appended to the trigger table while nothing has been sent
yet and the callbacks are as before; from that state it transmits one message, whose
header is that header and whose requests are the elements of `message` in their
order when `message` is a list and `message` alone otherwise, and returns the
promise bound to the trigger. -/
theorem postMessage_registers_then_sends (H : Host) (c : Client) (worker : Nat)
    (message : Data) (options : Option Options)
    (hw : c.worker = some worker) (hc : c.closing = none) :
    (registerTrigger H c message options).2.triggers =
      c.triggers ++
        [{ id := (_generateHeader H c options).1.getId, promise := c.promises }] ∧
    (registerTrigger H c message options).2.events = c.events ∧
    (registerTrigger H c message options).2.callbacks = c.callbacks ∧
    (registerTrigger H c message options).1 =
      { header := (_generateHeader H c options).1,
        requests := match message with
          | Data.arr es => es
          | other => [other] } ∧
    postMessage H c message options =
      (Promise.created c.promises,
       { (registerTrigger H c message options).2 with
         events := c.events ++ [Event.send worker (registerTrigger H c message options).1] }) ∧
    (postMessage H c message options).2.triggers =
      c.triggers ++
        [{ id := (_generateHeader H c options).1.getId, promise := c.promises }] ∧
    (postMessage H c message options).2.callbacks = c.callbacks := by
  refine ⟨?_, ?_, ?_, ?_, ?_, ?_, ?_⟩
  · simp [registerTrigger, _addHeaderToMessage, generateHeader_client]
  · simp [registerTrigger, _addHeaderToMessage, generateHeader_client]
  · simp [registerTrigger, _addHeaderToMessage, generateHeader_client]
  · simp [registerTrigger, _addHeaderToMessage]
  · simp [postMessage, hw, hc, registerTrigger, _addHeaderToMessage, generateHeader_client]
  · simp [postMessage, hw, hc, _addHeaderToMessage, generateHeader_client]
  · simp [postMessage, hw, hc, _addHeaderToMessage, generateHeader_client]

/-- Witness for C24: a client with a worker and one pending request posts the chain
`['console', 'log']`. -/
theorem postMessage_registers_then_sends_witness :
    (postMessage demoHost
        { worker := some 0, workerId := some "w", promises := 1, generated := 1,
          triggers := [{ id := some "x", promise := 0 }] }
        (Data.arr [Data.str "console", Data.str "log"]) none).2.triggers =
      [{ id := some "x", promise := 0 }, { id := some "xx", promise := 1 }] ∧
    (registerTrigger demoHost
        { worker := some 0, workerId := some "w", promises := 1, generated := 1,
          triggers := [{ id := some "x", promise := 0 }] }
        (Data.arr [Data.str "console", Data.str "log"]) none).1.requests.length = 2 := by
  have h := postMessage_registers_then_sends demoHost
    { worker := some 0, workerId := some "w", promises := 1, generated := 1,
      triggers := [{ id := some "x", promise := 0 }] } 0
    (Data.arr [Data.str "console", Data.str "log"]) none rfl rfl
  refine ⟨?_, ?_⟩
  · rw [h.2.2.2.2.2.1]
    rfl
  · rw [h.2.2.2.1]
    rfl

end PromiseWorker
namespace DynamicWorker

/-- A freshly made list is not deferred. -/
theorem isDeferred_fresh_list (P : Platform) (w : World) (k : Nat) (es : List Val)
    (h : cellAt w k = { elems := some es }) : isDeferred P w (Val.ref k) = false := by
  simp [isDeferred, (member_fresh_list P w k es h).1, typeOf]

/-- A function object without properties is not deferred. -/
theorem isDeferred_fresh_closure (P : Platform) (w : World) (k : Nat) (code : Fn)
    (h : cellAt w k = { code := some code }) : isDeferred P w (Val.ref k) = false := by
  simp [isDeferred, member, h, namedMember, typeOf]

/-- On a result that is not deferred, `respond` is its second part. -/
theorem respond_eq_respondNow (P : Platform) (w : World) (header v : Val)
    (hnd : isDeferred P w v = false) : respond P header v w = respondNow P header v w := by
  unfold isDeferred at hnd
  simp [respond, hnd]

/-- Recording a call does not change the cells. -/
theorem cellAt_calls (w : World) (calls : List Call) (k : Nat) :
    cellAt { w with calls := calls } k = cellAt w k := rfl

/-- A function called with one argument that is a function object without properties
runs the same whether the closures of the script use `respond` or its second part:
what they respond with, a fresh list or that argument, is not deferred. -/
theorem applyWith_fresh_closure (P : Platform) (w : World) (f thisArg : Val) (k : Nat)
    (code : Fn) (hk : cellAt w k = { code := some code }) :
    applyWith P (respond P) f thisArg [Val.ref k] w =
      applyWith P (respondNow P) f thisArg [Val.ref k] w := by
  cases f with
  | ref a =>
    cases hc : (cellAt w a).code with
    | none => simp [applyWith, hc]
    | some c =>
      cases c with
      | callback header =>
        simp only [applyWith, hc]
        apply respond_eq_respondNow
        have hfst : (allocArray [Val.ref k]
            { w with calls := w.calls ++
              [{ code := Fn.callback header, thisArg := thisArg, args := [Val.ref k] }] }).1
            = Val.ref w.heap.length := rfl
        rw [hfst]
        apply isDeferred_fresh_list P _ _ [Val.ref k]
        simp [allocArray, alloc, cellAt]
      | whenFulfilled header =>
        simp only [applyWith, hc, List.headD_cons]
        rw [respond_eq_respondNow]
        exact isDeferred_fresh_closure P _ k code (by rw [cellAt_calls]; exact hk)
      | whenRejected header =>
        simp only [applyWith, hc, List.headD_cons]
        rw [respond_eq_respondNow]
        exact isDeferred_fresh_closure P _ k code (by rw [cellAt_calls]; exact hk)
      | eval => simp [applyWith, hc]
      | close => simp [applyWith, hc]
      | createCallback => simp [applyWith, hc]
      | native n => simp [applyWith, hc]
  | undefined => rfl
  | null => rfl
  | bool b => rfl
  | num n => rfl
  | str s => rfl

/-- The two calls made by `respondWhenDone` are calls of `applyFn`: `then` is called on
the result with the first closure, and `catch` is called on what that returned with
the second closure. -/
theorem respondWhenDone_applyFn (P : Platform) (header result : Val) (w : World) :
    respondWhenDone P header result w =
      andThen
        (applyFn P (member P w result "then") result [Val.ref w.heap.length]
          { w with heap := w.heap ++ [{ code := some (Fn.whenFulfilled header) }] })
        fun chained w1 =>
      andThen (getMember P w1 chained "catch") fun handler w2 =>
      andThen
        (applyFn P handler chained [Val.ref w2.heap.length]
          { w2 with heap := w2.heap ++ [{ code := some (Fn.whenRejected header) }] })
        fun _ w3 => (Res.ok Val.undefined, w3) := by
  have hfresh : ∀ (w0 : World) (code : Fn) (f thisArg : Val),
      applyFn P f thisArg [Val.ref w0.heap.length]
          { w0 with heap := w0.heap ++ [{ code := some code }] } =
        applyWith P (respondNow P) f thisArg [(alloc { code := some code } w0).1]
          (alloc { code := some code } w0).2 := by
    intro w0 code f thisArg
    unfold applyFn
    exact applyWith_fresh_closure P _ f thisArg w0.heap.length code (by simp [cellAt])
  unfold respondWhenDone
  rw [hfresh w (Fn.whenFulfilled header)]
  congr 1
  funext chained w1
  congr 1
  funext handler w2
  rw [hfresh w2 (Fn.whenRejected header)]

/-- What the two closures of `respondWhenDone` do when they are called: the call is
recorded and `respond` runs on the header and the first argument. -/
theorem applyFn_continuation (P : Platform) (w : World) (k : Nat) (header thisArg : Val)
    (args : List Val) (code : Fn)
    (hcode : (cellAt w k).code = some code)
    (hcont : code = Fn.whenFulfilled header ∨ code = Fn.whenRejected header) :
    applyFn P (Val.ref k) thisArg args w =
      andThen (respond P header (args.headD Val.undefined)
        { w with calls := w.calls ++ [{ code := code, thisArg := thisArg, args := args }] })
        fun _ w2 => (Res.ok Val.undefined, w2) := by
  rcases hcont with h | h <;> subst h <;> simp [applyFn, applyWith, hcode]

/-- An object whose `then` does not return something with a `catch` is taken for a
deferred value all the same: with `then` the function `echo`, which returns a list,
`respond` throws out of `respondWhenDone` and nothing is sent. -/
theorem respond_then_not_chainable :
    isDeferred demoPlatform (demoWorld2 {} { props := [("then", Val.ref 4)] }) (Val.ref 12)
      = true ∧
    (respond demoPlatform (Val.ref 9) (Val.ref 12)
      (demoWorld2 {} { props := [("then", Val.ref 4)] })).1 = Res.throw (Val.ref 16) ∧
    (respond demoPlatform (Val.ref 9) (Val.ref 12)
      (demoWorld2 {} { props := [("then", Val.ref 4)] })).2.outbox = [] ∧
    (respond demoPlatform (Val.ref 9) (Val.ref 12)
      (demoWorld2 {} { props := [("then", Val.ref 4)] })).2.calls
      = [{ code := Fn.native 0, thisArg := Val.ref 12, args := [Val.ref 13] }] := by
  decide

end DynamicWorker

namespace DynamicWorker

/-- C23, counterexample: with the host whose structured clone rejects functions wherever
they occur, `respond` is called with the header at address 9 and the deferred value
`later`; it hands the closures at the addresses 13 and 14 to `then` and `catch` and
sends nothing.  Let `later` then be fulfilled with the list at address 12, which
holds a function.  `respond(header, list)` sends no frame (it throws), but the
closures do: the fault thrown in the first one is answered by the second, and a frame
flagged as an error is sent.  Had `later` failed with the same list, no frame would
have been sent. -/
theorem settled_frame_differs :
    (respond strictPlatform (Val.ref 9) (Val.ref 7)
        (demoWorld2 {} { elems := some [Val.ref 4] })).1 = Res.ok Val.undefined ∧
    (respond strictPlatform (Val.ref 9) (Val.ref 7)
        (demoWorld2 {} { elems := some [Val.ref 4] })).2.outbox = [] ∧
    (respond strictPlatform (Val.ref 9) (Val.ref 7)
        (demoWorld2 {} { elems := some [Val.ref 4] })).2.calls =
      [{ code := Fn.native 2, thisArg := Val.ref 7, args := [Val.ref 13] },
       { code := Fn.native 2, thisArg := Val.ref 7, args := [Val.ref 14] }] ∧
    (respond strictPlatform (Val.ref 9) (Val.ref 12)
        (respond strictPlatform (Val.ref 9) (Val.ref 7)
          (demoWorld2 {} { elems := some [Val.ref 4] })).2).1 = Res.throw (Val.ref 17) ∧
    (respond strictPlatform (Val.ref 9) (Val.ref 12)
        (respond strictPlatform (Val.ref 9) (Val.ref 7)
          (demoWorld2 {} { elems := some [Val.ref 4] })).2).2.outbox = [] ∧
    (whenSettled strictPlatform (Val.ref 13) (Val.ref 14) true (Val.ref 12)
        (respond strictPlatform (Val.ref 9) (Val.ref 7)
          (demoWorld2 {} { elems := some [Val.ref 4] })).2).2.outbox =
      [{ id := Val.str "a", isError := true, result := Val.ref 17 }] ∧
    (whenSettled strictPlatform (Val.ref 13) (Val.ref 14) false (Val.ref 12)
        (respond strictPlatform (Val.ref 9) (Val.ref 7)
          (demoWorld2 {} { elems := some [Val.ref 4] })).2).2.outbox = [] := by
  decide

/-- C23, amended: for a deferred result, `respond` calls `then` on it with a first
closure and `catch`, on what `then` returned, with a second closure, and returns
nothing; it sends no frame of its own, so when the two calls return without sending
one, none has been sent.  Each closure, when called with a value `v`, does what
`respond(header, v)` does (which hands out closures again when `v` is itself
deferred).  So when the result settles with `v` by failure, the second closure does
what `respond(header, v)` does; by fulfilment the first closure does the same unless
`respond(header, v)` throws, in which case the second closure answers that fault with
`respond(header, fault)`.  In particular, when `v` is not deferred and the host can
clone it together with the header id, exactly one frame `{id: header.id, isError:
isResultError(v), result: v}` is sent in either case. -/
theorem respond_deferred_settles (P : Platform) (header result : Val) (w : World)
    (hdef : isDeferred P w result = true) :
    respond P header result w =
      (andThen
        (applyFn P (member P w result "then") result [Val.ref w.heap.length]
          { w with heap := w.heap ++ [{ code := some (Fn.whenFulfilled header) }] })
        fun chained w1 =>
      andThen (getMember P w1 chained "catch") fun handler w2 =>
      andThen
        (applyFn P handler chained [Val.ref w2.heap.length]
          { w2 with heap := w2.heap ++ [{ code := some (Fn.whenRejected header) }] })
        fun _ w3 => (Res.ok Val.undefined, w3)) ∧
    (∀ chained handled wa wb,
      applyFn P (member P w result "then") result [Val.ref w.heap.length]
          { w with heap := w.heap ++ [{ code := some (Fn.whenFulfilled header) }] }
        = (Res.ok chained, wa) →
      (andThen (getMember P wa chained "catch") fun handler w2 =>
        applyFn P handler chained [Val.ref w2.heap.length]
          { w2 with heap := w2.heap ++ [{ code := some (Fn.whenRejected header) }] })
        = (Res.ok handled, wb) →
      respond P header result w = (Res.ok Val.undefined, wb) ∧
      (wb.outbox = w.outbox → (respond P header result w).2.outbox = w.outbox)) ∧
    (∀ w1 f g v,
      (cellAt w1 f).code = some (Fn.whenFulfilled header) →
      (cellAt w1 g).code = some (Fn.whenRejected header) →
      whenSettled P (Val.ref f) (Val.ref g) false v w1 =
        andThen (respond P header v
          { w1 with calls := w1.calls ++
            [{ code := Fn.whenRejected header, thisArg := Val.undefined, args := [v] }] })
          fun _ w2 => (Res.ok Val.undefined, w2)) ∧
    (∀ w1 f g v,
      (cellAt w1 f).code = some (Fn.whenFulfilled header) →
      (cellAt w1 g).code = some (Fn.whenRejected header) →
      (∀ e w2, respond P header v
          { w1 with calls := w1.calls ++
            [{ code := Fn.whenFulfilled header, thisArg := Val.undefined, args := [v] }] }
        ≠ (Res.throw e, w2)) →
      whenSettled P (Val.ref f) (Val.ref g) true v w1 =
        andThen (respond P header v
          { w1 with calls := w1.calls ++
            [{ code := Fn.whenFulfilled header, thisArg := Val.undefined, args := [v] }] })
          fun _ w2 => (Res.ok Val.undefined, w2)) ∧
    (∀ w1 f g v e w2,
      (cellAt w1 f).code = some (Fn.whenFulfilled header) →
      respond P header v
          { w1 with calls := w1.calls ++
            [{ code := Fn.whenFulfilled header, thisArg := Val.undefined, args := [v] }] }
        = (Res.throw e, w2) →
      (cellAt w2 g).code = some (Fn.whenRejected header) →
      whenSettled P (Val.ref f) (Val.ref g) true v w1 =
        andThen (respond P header e
          { w2 with calls := w2.calls ++
            [{ code := Fn.whenRejected header, thisArg := Val.undefined, args := [e] }] })
          fun _ w3 => (Res.ok Val.undefined, w3)) ∧
    (∀ w1 f g v fulfilled,
      (cellAt w1 f).code = some (Fn.whenFulfilled header) →
      (cellAt w1 g).code = some (Fn.whenRejected header) →
      isDeferred P w1 v = false →
      P.cloneable
        { w1 with calls := w1.calls ++
          [{ code := if fulfilled then Fn.whenFulfilled header else Fn.whenRejected header,
             thisArg := Val.undefined, args := [v] }] }
        (getHeaderPropertyValue P w1 header "id") = true →
      P.cloneable
        { w1 with calls := w1.calls ++
          [{ code := if fulfilled then Fn.whenFulfilled header else Fn.whenRejected header,
             thisArg := Val.undefined, args := [v] }] } v = true →
      whenSettled P (Val.ref f) (Val.ref g) fulfilled v w1 =
        (Res.ok Val.undefined,
         { w1 with
           calls := w1.calls ++
            [{ code := if fulfilled then Fn.whenFulfilled header else Fn.whenRejected header,
               thisArg := Val.undefined, args := [v] }],
           outbox := w1.outbox ++
            [{ id := getHeaderPropertyValue P w1 header "id",
               isError := isResultError P w1 v,
               result := v }] })) := by
  have hresp : respond P header result w = respondWhenDone P header result w := by
    unfold isDeferred at hdef
    simp [respond, hdef]
  refine ⟨?_, ?_, ?_, ?_, ?_, ?_⟩
  · rw [hresp, respondWhenDone_applyFn]
  · intro chained handled wa wb hthen hcatch
    have hall : respond P header result w = (Res.ok Val.undefined, wb) := by
      rw [hresp, respondWhenDone_applyFn, hthen]
      simp only [andThen]
      cases hg : getMember P wa chained "catch" with
      | mk res w2 =>
        rw [hg] at hcatch
        cases res with
        | ok handler =>
          simp only [andThen] at hcatch ⊢
          rw [hcatch]
        | throw e => simp [andThen] at hcatch
        | timeout => simp [andThen] at hcatch
    refine ⟨hall, ?_⟩
    intro hq
    rw [hall]
    exact hq
  · intro w1 f g v _ hg
    simp only [whenSettled, Bool.false_eq_true, if_false]
    rw [applyFn_continuation P w1 g header Val.undefined [v] _ hg (Or.inr rfl)]
    rfl
  · intro w1 f g v hf _ hno
    simp only [whenSettled, if_true]
    rw [applyFn_continuation P w1 f header Val.undefined [v] _ hf (Or.inl rfl)]
    simp only [List.headD_cons]
    cases hr : respond P header v
        { w1 with calls := w1.calls ++
          [{ code := Fn.whenFulfilled header, thisArg := Val.undefined, args := [v] }] } with
    | mk res w2 =>
      cases res with
      | ok x => rfl
      | timeout => rfl
      | throw e => exact absurd hr (hno e w2)
  · intro w1 f g v e w2 hf hr hg
    simp only [whenSettled, if_true]
    rw [applyFn_continuation P w1 f header Val.undefined [v] _ hf (Or.inl rfl)]
    simp only [List.headD_cons, hr, andThen, tryCatch]
    rw [applyFn_continuation P w2 g header Val.undefined [e] _ hg (Or.inr rfl)]
    rfl
  · intro w1 f g v fulfilled hf hg hnd hid hv
    cases fulfilled with
    | true =>
      simp only [if_true] at hid hv ⊢
      simp only [whenSettled, if_true]
      rw [applyFn_continuation P w1 f header Val.undefined [v] _ hf (Or.inl rfl)]
      simp only [List.headD_cons]
      rw [respond_frame P
        { w1 with calls := w1.calls ++
          [{ code := Fn.whenFulfilled header, thisArg := Val.undefined, args := [v] }] }
        header v hnd hid hv]
      rfl
    | false =>
      simp only [Bool.false_eq_true, if_false] at hid hv ⊢
      simp only [whenSettled, Bool.false_eq_true, if_false]
      rw [applyFn_continuation P w1 g header Val.undefined [v] _ hg (Or.inr rfl)]
      simp only [List.headD_cons]
      rw [respond_frame P
        { w1 with calls := w1.calls ++
          [{ code := Fn.whenRejected header, thisArg := Val.undefined, args := [v] }] }
        header v hnd hid hv]
      rfl

/-- Witness for C23: in the demo scope `respond` hands the closures at the addresses 12
and 13 to the `then` and the `catch` of the deferred value `later` (address 7) and
sends nothing; when `later` fails with the plain string `oops`, one frame with
`isError = false` is sent. -/
theorem respond_deferred_settles_witness :
    respond demoPlatform (Val.ref 9) (Val.ref 7) (demoWorld {}) =
      (Res.ok Val.undefined,
       { heap := (demoWorld {}).heap ++
           [{ code := some (Fn.whenFulfilled (Val.ref 9)) },
            { code := some (Fn.whenRejected (Val.ref 9)) }],
         calls :=
           [{ code := Fn.native 2, thisArg := Val.ref 7, args := [Val.ref 12] },
            { code := Fn.native 2, thisArg := Val.ref 7, args := [Val.ref 13] }] }) ∧
    (whenSettled demoPlatform (Val.ref 12) (Val.ref 13) false (Val.str "oops")
      (respond demoPlatform (Val.ref 9) (Val.ref 7) (demoWorld {})).2).2.outbox
      = [{ id := Val.str "a", isError := false, result := Val.str "oops" }] := by
  have h := respond_deferred_settles demoPlatform (Val.ref 9) (Val.ref 7) (demoWorld {})
    (by decide)
  refine ⟨?_, ?_⟩
  · rw [h.1]
    decide
  · rw [h.2.2.2.2.2 (respond demoPlatform (Val.ref 9) (Val.ref 7) (demoWorld {})).2 12 13
      (Val.str "oops") false (by decide) (by decide) (by decide) (by decide) (by decide)]
    decide

end DynamicWorker
